import Mathlib

/-!
# homecooking backend: authentication, share codes and invites

A shallow embedding of the Go services in `backend/internal` (auth service,
share-code service, invite service, their repositories, the Auth middleware and
the configuration loader), followed by theorems about them.

Conventions of the embedding.

* A Go call that returns `(T, error)` becomes a `Result T`: a value, a returned
  error (identified by its message, as the callers of this code do), or a panic.
* Code that reads or writes the database takes the database state `DB` as an
  argument and, when it writes, returns the new state.
* `time.Time` is an integer count of nanoseconds since the Unix epoch, and
  `time.Duration` an `int64` count of nanoseconds.  One service call reads the
  clock as a single instant `now`.
* Go `int` is the 64-bit integer of the usual targets; arithmetic on it wraps.
* The third-party libraries (google/uuid, x/crypto/bcrypt, golang-jwt) are the
  fields of a `Lib` record passed to the code that calls them.
-/

set_option autoImplicit false

namespace HomeCooking

/-! ## Go values -/

/-- Outcome of a Go call returning `(T, error)`: the value, the error message,
or the message of a panic. -/
inductive Result (α : Type) where
  | ok (val : α)
  | err (msg : String)
  | panicked (msg : String)
deriving DecidableEq, Repr

deriving instance DecidableEq for Except

/-- Whether the call returned a value. -/
def Result.isOk {α : Type} : Result α → Bool
  | .ok _ => true
  | _ => false

/-- Whether the call returned an error value (and did not panic). -/
def Result.isErr {α : Type} : Result α → Bool
  | .err _ => true
  | _ => false

/-- Two's-complement wrap of an integer into `int64`. -/
def wrapInt64 (x : Int) : Int :=
  (x + 9223372036854775808) % 18446744073709551616 - 9223372036854775808

/-- Two's-complement wrap of an integer into `int32` (the conversion `int32(x)`). -/
def wrapInt32 (x : Int) : Int :=
  (x + 2147483648) % 4294967296 - 2147483648

/-- Instants: nanoseconds since the Unix epoch. -/
abbrev Time := Int

/-- The duration `time.Second`, in nanoseconds. -/
def Second : Int := 1000000000

/-- The duration `time.Hour`, in nanoseconds. -/
def Hour : Int := 3600000000000

/-- Product of two `time.Duration` values (`int64` multiplication). -/
def durationMul (a b : Int) : Int := wrapInt64 (a * b)

/-- The method `t.Truncate(time.Second)`: round down to a whole second. -/
def truncateSecond (t : Time) : Time := t - t % Second

/-- The constructor `jwt.NewNumericDate(t)`: the instant at the precision of one second. -/
def NewNumericDate (t : Time) : Option Time := some (truncateSecond t)

/-- A `uuid.UUID` value (16 bytes, read as a number). -/
structure UUID where
  val : Nat
deriving DecidableEq, Repr

/-! ## Models (`internal/models`) and configuration (`internal/config`) -/

/-- The struct `models.User`. -/
structure User where
  ID : UUID
  Email : String
  PasswordHash : String
  Role : String
  CreatedAt : Time
  UpdatedAt : Time
deriving DecidableEq, Repr

/-- The struct `models.RegisterRequest`. -/
structure RegisterRequest where
  Email : String
  Password : String
deriving DecidableEq, Repr

/-- The struct `models.LoginRequest`. -/
structure LoginRequest where
  Email : String
  Password : String
deriving DecidableEq, Repr

/-- The struct `models.TokenResponse`. -/
structure TokenResponse where
  AccessToken : String
  RefreshToken : String
  ExpiresIn : Int
deriving DecidableEq, Repr

/-- The struct `services.Claims`: the identity fields and the registered claims
the code and the validator read (each date a `*jwt.NumericDate`). -/
structure Claims where
  UserID : String
  Email : String
  Role : String
  ExpiresAt : Option Time
  NotBefore : Option Time
  IssuedAt : Option Time
deriving DecidableEq, Repr

/-- The struct `config.AuthConfig`. -/
structure AuthConfig where
  JWTSecret : String
  RefreshSecret : String
  TokenExpiryHours : Int
deriving DecidableEq, Repr

/-- The part of `config.Config` that the services and `Validate` read. -/
structure Config where
  Environment : String
  Auth : AuthConfig
deriving DecidableEq, Repr

/-- The function `getEnv` of config.go over an environment `env` (an unset variable reads ""). -/
def getEnv (env : String → String) (key defaultValue : String) : String :=
  if env key ≠ "" then env key else defaultValue

/-- The function `getEnvInt` of config.go; `atoi` is `strconv.Atoi`. -/
def getEnvInt (env : String → String) (atoi : String → Option Int) (key : String)
    (defaultValue : Int) : Int :=
  if env key ≠ "" then
    match atoi (env key) with
    | some v => v
    | none => defaultValue
  else defaultValue

/-- The method `Config.Validate`: the placeholder secrets are refused in production only. -/
def Config.Validate (c : Config) : Result Unit :=
  if c.Auth.JWTSecret = "change-me-in-production" ∧ c.Environment = "production" then
    .err "JWT_SECRET must be set in production"
  else if c.Auth.RefreshSecret = "change-me-in-production" ∧ c.Environment = "production" then
    .err "REFRESH_SECRET must be set in production"
  else .ok ()

/-- The function `config.Load`, restricted to the server environment and the auth section. -/
def Load (env : String → String) (atoi : String → Option Int) : Result Config :=
  let cfg : Config :=
    { Environment := getEnv env "SERVER_ENV" "development"
      Auth :=
        { JWTSecret := getEnv env "JWT_SECRET" "change-me-in-production"
          RefreshSecret := getEnv env "REFRESH_SECRET" "change-me-in-production"
          TokenExpiryHours := getEnvInt env atoi "TOKEN_EXPIRY_HOURS" 24 } }
  match cfg.Validate with
  | .ok _ => .ok cfg
  | .err e => .err ("config validation failed: " ++ e)
  | .panicked m => .panicked m

/-! ## Third-party libraries -/

/-- The library functions the services call.

* `uuidParse`, `uuidString`: `uuid.Parse` (`none` when the text is not a UUID) and `UUID.String`.
* `bcryptGenerateFromPassword`, `bcryptCompareHashAndPassword`: the bcrypt calls; the
  comparison is `true` when the Go function returns a nil error.
* `jwtSignedString secret claims`: `jwt.NewWithClaims(HS256, claims).SignedString(secret)`.
* `jwtDecode secret token`: what `jwt.ParseWithClaims` does before it validates the
  registered claims: it parses the compact form and checks the HS256 signature under
  `secret`, giving the decoded claims or the library error.
* `unicodeLowerCase`: the lower-case mapping of the Unicode tables,
  `unicode.To(unicode.LowerCase, r)`, which `unicode.ToLower` consults above ASCII. -/
structure Lib where
  uuidParse : String → Option UUID
  uuidString : UUID → String
  bcryptGenerateFromPassword : String → Except String String
  bcryptCompareHashAndPassword : String → String → Bool
  jwtSignedString : String → Claims → Except String String
  jwtDecode : String → String → Except String Claims
  unicodeLowerCase : Char → Char

/-- The function `uuid.MustParse`: panics when the text is not a UUID.  The panic value is
`uuid: Parse(s): ` followed by the error text of `uuid.Parse`, written here as
`invalid UUID`. -/
def MustParse (L : Lib) (s : String) : Result UUID :=
  match L.uuidParse s with
  | some u => .ok u
  | none => .panicked ("uuid: Parse(" ++ s ++ "): invalid UUID")

/-- A parsed token as `jwt.ParseWithClaims` returns it with a nil error. -/
structure Token where
  Claims : Claims
  Valid : Bool
deriving DecidableEq, Repr

/-- The function `jwt.ParseWithClaims(token, &Claims{}, keyFunc)` with a key function
returning `secret`, at the instant `now`: signature check, then the default validation of
the registered claims (expiry: `now` before `exp`; not-before: `now` not before `nbf`;
an absent date passes; issued-at is not checked). -/
def ParseWithClaims (L : Lib) (secret : String) (now : Time) (tokenString : String) :
    Except String Token :=
  match L.jwtDecode secret tokenString with
  | .error e => .error e
  | .ok c =>
    let expired : Bool :=
      match c.ExpiresAt with
      | some exp => !(decide (now < exp))
      | none => false
    let notYet : Bool :=
      match c.NotBefore with
      | some nbf => decide (now < nbf)
      | none => false
    if expired then .error "token has invalid claims: token is expired"
    else if notYet then .error "token has invalid claims: token is not valid yet"
    else .ok { Claims := c, Valid := true }

/-! ## Database rows and the generated query layer (`internal/db/sqlc`) -/

/-- The struct `sql.NullTime`. -/
structure NullTime where
  Valid : Bool
  Time : HomeCooking.Time
deriving DecidableEq, Repr

/-- The struct `sql.NullInt32`. -/
structure NullInt32 where
  Valid : Bool
  Int32 : Int
deriving DecidableEq, Repr

/-- The struct `sql.NullBool`. -/
structure NullBool where
  Valid : Bool
  Bool : Bool
deriving DecidableEq, Repr

/-- The struct `sql.NullString`. -/
structure NullString where
  Valid : Bool
  String : String
deriving DecidableEq, Repr

/-- The struct `uuid.NullUUID`. -/
structure NullUUID where
  Valid : Bool
  UUID : HomeCooking.UUID
deriving DecidableEq, Repr

/-- The zero `time.Time` (January 1, year 1, UTC) in Unix nanoseconds. -/
def zeroTime : Time := -62135596800000000000

/-- The zero UUID, `uuid.Nil`. -/
def uuidNil : UUID := ⟨0⟩

/-- Scanning a nullable timestamp column: SQL NULL leaves the zero value and `Valid = false`. -/
def scanNullTime : Option Time → NullTime
  | some t => { Valid := true, Time := t }
  | none => { Valid := false, Time := zeroTime }

/-- Scanning a nullable integer column: SQL NULL leaves 0 and `Valid = false`. -/
def scanNullInt32 : Option Int → NullInt32
  | some v => { Valid := true, Int32 := v }
  | none => { Valid := false, Int32 := 0 }

/-- Scanning a nullable boolean column. -/
def scanNullBool : Option Bool → NullBool
  | some b => { Valid := true, Bool := b }
  | none => { Valid := false, Bool := false }

/-- Scanning a nullable text column. -/
def scanNullString : Option String → NullString
  | some s => { Valid := true, String := s }
  | none => { Valid := false, String := "" }

/-- Scanning a nullable UUID column. -/
def scanNullUUID : Option UUID → NullUUID
  | some u => { Valid := true, UUID := u }
  | none => { Valid := false, UUID := uuidNil }

/-- A row of the table `users`; `none` is SQL NULL. -/
structure UserRecord where
  id : UUID
  email : String
  password_hash : String
  role : String
  created_at : Option Time := none
  updated_at : Option Time := none
deriving DecidableEq, Repr

/-- A row of the table `recipes`; `none` is SQL NULL. -/
structure RecipeRecord where
  id : UUID
  title : String
  slug : String
  markdown_content : String := ""
  author_id : Option UUID := none
  category_id : Option UUID := none
  description : Option String := none
  prep_time_minutes : Option Int := none
  cook_time_minutes : Option Int := none
  servings : Option Int := none
  difficulty : Option String := none
  featured_image_path : Option String := none
  is_published : Option Bool := some false
  created_at : Option Time := none
  updated_at : Option Time := none
  published_at : Option Time := none
deriving DecidableEq, Repr

/-- A row of the table `share_codes`; `none` is SQL NULL. -/
structure ShareCodeRecord where
  id : UUID
  recipe_id : Option UUID
  code : String
  expires_at : Option Time := none
  max_uses : Option Int := none
  use_count : Option Int := some 0
  created_at : Option Time := none
deriving DecidableEq, Repr

/-- A row of the table `user_invites`; `none` is SQL NULL. -/
structure UserInviteRecord where
  id : UUID
  code : String
  email : Option String := none
  role : Option String := some "user"
  created_by : Option UUID := none
  expires_at : Option Time := none
  used_at : Option Time := none
  used_by : Option UUID := none
  created_at : Option Time := none
deriving DecidableEq, Repr

/-- A row of the table `recipe_variations`; `none` is SQL NULL. -/
structure RecipeVariationRecord where
  id : UUID
  recipe_id : UUID
  author_id : UUID
  markdown_content : String := ""
  prep_time_minutes : Option Int := none
  cook_time_minutes : Option Int := none
  servings : Option Int := none
  difficulty : Option String := none
  notes : Option String := none
  is_published : Option Bool := some false
  created_at : Option Time := none
  updated_at : Option Time := none
deriving DecidableEq, Repr

/-- The database state: the tables the modelled services touch. -/
structure DB where
  users : List UserRecord := []
  recipes : List RecipeRecord := []
  share_codes : List ShareCodeRecord := []
  user_invites : List UserInviteRecord := []
  recipe_variations : List RecipeVariationRecord := []
deriving DecidableEq, Repr

/-- The error `sql.ErrNoRows`, which a one-row query returns when nothing matches. -/
def ErrNoRows : String := "sql: no rows in result set"

/-- The struct `sqlc.User`. -/
structure SqlcUser where
  ID : UUID
  Email : String
  PasswordHash : String
  Role : String
  CreatedAt : NullTime
  UpdatedAt : NullTime
deriving DecidableEq, Repr

/-- Scanning a `users` row into `sqlc.User`. -/
def scanUser (r : UserRecord) : SqlcUser :=
  { ID := r.id, Email := r.email, PasswordHash := r.password_hash, Role := r.role
    CreatedAt := scanNullTime r.created_at, UpdatedAt := scanNullTime r.updated_at }

/-- The struct `sqlc.CreateUserParams`. -/
structure CreateUserParams where
  Email : String
  PasswordHash : String
  Role : String
deriving DecidableEq, Repr

namespace Queries

/-- Modelled from the spec: the generated query `GetUserByID` is not in the source
files; it is the credential store's `getById(id) → user | NotFound`. -/
def GetUserByID (db : DB) (id : UUID) : Result SqlcUser :=
  match db.users.find? (fun r => decide (r.id = id)) with
  | some r => .ok (scanUser r)
  | none => .err ErrNoRows

/-- Modelled from the spec: the generated query `GetUserByEmail` is not in the source
files; it is the credential store's `getByEmail(email) → user | NotFound`. -/
def GetUserByEmail (db : DB) (email : String) : Result SqlcUser :=
  match db.users.find? (fun r => decide (r.email = email)) with
  | some r => .ok (scanUser r)
  | none => .err ErrNoRows

/-- Modelled from the spec: the generated query `CreateUser` is not in the source
files; it is the credential store's `create(email, passwordHash, role) → user |
DuplicateEmail`, the store enforcing the uniqueness of e-mail and of id.  The
database supplies the new row's id `newID` and its timestamps `now`. -/
def CreateUser (db : DB) (arg : CreateUserParams) (newID : UUID) (now : Time) :
    Result SqlcUser × DB :=
  if db.users.any (fun r => decide (r.email = arg.Email)) then
    (.err "UNIQUE constraint failed: users.email", db)
  else if db.users.any (fun r => decide (r.id = newID)) then
    (.err "UNIQUE constraint failed: users.id", db)
  else
    let r : UserRecord :=
      { id := newID, email := arg.Email, password_hash := arg.PasswordHash, role := arg.Role
        created_at := some now, updated_at := some now }
    (.ok (scanUser r), { db with users := db.users ++ [r] })

end Queries

/-! ## `repository/user_repo.go` -/

namespace UserRepository

/-- The method `UserRepository.sqlcToModel`. -/
def sqlcToModel (dbUser : SqlcUser) : User :=
  { ID := dbUser.ID, Email := dbUser.Email, PasswordHash := dbUser.PasswordHash
    Role := dbUser.Role, CreatedAt := dbUser.CreatedAt.Time, UpdatedAt := dbUser.UpdatedAt.Time }

/-- The method `UserRepository.Create`: insert, then read the new row back by its id. -/
def Create (db : DB) (user : User) (newID : UUID) (now : Time) : Result User × DB :=
  match Queries.CreateUser db
      { Email := user.Email, PasswordHash := user.PasswordHash, Role := user.Role } newID now with
  | (.ok result, db1) =>
    match Queries.GetUserByID db1 result.ID with
    | .ok dbUser => (.ok (sqlcToModel dbUser), db1)
    | .err e => (.err e, db1)
    | .panicked m => (.panicked m, db1)
  | (.err e, db1) => (.err e, db1)
  | (.panicked m, db1) => (.panicked m, db1)

/-- The method `UserRepository.GetByID`: `uuid.MustParse(id)` panics on a malformed id. -/
def GetByID (L : Lib) (db : DB) (id : String) : Result User :=
  match MustParse L id with
  | .ok u =>
    match Queries.GetUserByID db u with
    | .ok dbUser => .ok (sqlcToModel dbUser)
    | .err e => .err e
    | .panicked m => .panicked m
  | .err e => .err e
  | .panicked m => .panicked m

/-- The method `UserRepository.GetByEmail`. -/
def GetByEmail (db : DB) (email : String) : Result User :=
  match Queries.GetUserByEmail db email with
  | .ok dbUser => .ok (sqlcToModel dbUser)
  | .err e => .err e
  | .panicked m => .panicked m

end UserRepository

/-! ## `services/auth_service.go` -/

namespace AuthService

/-- A library result `(string, error)` as a `Result`. -/
def ofExcept {α : Type} : Except String α → Result α
  | .ok v => .ok v
  | .error e => .err e

/-- The local `claims` of `generateAccessToken`: what the access token carries when it
is issued to `user` at the instant `now`. -/
def accessTokenClaims (L : Lib) (cfg : Config) (now : Time) (user : User) : Claims :=
  { UserID := L.uuidString user.ID
    Email := user.Email
    Role := user.Role
    ExpiresAt := NewNumericDate (now + durationMul cfg.Auth.TokenExpiryHours Hour)
    NotBefore := none
    IssuedAt := NewNumericDate now }

/-- The method `AuthService.generateAccessToken` at the instant `now`. -/
def generateAccessToken (L : Lib) (cfg : Config) (now : Time) (user : User) : Result String :=
  ofExcept (L.jwtSignedString cfg.Auth.JWTSecret (accessTokenClaims L cfg now user))

/-- The local `claims` of `generateRefreshToken`: what the refresh token carries when it
is issued to `user` at the instant `now`. -/
def refreshTokenClaims (L : Lib) (now : Time) (user : User) : Claims :=
  { UserID := L.uuidString user.ID
    Email := user.Email
    Role := user.Role
    ExpiresAt := NewNumericDate (now + 24 * 7 * Hour)
    NotBefore := none
    IssuedAt := NewNumericDate now }

/-- The method `AuthService.generateRefreshToken` at the instant `now`. -/
def generateRefreshToken (L : Lib) (cfg : Config) (now : Time) (user : User) : Result String :=
  ofExcept (L.jwtSignedString cfg.Auth.RefreshSecret (refreshTokenClaims L now user))

/-- The method `AuthService.Register`; `newID` and `now` are the id and timestamps
the database gives the new row. -/
def Register (L : Lib) (db : DB) (req : RegisterRequest) (newID : UUID) (now : Time) :
    Result User × DB :=
  match L.bcryptGenerateFromPassword req.Password with
  | .error e => (.err e, db)
  | .ok hashedPassword =>
    match UserRepository.Create db
        { ID := uuidNil, Email := req.Email, PasswordHash := hashedPassword, Role := "user"
          CreatedAt := zeroTime, UpdatedAt := zeroTime } newID now with
    | (.ok user, db1) => (.ok user, db1)
    | (.err e, db1) => (.err e, db1)
    | (.panicked m, db1) => (.panicked m, db1)

/-- The method `AuthService.Login` at the instant `now`. -/
def Login (L : Lib) (cfg : Config) (db : DB) (now : Time) (req : LoginRequest) :
    Result TokenResponse :=
  match UserRepository.GetByEmail db req.Email with
  | .ok user =>
    if L.bcryptCompareHashAndPassword user.PasswordHash req.Password then
      match generateAccessToken L cfg now user with
      | .ok accessToken =>
        match generateRefreshToken L cfg now user with
        | .ok refreshToken =>
          .ok { AccessToken := accessToken
                RefreshToken := refreshToken
                ExpiresIn := wrapInt64 (cfg.Auth.TokenExpiryHours * 3600) }
        | .err e => .err e
        | .panicked m => .panicked m
      | .err e => .err e
      | .panicked m => .panicked m
    else .err "invalid credentials"
  | .err _ => .err "invalid credentials"
  | .panicked m => .panicked m

/-- The method `AuthService.ValidateToken` at the instant `now`. -/
def ValidateToken (L : Lib) (cfg : Config) (db : DB) (now : Time) (tokenString : String) :
    Result User :=
  match ParseWithClaims L cfg.Auth.JWTSecret now tokenString with
  | .error e => .err e
  | .ok token =>
    if token.Valid then
      match UserRepository.GetByID L db token.Claims.UserID with
      | .ok user => .ok user
      | .err e => .err e
      | .panicked m => .panicked m
    else .err "invalid token"

/-- The method `AuthService.RefreshToken` at the instant `now`. -/
def RefreshToken (L : Lib) (cfg : Config) (db : DB) (now : Time) (refreshToken : String) :
    Result TokenResponse :=
  match ParseWithClaims L cfg.Auth.RefreshSecret now refreshToken with
  | .error e => .err e
  | .ok token =>
    if token.Valid then
      match UserRepository.GetByID L db token.Claims.UserID with
      | .ok user =>
        match generateAccessToken L cfg now user with
        | .ok accessToken =>
          match generateRefreshToken L cfg now user with
          | .ok newRefreshToken =>
            .ok { AccessToken := accessToken
                  RefreshToken := newRefreshToken
                  ExpiresIn := wrapInt64 (cfg.Auth.TokenExpiryHours * 3600) }
          | .err e => .err e
          | .panicked m => .panicked m
        | .err e => .err e
        | .panicked m => .panicked m
      | .err e => .err e
      | .panicked m => .panicked m
    else .err "invalid token"

end AuthService

/-! ## Recipes and share codes: models, rows, queries -/

/-- The struct `models.Recipe`. -/
structure Recipe where
  ID : UUID
  Title : String
  Slug : String
  MarkdownContent : String
  AuthorID : Option UUID
  CategoryID : Option UUID
  Description : Option String
  PrepTimeMinutes : Option Int
  CookTimeMinutes : Option Int
  Servings : Option Int
  Difficulty : Option String
  FeaturedImagePath : Option String
  IsPublished : Bool
  CreatedAt : Time
  UpdatedAt : Time
  PublishedAt : Option Time
deriving DecidableEq, Repr

/-- The struct `sqlc.Recipe`. -/
structure SqlcRecipe where
  ID : UUID
  Title : String
  Slug : String
  MarkdownContent : String
  AuthorID : NullUUID
  CategoryID : NullUUID
  Description : NullString
  PrepTimeMinutes : NullInt32
  CookTimeMinutes : NullInt32
  Servings : NullInt32
  Difficulty : NullString
  FeaturedImagePath : NullString
  IsPublished : NullBool
  CreatedAt : NullTime
  UpdatedAt : NullTime
  PublishedAt : NullTime
deriving DecidableEq, Repr

/-- Scanning a `recipes` row into `sqlc.Recipe`. -/
def scanRecipe (r : RecipeRecord) : SqlcRecipe :=
  { ID := r.id, Title := r.title, Slug := r.slug, MarkdownContent := r.markdown_content
    AuthorID := scanNullUUID r.author_id, CategoryID := scanNullUUID r.category_id
    Description := scanNullString r.description
    PrepTimeMinutes := scanNullInt32 r.prep_time_minutes
    CookTimeMinutes := scanNullInt32 r.cook_time_minutes
    Servings := scanNullInt32 r.servings
    Difficulty := scanNullString r.difficulty
    FeaturedImagePath := scanNullString r.featured_image_path
    IsPublished := scanNullBool r.is_published
    CreatedAt := scanNullTime r.created_at, UpdatedAt := scanNullTime r.updated_at
    PublishedAt := scanNullTime r.published_at }

/-- The struct `models.ShareCode`. -/
structure ShareCode where
  ID : UUID
  RecipeID : UUID
  Code : String
  ExpiresAt : Option Time
  MaxUses : Option Int
  UseCount : Int
  CreatedAt : Time
deriving DecidableEq, Repr

/-- The struct `models.ShareCodeWithRecipe`. -/
structure ShareCodeWithRecipe where
  ID : UUID
  RecipeID : UUID
  Code : String
  ExpiresAt : Option Time
  MaxUses : Option Int
  UseCount : Int
  CreatedAt : Time
  RecipeTitle : String
  RecipeSlug : String
deriving DecidableEq, Repr

/-- The struct `sqlc.ShareCode`. -/
structure SqlcShareCode where
  ID : UUID
  RecipeID : NullUUID
  Code : String
  ExpiresAt : NullTime
  MaxUses : NullInt32
  UseCount : NullInt32
  CreatedAt : NullTime
deriving DecidableEq, Repr

/-- The struct `sqlc.GetShareCodeByCodeRow`: the share code with its recipe's title and slug. -/
structure GetShareCodeByCodeRow where
  ID : UUID
  RecipeID : NullUUID
  Code : String
  ExpiresAt : NullTime
  MaxUses : NullInt32
  UseCount : NullInt32
  CreatedAt : NullTime
  RecipeTitle : String
  RecipeSlug : String
deriving DecidableEq, Repr

/-- The struct `sqlc.CreateShareCodeParams`. -/
structure CreateShareCodeParams where
  RecipeID : NullUUID
  Code : String
  ExpiresAt : NullTime
  MaxUses : NullInt32
deriving DecidableEq, Repr

/-- Scanning a `share_codes` row into `sqlc.ShareCode`. -/
def scanShareCode (r : ShareCodeRecord) : SqlcShareCode :=
  { ID := r.id, RecipeID := scanNullUUID r.recipe_id, Code := r.code
    ExpiresAt := scanNullTime r.expires_at, MaxUses := scanNullInt32 r.max_uses
    UseCount := scanNullInt32 r.use_count, CreatedAt := scanNullTime r.created_at }

/-- Writing a nullable query argument to a column: an argument that is not valid is SQL NULL. -/
def NullTime.toColumn (v : NullTime) : Option HomeCooking.Time := if v.Valid then some v.Time else none

/-- Writing a nullable integer argument to a column. -/
def NullInt32.toColumn (v : NullInt32) : Option Int := if v.Valid then some v.Int32 else none

/-- Writing a nullable UUID argument to a column. -/
def NullUUID.toColumn (v : NullUUID) : Option HomeCooking.UUID := if v.Valid then some v.UUID else none

namespace Queries

/-- Modelled from the spec: the generated query `GetRecipeByID` is not in the source
files; it is the recipe lookup `getById → recipe | NotFound`. -/
def GetRecipeByID (db : DB) (id : UUID) : Result SqlcRecipe :=
  match db.recipes.find? (fun r => decide (r.id = id)) with
  | some r => .ok (scanRecipe r)
  | none => .err ErrNoRows

/-- Modelled from the spec: the generated query `CreateShareCode` is not in the source
files; it is the code store's `create`, which persists the code with use count 0 and
keeps `code` unique.  The database supplies the row's id `newID` and `created_at = now`. -/
def CreateShareCode (db : DB) (arg : CreateShareCodeParams) (newID : UUID) (now : Time) :
    Result SqlcShareCode × DB :=
  if db.share_codes.any (fun r => decide (r.code = arg.Code)) then
    (.err "UNIQUE constraint failed: share_codes.code", db)
  else if db.share_codes.any (fun r => decide (r.id = newID)) then
    (.err "UNIQUE constraint failed: share_codes.id", db)
  else
    let r : ShareCodeRecord :=
      { id := newID, recipe_id := arg.RecipeID.toColumn, code := arg.Code
        expires_at := arg.ExpiresAt.toColumn, max_uses := arg.MaxUses.toColumn
        use_count := some 0, created_at := some now }
    (.ok (scanShareCode r), { db with share_codes := db.share_codes ++ [r] })

/-- Modelled from the spec: the generated query `GetShareCodeByCode` is not in the source
files; it is the code store's `getByCode`, the lookup by the unique `code`, returning the
share code with the title and slug of the recipe its foreign key `recipe_id` names. -/
def GetShareCodeByCode (db : DB) (code : String) : Result GetShareCodeByCodeRow :=
  match db.share_codes.find? (fun r => decide (r.code = code)) with
  | some r =>
    match db.recipes.find? (fun x => decide (some x.id = r.recipe_id)) with
    | some x =>
      .ok { ID := r.id, RecipeID := scanNullUUID r.recipe_id, Code := r.code
            ExpiresAt := scanNullTime r.expires_at, MaxUses := scanNullInt32 r.max_uses
            UseCount := scanNullInt32 r.use_count, CreatedAt := scanNullTime r.created_at
            RecipeTitle := x.title, RecipeSlug := x.slug }
    | none => .err ErrNoRows
  | none => .err ErrNoRows

/-- Modelled from the spec: the generated statement `IncrementShareCodeUse` is not in the
source files; it is the code store's `incrementUse`, raising the use count of the row
with the given id by one (a statement that matches no row is not an error). -/
def IncrementShareCodeUse (db : DB) (id : UUID) : Result Unit × DB :=
  (.ok (),
    { db with
      share_codes := db.share_codes.map (fun r =>
        if r.id = id then { r with use_count := r.use_count.map (fun n => n + 1) } else r) })

/-- Modelled from the spec: the generated statement `DeleteShareCode` is not in the
source files; it is the code store's `delete`, removing the row with the given id (a
statement that matches no row is not an error). -/
def DeleteShareCode (db : DB) (id : UUID) : Result Unit × DB :=
  (.ok (), { db with share_codes := db.share_codes.filter (fun r => !decide (r.id = id)) })

end Queries

/-! ## `repository/helpers.go`, `recipe_repo.go`, `share_code_repo.go` -/

/-- The helper `nullTimeToTimePtr`. -/
def nullTimeToTimePtr (nt : NullTime) : Option Time := if !nt.Valid then none else some nt.Time

/-- The helper `nullInt32ToPtr`. -/
def nullInt32ToPtr (ni : NullInt32) : Option Int := if !ni.Valid then none else some ni.Int32

/-- The helper `nullStringToPtr`. -/
def nullStringToPtr (ns : NullString) : Option String := if !ns.Valid then none else some ns.String

/-- The helper `nullUUIDToPtr`. -/
def nullUUIDToPtr (nu : NullUUID) : Option UUID := if !nu.Valid then none else some nu.UUID

/-- The helper `sqlNullTimePtr`. -/
def sqlNullTimePtr : Option Time → NullTime
  | none => { Valid := false, Time := zeroTime }
  | some t => { Valid := true, Time := t }

/-- The helper `int32PtrToInt`: takes the integer alone and always returns a pointer to it. -/
def int32PtrToInt (i : Int) : Option Int := some i

namespace RecipeRepository

/-- The method `RecipeRepository.sqlcToModel`. -/
def sqlcToModel (dbRecipe : SqlcRecipe) : Recipe :=
  { ID := dbRecipe.ID, Title := dbRecipe.Title, Slug := dbRecipe.Slug
    MarkdownContent := dbRecipe.MarkdownContent
    AuthorID := nullUUIDToPtr dbRecipe.AuthorID
    CategoryID := nullUUIDToPtr dbRecipe.CategoryID
    Description := nullStringToPtr dbRecipe.Description
    PrepTimeMinutes := nullInt32ToPtr dbRecipe.PrepTimeMinutes
    CookTimeMinutes := nullInt32ToPtr dbRecipe.CookTimeMinutes
    Servings := nullInt32ToPtr dbRecipe.Servings
    Difficulty := nullStringToPtr dbRecipe.Difficulty
    FeaturedImagePath := nullStringToPtr dbRecipe.FeaturedImagePath
    IsPublished := dbRecipe.IsPublished.Bool
    CreatedAt := dbRecipe.CreatedAt.Time
    UpdatedAt := dbRecipe.UpdatedAt.Time
    PublishedAt := nullTimeToTimePtr dbRecipe.PublishedAt }

/-- The method `RecipeRepository.GetByID`: `uuid.MustParse(id)` panics on a malformed id. -/
def GetByID (L : Lib) (db : DB) (id : String) : Result Recipe :=
  match MustParse L id with
  | .ok u =>
    match Queries.GetRecipeByID db u with
    | .ok result => .ok (sqlcToModel result)
    | .err e => .err e
    | .panicked m => .panicked m
  | .err e => .err e
  | .panicked m => .panicked m

end RecipeRepository

namespace ShareCodeRepository

/-- The method `ShareCodeRepository.sqlcToModel`. -/
def sqlcToModel (dbShareCode : SqlcShareCode) : ShareCode :=
  let useCount := dbShareCode.UseCount.Int32
  let maxUses := int32PtrToInt dbShareCode.MaxUses.Int32
  { ID := dbShareCode.ID, RecipeID := dbShareCode.RecipeID.UUID, Code := dbShareCode.Code
    ExpiresAt := nullTimeToTimePtr dbShareCode.ExpiresAt
    MaxUses := maxUses, UseCount := useCount, CreatedAt := dbShareCode.CreatedAt.Time }

/-- The method `ShareCodeRepository.sqlcToModelWithRecipe`. -/
def sqlcToModelWithRecipe (dbRow : GetShareCodeByCodeRow) : ShareCodeWithRecipe :=
  let useCount := dbRow.UseCount.Int32
  let maxUses := int32PtrToInt dbRow.MaxUses.Int32
  { ID := dbRow.ID, RecipeID := dbRow.RecipeID.UUID, Code := dbRow.Code
    ExpiresAt := nullTimeToTimePtr dbRow.ExpiresAt
    MaxUses := maxUses, UseCount := useCount, CreatedAt := dbRow.CreatedAt.Time
    RecipeTitle := dbRow.RecipeTitle, RecipeSlug := dbRow.RecipeSlug }

/-- The method `ShareCodeRepository.Create`. -/
def Create (db : DB) (shareCode : ShareCode) (newID : UUID) (now : Time) :
    Result ShareCode × DB :=
  let maxUses : NullInt32 :=
    match shareCode.MaxUses with
    | some m => { Valid := true, Int32 := wrapInt32 m }
    | none => { Valid := false, Int32 := 0 }
  match Queries.CreateShareCode db
      { RecipeID := { Valid := true, UUID := shareCode.RecipeID }
        Code := shareCode.Code
        ExpiresAt := sqlNullTimePtr shareCode.ExpiresAt
        MaxUses := maxUses } newID now with
  | (.ok result, db1) => (.ok (sqlcToModel result), db1)
  | (.err e, db1) => (.err e, db1)
  | (.panicked m, db1) => (.panicked m, db1)

/-- The method `ShareCodeRepository.GetByCode`. -/
def GetByCode (db : DB) (code : String) : Result ShareCodeWithRecipe :=
  match Queries.GetShareCodeByCode db code with
  | .ok result => .ok (sqlcToModelWithRecipe result)
  | .err e => .err e
  | .panicked m => .panicked m

/-- The method `ShareCodeRepository.IncrementUse`: `uuid.MustParse(id)`, then the update. -/
def IncrementUse (L : Lib) (db : DB) (id : String) : Result Unit × DB :=
  match MustParse L id with
  | .ok u => Queries.IncrementShareCodeUse db u
  | .err e => (.err e, db)
  | .panicked m => (.panicked m, db)

/-- The method `ShareCodeRepository.Delete`: `uuid.MustParse(id)`, then the delete. -/
def Delete (L : Lib) (db : DB) (id : String) : Result Unit × DB :=
  match MustParse L id with
  | .ok u => Queries.DeleteShareCode db u
  | .err e => (.err e, db)
  | .panicked m => (.panicked m, db)

end ShareCodeRepository

/-! ## `services/share_code_service.go` -/

/-- The table `hextable` of encoding/hex. -/
def hextable : List Char := "0123456789abcdef".data

/-- The function `hex.EncodeToString` on the list of characters: two digits per byte,
the high four bits first. -/
def encodeHex : List UInt8 → List Char
  | [] => []
  | v :: rest =>
    hextable.getD (v.toNat / 16) '0' :: hextable.getD (v.toNat % 16) '0' :: encodeHex rest

/-- The function `hex.EncodeToString`. -/
def EncodeToString (src : List UInt8) : String := String.mk (encodeHex src)

/-- The value of a lowercase hexadecimal digit (`0`-`9`, `a`-`f`); nothing for another
character. -/
def hexValue (c : Char) : Option Nat :=
  if '0' ≤ c ∧ c ≤ '9' then some (c.toNat - 48)
  else if 'a' ≤ c ∧ c ≤ 'f' then some (c.toNat - 87)
  else none

/-- Reading lowercase hexadecimal text back, two digits per byte, the high digit first. -/
def decodeHex : List Char → Option (List Nat)
  | [] => some []
  | [_] => none
  | hi :: lo :: rest =>
    match hexValue hi, hexValue lo, decodeHex rest with
    | some h, some l, some bytes => some ((16 * h + l) :: bytes)
    | _, _, _ => none

namespace ShareCodeService

/-- The function `generateShareCode`; `random` is what `rand.Read` does with the
8-byte buffer: it fills it, or fails. -/
def generateShareCode (random : Except String (Fin 8 → UInt8)) : Result String :=
  match random with
  | .error e => .err e
  | .ok bytes => .ok (EncodeToString (List.ofFn bytes))

/-- The method `ShareCodeService.CreateShareCode`; `newID` and `now` are the id and the
creation time the database gives the new row. -/
def CreateShareCode (L : Lib) (db : DB) (recipeID : String) (expiresAt : Option Time)
    (maxUses : Option Int) (random : Except String (Fin 8 → UInt8)) (newID : UUID)
    (now : Time) : Result ShareCode × DB :=
  if recipeID = "" then (.err "recipe_id is required", db)
  else
    match RecipeRepository.GetByID L db recipeID with
    | .panicked m => (.panicked m, db)
    | .err _ => (.err "recipe not found", db)
    | .ok recipe =>
      if !recipe.IsPublished then (.err "can only share published recipes", db)
      else
        match generateShareCode random with
        | .panicked m => (.panicked m, db)
        | .err e => (.err e, db)
        | .ok code =>
          match MustParse L recipeID with
          | .panicked m => (.panicked m, db)
          | .err e => (.err e, db)
          | .ok rid =>
            ShareCodeRepository.Create db
              { ID := uuidNil, RecipeID := rid, Code := code, ExpiresAt := expiresAt
                MaxUses := maxUses, UseCount := 0, CreatedAt := zeroTime } newID now

/-- The method `ShareCodeService.GetShareCode` at the instant `now`. -/
def GetShareCode (db : DB) (now : Time) (code : String) : Result ShareCodeWithRecipe :=
  if code = "" then .err "code is required"
  else
    match ShareCodeRepository.GetByCode db code with
    | .panicked m => .panicked m
    | .err _ => .err "invalid or expired share code"
    | .ok shareCode =>
      if (match shareCode.MaxUses with
          | some m => decide (shareCode.UseCount ≥ m)
          | none => false) then
        .err "share code has reached maximum uses"
      else if (match shareCode.ExpiresAt with
          | some exp => decide (now > exp)
          | none => false) then
        .err "share code has expired"
      else .ok shareCode

/-- The method `ShareCodeService.UseShareCode` at the instant `now`. -/
def UseShareCode (L : Lib) (db : DB) (now : Time) (code : String) : Result Unit × DB :=
  if code = "" then (.err "code is required", db)
  else
    match ShareCodeRepository.GetByCode db code with
    | .panicked m => (.panicked m, db)
    | .err _ => (.err "invalid or expired share code", db)
    | .ok shareCode =>
      if (match shareCode.MaxUses with
          | some m => decide (shareCode.UseCount ≥ m)
          | none => false) then
        (.err "share code has reached maximum uses", db)
      else if (match shareCode.ExpiresAt with
          | some exp => decide (now > exp)
          | none => false) then
        (.err "share code has expired", db)
      else ShareCodeRepository.IncrementUse L db (L.uuidString shareCode.ID)

/-- The method `ShareCodeService.DeleteShareCode`. -/
def DeleteShareCode (L : Lib) (db : DB) (id : String) : Result Unit × DB :=
  if id = "" then (.err "id is required", db)
  else ShareCodeRepository.Delete L db id

end ShareCodeService

/-! ## User invites: models, rows, queries, `repository/user_invite_repo.go` -/

/-- The struct `models.UserInvite`. -/
structure UserInvite where
  ID : UUID
  Code : String
  Email : Option String
  Role : String
  CreatedBy : Option UUID
  ExpiresAt : Option Time
  UsedAt : Option Time
  UsedBy : Option UUID
  CreatedAt : Time
deriving DecidableEq, Repr

/-- The struct `sqlc.UserInvite`. -/
structure SqlcUserInvite where
  ID : UUID
  Code : String
  Email : NullString
  Role : NullString
  CreatedBy : NullUUID
  ExpiresAt : NullTime
  UsedAt : NullTime
  UsedBy : NullUUID
  CreatedAt : NullTime
deriving DecidableEq, Repr

/-- The struct `sqlc.CreateUserInviteParams`. -/
structure CreateUserInviteParams where
  Code : String
  Email : NullString
  Role : NullString
  CreatedBy : NullUUID
  ExpiresAt : NullTime
deriving DecidableEq, Repr

/-- The struct `sqlc.UseInviteParams`. -/
structure UseInviteParams where
  ID : UUID
  UsedBy : NullUUID
deriving DecidableEq, Repr

/-- Scanning a `user_invites` row into `sqlc.UserInvite`. -/
def scanUserInvite (r : UserInviteRecord) : SqlcUserInvite :=
  { ID := r.id, Code := r.code, Email := scanNullString r.email
    Role := scanNullString r.role, CreatedBy := scanNullUUID r.created_by
    ExpiresAt := scanNullTime r.expires_at, UsedAt := scanNullTime r.used_at
    UsedBy := scanNullUUID r.used_by, CreatedAt := scanNullTime r.created_at }

/-- Writing a nullable text argument to a column. -/
def nullStringToColumn (v : NullString) : Option String :=
  if v.Valid then some v.String else none

/-- The helper `sqlString`. -/
def sqlString (s : String) : NullString := { Valid := true, String := s }

/-- The helper `sqlNullString`. -/
def sqlNullString : Option String → NullString
  | none => { Valid := false, String := "" }
  | some s => { Valid := true, String := s }

/-- The helper `sqlNullUUID`. -/
def sqlNullUUID : Option UUID → NullUUID
  | none => { Valid := false, UUID := uuidNil }
  | some u => { Valid := true, UUID := u }

namespace Queries

/-- Modelled from the spec: the generated query `CreateUserInvite` is not in the source
files; it is the code store's `create` for invites, which persists the invite with used-at
and used-by unset and keeps `code` unique.  The database supplies the row's id `newID`
and `created_at = now`. -/
def CreateUserInvite (db : DB) (arg : CreateUserInviteParams) (newID : UUID) (now : Time) :
    Result SqlcUserInvite × DB :=
  if db.user_invites.any (fun r => decide (r.code = arg.Code)) then
    (.err "UNIQUE constraint failed: user_invites.code", db)
  else if db.user_invites.any (fun r => decide (r.id = newID)) then
    (.err "UNIQUE constraint failed: user_invites.id", db)
  else
    let r : UserInviteRecord :=
      { id := newID, code := arg.Code, email := nullStringToColumn arg.Email, role := nullStringToColumn arg.Role
        created_by := arg.CreatedBy.toColumn, expires_at := arg.ExpiresAt.toColumn
        used_at := none, used_by := none, created_at := some now }
    (.ok (scanUserInvite r), { db with user_invites := db.user_invites ++ [r] })

/-- Modelled from the spec: the generated query `GetInviteByCode` is not in the source
files; it is the code store's `getByCode` for invites, the lookup by the unique `code`. -/
def GetInviteByCode (db : DB) (code : String) : Result SqlcUserInvite :=
  match db.user_invites.find? (fun r => decide (r.code = code)) with
  | some r => .ok (scanUserInvite r)
  | none => .err ErrNoRows

/-- Modelled from the spec: the generated query `UseInvite` is not in the source files; it
is the code store's `markUsed`, a write separate from the validity check: it sets used-at
to the database's `now` and used-by to the argument on the row with the given id and
returns that row, or `sql.ErrNoRows` when no row has the id. -/
def UseInvite (db : DB) (arg : UseInviteParams) (now : Time) : Result SqlcUserInvite × DB :=
  let rows := db.user_invites.map (fun r =>
    if r.id = arg.ID then { r with used_at := some now, used_by := arg.UsedBy.toColumn } else r)
  match rows.find? (fun r => decide (r.id = arg.ID)) with
  | some r => (.ok (scanUserInvite r), { db with user_invites := rows })
  | none => (.err ErrNoRows, db)

end Queries

namespace UserInviteRepository

/-- The method `UserInviteRepository.sqlcToModel`. -/
def sqlcToModel (dbInvite : SqlcUserInvite) : UserInvite :=
  let role := if dbInvite.Role.Valid then dbInvite.Role.String else "user"
  { ID := dbInvite.ID, Code := dbInvite.Code
    Email := nullStringToPtr dbInvite.Email
    Role := role
    CreatedBy := nullUUIDToPtr dbInvite.CreatedBy
    ExpiresAt := nullTimeToTimePtr dbInvite.ExpiresAt
    UsedAt := nullTimeToTimePtr dbInvite.UsedAt
    UsedBy := nullUUIDToPtr dbInvite.UsedBy
    CreatedAt := dbInvite.CreatedAt.Time }

/-- The method `UserInviteRepository.Create`. -/
def Create (db : DB) (invite : UserInvite) (newID : UUID) (now : Time) :
    Result UserInvite × DB :=
  match Queries.CreateUserInvite db
      { Code := invite.Code
        Email := sqlNullString invite.Email
        Role := sqlString invite.Role
        CreatedBy := sqlNullUUID invite.CreatedBy
        ExpiresAt := sqlNullTimePtr invite.ExpiresAt } newID now with
  | (.ok result, db1) => (.ok (sqlcToModel result), db1)
  | (.err e, db1) => (.err e, db1)
  | (.panicked m, db1) => (.panicked m, db1)

/-- The method `UserInviteRepository.GetByCode`. -/
def GetByCode (db : DB) (code : String) : Result UserInvite :=
  match Queries.GetInviteByCode db code with
  | .ok result => .ok (sqlcToModel result)
  | .err e => .err e
  | .panicked m => .panicked m

/-- The method `UserInviteRepository.Use`: `uuid.MustParse(usedBy)`, then
`uuid.MustParse(id)`, then the update. -/
def Use (L : Lib) (db : DB) (now : Time) (id : String) (usedBy : String) :
    Result UserInvite × DB :=
  match MustParse L usedBy with
  | .panicked m => (.panicked m, db)
  | .err e => (.err e, db)
  | .ok usedByUUID =>
    match MustParse L id with
    | .panicked m => (.panicked m, db)
    | .err e => (.err e, db)
    | .ok u =>
      match Queries.UseInvite db { ID := u, UsedBy := sqlNullUUID (some usedByUUID) } now with
      | (.ok result, db1) => (.ok (sqlcToModel result), db1)
      | (.err e, db1) => (.err e, db1)
      | (.panicked m, db1) => (.panicked m, db1)

end UserInviteRepository

/-! ## `services/user_invite_service.go` -/

namespace UserInviteService

/-- The function `generateInviteCode`; `random` is what `rand.Read` does with the
8-byte buffer: it fills it, or fails. -/
def generateInviteCode (random : Except String (Fin 8 → UInt8)) : Result String :=
  match random with
  | .error e => .err e
  | .ok bytes => .ok (EncodeToString (List.ofFn bytes))

/-- The method `UserInviteService.CreateInvite`; `newID` and `now` are the id and the
creation time the database gives the new row. -/
def CreateInvite (L : Lib) (db : DB) (email : String) (role : String) (createdBy : String)
    (expiresAt : Option Time) (random : Except String (Fin 8 → UInt8)) (newID : UUID)
    (now : Time) : Result UserInvite × DB :=
  if createdBy = "" then (.err "created_by is required", db)
  else
    let role := if role = "" then "user" else role
    if role ≠ "user" ∧ role ≠ "admin" then (.err "invalid role", db)
    else
      match generateInviteCode random with
      | .panicked m => (.panicked m, db)
      | .err e => (.err e, db)
      | .ok code =>
        match MustParse L createdBy with
        | .panicked m => (.panicked m, db)
        | .err e => (.err e, db)
        | .ok createdByUUID =>
          UserInviteRepository.Create db
            { ID := uuidNil, Code := code, Email := some email, Role := role
              CreatedBy := some createdByUUID, ExpiresAt := expiresAt
              UsedAt := none, UsedBy := none, CreatedAt := zeroTime } newID now

/-- The method `UserInviteService.GetInvite` at the instant `now`. -/
def GetInvite (db : DB) (now : Time) (code : String) : Result UserInvite :=
  if code = "" then .err "code is required"
  else
    match UserInviteRepository.GetByCode db code with
    | .panicked m => .panicked m
    | .err _ => .err "invalid or expired invite code"
    | .ok invite =>
      if invite.UsedAt ≠ none then .err "invite has already been used"
      else if (match invite.ExpiresAt with
          | some exp => decide (now > exp)
          | none => false) then
        .err "invite has expired"
      else .ok invite

/-- The method `UserInviteService.UseInvite` at the instant `now`. -/
def UseInvite (L : Lib) (db : DB) (now : Time) (code : String) (usedBy : String) :
    Result UserInvite × DB :=
  if code = "" then (.err "code is required", db)
  else if usedBy = "" then (.err "used_by is required", db)
  else
    match GetInvite db now code with
    | .panicked m => (.panicked m, db)
    | .err e => (.err e, db)
    | .ok invite =>
      if (match invite.Email with
          | some email => (UserRepository.GetByEmail db email).isOk
          | none => false) then
        (.err "user with this email already exists", db)
      else UserInviteRepository.Use L db now (L.uuidString invite.ID) usedBy

end UserInviteService

/-! ## `middleware/auth.go` -/

/-- A key of a `context.Context` value: an interface value, so its dynamic type takes
part in the comparison of keys. -/
structure ContextKey where
  typeName : String
  value : String
deriving DecidableEq, Repr

/-- The values the code stores in a request context. -/
inductive ContextValue where
  | user (u : User)
  | text (s : String)
deriving DecidableEq, Repr

/-- A `context.Context`, as the list of its key-value pairs, the innermost first. -/
abbrev Context := List (ContextKey × ContextValue)

/-- The function `context.WithValue`. -/
def WithValue (parent : Context) (key : ContextKey) (val : ContextValue) : Context :=
  (key, val) :: parent

/-- The method `Context.Value`: the value of the innermost pair with an equal key, or nil. -/
def Context.Value : Context → ContextKey → Option ContextValue
  | [], _ => none
  | (k, v) :: parent, key => if k = key then some v else Context.Value parent key

/-- The part of an `http.Request` the middleware and the handlers read: `Header.Get`, the
context, the body and `PathValue`. -/
structure Request where
  Header : String → String
  Context : HomeCooking.Context
  Body : String := ""
  PathValue : String → String := fun _ => ""

/-- The response as an `httptest.ResponseRecorder` shows it: the status code, the body
written so far, and whether the header has been written (`wroteHeader`), after which the
status code no longer changes.  A new recorder has code 200 and nothing written. -/
structure ResponseRecorder where
  Code : Nat := 200
  Body : String := ""
  wroteHeader : Bool := false
deriving DecidableEq, Repr

/-- The method `ResponseRecorder.WriteHeader`: it sets the status code unless the header
has been written already.  (Its check of the code passes for the constants the handlers
use, which lie between 100 and 999.) -/
def ResponseRecorder.WriteHeader (rw : ResponseRecorder) (code : Nat) : ResponseRecorder :=
  if rw.wroteHeader then rw else { rw with Code := code, wroteHeader := true }

/-- The method `ResponseRecorder.Write`: the first write writes the header with code 200
when none has been written, and every write appends to the body. -/
def ResponseRecorder.Write (rw : ResponseRecorder) (buf : String) : ResponseRecorder :=
  let rw := if rw.wroteHeader then rw else rw.WriteHeader 200
  { rw with Body := rw.Body ++ buf }

/-- The function `http.Error`: `w.WriteHeader(code)`, then the message as a line of the
body (`fmt.Fprintln(w, error)`). -/
def httpError (w : ResponseRecorder) (error : String) (code : Nat) : ResponseRecorder :=
  (w.WriteHeader code).Write (error ++ "\n")

/-- An `http.Handler`: what `ServeHTTP(w, r)` leaves in `w`, or a panic. -/
abbrev Handler := ResponseRecorder → Request → Result ResponseRecorder

/-- The function `strings.HasPrefix`. -/
def HasPrefix (s p : String) : Bool := p.data.isPrefixOf s.data

/-- The function `strings.TrimPrefix`. -/
def TrimPrefix (s p : String) : String :=
  if HasPrefix s p then String.mk (s.data.drop p.data.length) else s

namespace AuthMiddleware

/-- The constant `UserKey`, of the unexported type `contextKey`. -/
def UserKey : ContextKey := { typeName := "middleware.contextKey", value := "user" }

/-- The constant `http.StatusUnauthorized`. -/
def StatusUnauthorized : Nat := 401

/-- The method `AuthMiddleware.Auth`; `ValidateToken` is the method of the `AuthService`
interface the middleware was built with. -/
def Auth (ValidateToken : String → Result User) (next : Handler) : Handler :=
  fun w r =>
    let authHeader := r.Header "Authorization"
    if authHeader = "" then
      .ok (httpError w "Authorization header required" StatusUnauthorized)
    else if !HasPrefix authHeader "Bearer " then
      .ok (httpError w "Invalid authorization header format" StatusUnauthorized)
    else
      let token := TrimPrefix authHeader "Bearer "
      match ValidateToken token with
      | .panicked m => .panicked m
      | .err _ => .ok (httpError w "Invalid token" StatusUnauthorized)
      | .ok user =>
        let ctx := WithValue r.Context UserKey (.user user)
        next w { r with Context := ctx }

end AuthMiddleware

/-! ## The standard packages `unicode` and `strings` -/

/-- The function `unicode.ToLower`: below `unicode.MaxASCII` the letters A to Z move to a
to z and every other character stays; above it the Unicode case table answers. -/
def unicodeToLower (L : Lib) (r : Char) : Char :=
  if r.toNat ≤ 127 then
    if 'A'.toNat ≤ r.toNat ∧ r.toNat ≤ 'Z'.toNat then Char.ofNat (r.toNat + ('a'.toNat - 'A'.toNat))
    else r
  else L.unicodeLowerCase r

/-- The function `strings.Map` for a mapping that drops no character. -/
def Map (mapping : Char → Char) (s : String) : String := String.mk (s.data.map mapping)

/-- The function `strings.ToLower`: `unicode.ToLower` on every character. -/
def ToLower (L : Lib) (s : String) : String := Map (unicodeToLower L) s

/-- The function `strings.ReplaceAll s old new` for an `old` of one character. -/
def ReplaceAll (s : String) (old : Char) (new : String) : String :=
  String.mk (s.data.flatMap (fun c => if c = old then new.data else [c]))

/-- The function `strings.Trim s cutset`: `s` without its leading and trailing characters
that occur in `cutset`. -/
def Trim (s cutset : String) : String :=
  String.mk
    ((s.data.dropWhile (fun c => decide (c ∈ cutset.data))).rdropWhile
      (fun c => decide (c ∈ cutset.data)))

/-- The apostrophe, U+0027. -/
def apostrophe : Char := Char.ofNat 39

/-- The double quote, U+0022. -/
def doubleQuote : Char := Char.ofNat 34

/-! ## Slugs: `recipe_service.go`, `category_service.go`, `tag_service.go`,
`recipe_group_service.go` -/

/-- The function `generateSlug` of `recipe_service.go`. -/
def generateSlug (L : Lib) (title : String) : String :=
  let slug := ToLower L title
  let slug := ReplaceAll slug ' ' "-"
  let slug := ReplaceAll slug apostrophe ""
  let slug := ReplaceAll slug doubleQuote ""
  slug

/-- The function `generateCategorySlug` of `category_service.go`. -/
def generateCategorySlug (L : Lib) (title : String) : String :=
  let slug := ToLower L title
  let slug := ReplaceAll slug ' ' "-"
  let slug := ReplaceAll slug apostrophe ""
  let slug := ReplaceAll slug doubleQuote ""
  slug

/-- The function `generateTagSlug` of `tag_service.go`. -/
def generateTagSlug (L : Lib) (title : String) : String :=
  let slug := ToLower L title
  let slug := ReplaceAll slug ' ' "-"
  let slug := ReplaceAll slug apostrophe ""
  let slug := ReplaceAll slug doubleQuote ""
  slug

namespace RecipeGroupService

/-- The function literal `GenerateSlug` hands to `strings.Map`. -/
def slugRune (r : Char) : Char :=
  if ('a'.toNat ≤ r.toNat ∧ r.toNat ≤ 'z'.toNat) ∨ ('0'.toNat ≤ r.toNat ∧ r.toNat ≤ '9'.toNat)
      ∨ r = '-' then r
  else '-'

/-- The method `RecipeGroupService.GenerateSlug`; `newID` is the value of `uuid.New()`.
Slicing its text with `[:8]` panics when the text is shorter than 8 bytes. -/
def GenerateSlug (L : Lib) (name : String) (newID : UUID) : Result String :=
  let slug := ToLower L (ReplaceAll name ' ' "-")
  let slug := Map slugRune slug
  let slug := Trim slug "-"
  if slug = "" then
    let text := L.uuidString newID
    if text.utf8ByteSize < 8 then
      .panicked ("runtime error: slice bounds out of range [:8] with length "
        ++ toString text.utf8ByteSize)
    else .ok ("group-" ++ String.mk (text.data.take 8))
  else .ok slug

end RecipeGroupService

/-! ## Slugs as the specification words them -/

/-- The slug of a title in the words of the specification: the title lowercased, with
every space replaced by '-' and every apostrophe and double quote removed. -/
def slugAsSpecified (L : Lib) (title : String) : String :=
  String.mk ((title.data.map (unicodeToLower L)).filterMap (fun c =>
    if c = ' ' then some '-'
    else if c = apostrophe ∨ c = doubleQuote then none
    else some c))

/-- Whether a character is one of a-z, 0-9 and '-'. -/
def isSlugChar (c : Char) : Bool :=
  decide (('a'.toNat ≤ c.toNat ∧ c.toNat ≤ 'z'.toNat)
    ∨ ('0'.toNat ≤ c.toNat ∧ c.toNat ≤ '9'.toNat) ∨ c = '-')

/-- Whether a character is an ASCII letter or digit. -/
def isASCIILetterOrDigit (c : Char) : Bool :=
  decide (('a'.toNat ≤ c.toNat ∧ c.toNat ≤ 'z'.toNat)
    ∨ ('A'.toNat ≤ c.toNat ∧ c.toNat ≤ 'Z'.toNat)
    ∨ ('0'.toNat ≤ c.toNat ∧ c.toNat ≤ '9'.toNat))

/-- A list of characters without its leading and trailing '-'. -/
def stripDashes (l : List Char) : List Char :=
  ((l.dropWhile (fun c => decide (c = '-'))).reverse.dropWhile
    (fun c => decide (c = '-'))).reverse

/-- The slug of a group name in the words of the specification: the lowercased name with
spaces and every other character that is not one of a-z, 0-9 and '-' replaced by '-',
and leading and trailing '-' trimmed. -/
def groupSlugAsSpecified (L : Lib) (name : String) : String :=
  String.mk (stripDashes ((name.data.map (unicodeToLower L)).map (fun c =>
    if isSlugChar c then c else '-')))

/-! ## Recipe updates: `models/recipe.go`, queries, `recipe_repo.go`, `recipe_service.go` -/

/-- The struct `models.UpdateRecipeRequest`: every field is a pointer, `none` when the
request leaves it out. -/
structure UpdateRecipeRequest where
  Title : Option String := none
  MarkdownContent : Option String := none
  CategoryID : Option String := none
  Description : Option String := none
  PrepTimeMinutes : Option Int := none
  CookTimeMinutes : Option Int := none
  Servings : Option Int := none
  Difficulty : Option String := none
  FeaturedImagePath : Option String := none
  IsPublished : Option Bool := none
deriving DecidableEq, Repr

/-- Modelled from the spec: the generated struct `sqlc.UpdateRecipeParams` is not in the
source files; these are the fields `RecipeRepository.Update` fills in, with the types of
the helpers that fill them. -/
structure UpdateRecipeParams where
  ID : UUID
  Title : NullString
  MarkdownContent : NullString
  CategoryID : NullUUID
  Description : NullString
  PrepTimeMinutes : NullInt32
  CookTimeMinutes : NullInt32
  Servings : NullInt32
  Difficulty : NullString
  FeaturedImagePath : NullString
  IsPublished : NullBool
deriving DecidableEq, Repr

/-- Modelled from the spec: the generated struct `sqlc.UpdateRecipePublishedStatusParams`
is not in the source files; these are the fields `UpdatePublishedStatus` fills in. -/
structure UpdateRecipePublishedStatusParams where
  ID : UUID
  IsPublished : NullBool
deriving DecidableEq, Repr

/-- The helper `sqlNullStringPtr`: the empty text is passed as NULL. -/
def sqlNullStringPtr (s : String) : NullString := { Valid := decide (s ≠ ""), String := s }

/-- The helper `sqlNullBoolPtr`. -/
def sqlNullBoolPtr (b : Bool) : NullBool := { Valid := true, Bool := b }

/-- The helper `sqlNullInt32`. -/
def sqlNullInt32 : Option Int → NullInt32
  | none => { Valid := false, Int32 := 0 }
  | some i => { Valid := true, Int32 := i }

namespace Queries

/-- Modelled from the spec: the generated query `UpdateRecipe` is not in the source
files.  It is the recipe store's update of the row with the given id, returning the row
it leaves; the service test names it a COALESCE query over optional (`sqlc.narg`)
arguments, so a column whose argument is NULL keeps its value, and a column that has no
argument (`slug`, `author_id`) keeps its value too.  The database sets
`updated_at = now`. -/
def UpdateRecipe (db : DB) (arg : UpdateRecipeParams) (now : Time) :
    Result SqlcRecipe × DB :=
  match db.recipes.find? (fun r => decide (r.id = arg.ID)) with
  | none => (.err ErrNoRows, db)
  | some r =>
    let row : RecipeRecord :=
      { r with
        title := if arg.Title.Valid then arg.Title.String else r.title
        markdown_content :=
          if arg.MarkdownContent.Valid then arg.MarkdownContent.String else r.markdown_content
        category_id := if arg.CategoryID.Valid then some arg.CategoryID.UUID else r.category_id
        description :=
          if arg.Description.Valid then some arg.Description.String else r.description
        prep_time_minutes :=
          if arg.PrepTimeMinutes.Valid then some arg.PrepTimeMinutes.Int32
          else r.prep_time_minutes
        cook_time_minutes :=
          if arg.CookTimeMinutes.Valid then some arg.CookTimeMinutes.Int32
          else r.cook_time_minutes
        servings := if arg.Servings.Valid then some arg.Servings.Int32 else r.servings
        difficulty := if arg.Difficulty.Valid then some arg.Difficulty.String else r.difficulty
        featured_image_path :=
          if arg.FeaturedImagePath.Valid then some arg.FeaturedImagePath.String
          else r.featured_image_path
        is_published :=
          if arg.IsPublished.Valid then some arg.IsPublished.Bool else r.is_published
        updated_at := some now }
    (.ok (scanRecipe row),
      { db with recipes := db.recipes.map (fun x => if x.id = arg.ID then row else x) })

/-- Modelled from the spec: the generated query `UpdateRecipePublishedStatus` is not in
the source files.  It is the recipe store's change of the published flag of the row with
the given id, returning the row it leaves; the database sets `updated_at = now`, and
`published_at = now` when the flag is set. -/
def UpdateRecipePublishedStatus (db : DB) (arg : UpdateRecipePublishedStatusParams)
    (now : Time) : Result SqlcRecipe × DB :=
  match db.recipes.find? (fun r => decide (r.id = arg.ID)) with
  | none => (.err ErrNoRows, db)
  | some r =>
    let row : RecipeRecord :=
      { r with
        is_published := if arg.IsPublished.Valid then some arg.IsPublished.Bool else none
        published_at :=
          if arg.IsPublished.Valid && arg.IsPublished.Bool then some now else r.published_at
        updated_at := some now }
    (.ok (scanRecipe row),
      { db with recipes := db.recipes.map (fun x => if x.id = arg.ID then row else x) })

/-- Modelled from the spec: the generated statement `DeleteRecipe` is not in the source
files; it is the recipe store's `delete`, removing the row with the given id (a statement
that matches no row is not an error). -/
def DeleteRecipe (db : DB) (id : UUID) : Result Unit × DB :=
  (.ok (), { db with recipes := db.recipes.filter (fun r => !decide (r.id = id)) })

end Queries

namespace RecipeRepository

/-- The method `RecipeRepository.Update`: the arguments of the query are built from the
id and from ten fields of `recipe`; `recipe.Slug` is not among them. -/
def Update (L : Lib) (db : DB) (id : String) (recipe : Recipe) (now : Time) :
    Result Recipe × DB :=
  match MustParse L id with
  | .ok u =>
    match Queries.UpdateRecipe db
        { ID := u
          Title := sqlNullStringPtr recipe.Title
          MarkdownContent := sqlNullStringPtr recipe.MarkdownContent
          CategoryID := sqlNullUUID recipe.CategoryID
          Description := sqlNullString recipe.Description
          PrepTimeMinutes := sqlNullInt32 recipe.PrepTimeMinutes
          CookTimeMinutes := sqlNullInt32 recipe.CookTimeMinutes
          Servings := sqlNullInt32 recipe.Servings
          Difficulty := sqlNullString recipe.Difficulty
          FeaturedImagePath := sqlNullString recipe.FeaturedImagePath
          IsPublished := sqlNullBoolPtr recipe.IsPublished } now with
    | (.ok result, db') => (.ok (sqlcToModel result), db')
    | (.err e, db') => (.err e, db')
    | (.panicked m, db') => (.panicked m, db')
  | .err e => (.err e, db)
  | .panicked m => (.panicked m, db)

/-- The method `RecipeRepository.UpdatePublishedStatus`. -/
def UpdatePublishedStatus (L : Lib) (db : DB) (id : String) (isPublished : Bool)
    (now : Time) : Result Recipe × DB :=
  match MustParse L id with
  | .ok u =>
    match Queries.UpdateRecipePublishedStatus db
        { ID := u, IsPublished := { Bool := isPublished, Valid := true } } now with
    | (.ok result, db') => (.ok (sqlcToModel result), db')
    | (.err e, db') => (.err e, db')
    | (.panicked m, db') => (.panicked m, db')
  | .err e => (.err e, db)
  | .panicked m => (.panicked m, db)

/-- The method `RecipeRepository.Delete`. -/
def Delete (L : Lib) (db : DB) (id : String) : Result Unit × DB :=
  match MustParse L id with
  | .ok u => Queries.DeleteRecipe db u
  | .err e => (.err e, db)
  | .panicked m => (.panicked m, db)

end RecipeRepository

namespace RecipeService

/-- The function `parseUUID` of `recipe_service.go`: `uuid.Parse`, with nil for a nil
pointer and for a text that is not a UUID. -/
def parseUUID (L : Lib) : Option String → Option UUID
  | none => none
  | some s => L.uuidParse s

/-- The function `toString` of `recipe_service.go`. -/
def toString : Option String → String → String
  | none, defaultVal => defaultVal
  | some s, _ => s

/-- The function `toBool` of `recipe_service.go`. -/
def toBool : Option Bool → Bool → Bool
  | none, defaultVal => defaultVal
  | some b, _ => b

/-- The message of the runtime panic of a method call through a nil pointer. -/
def nilDereference : String := "runtime error: invalid memory address or nil pointer dereference"

/-- The method `RecipeService.UpdateRecipe`.  `existing.AuthorID.String()` is a call
through the pointer `AuthorID`, which panics when the pointer is nil. -/
def UpdateRecipe (L : Lib) (db : DB) (id : String) (req : UpdateRecipeRequest)
    (authorID : String) (now : Time) : Result Recipe × DB :=
  match RecipeRepository.GetByID L db id with
  | .panicked m => (.panicked m, db)
  | .err e => (.err e, db)
  | .ok existing =>
    match existing.AuthorID with
    | none => (.panicked nilDereference, db)
    | some author =>
      if L.uuidString author ≠ authorID then
        (.err "unauthorized: you can only edit your own recipes", db)
      else
        let recipeModel : Recipe :=
          { ID := uuidNil
            Title := toString req.Title existing.Title
            Slug := ""
            MarkdownContent := toString req.MarkdownContent existing.MarkdownContent
            AuthorID := none
            CategoryID := parseUUID L req.CategoryID
            Description := req.Description
            PrepTimeMinutes := req.PrepTimeMinutes
            CookTimeMinutes := req.CookTimeMinutes
            Servings := req.Servings
            Difficulty := req.Difficulty
            FeaturedImagePath := req.FeaturedImagePath
            IsPublished := toBool req.IsPublished existing.IsPublished
            CreatedAt := zeroTime
            UpdatedAt := zeroTime
            PublishedAt := none }
        let recipeModel : Recipe :=
          match req.Title with
          | some title => { recipeModel with Slug := generateSlug L title }
          | none => recipeModel
        RecipeRepository.Update L db id recipeModel now

/-- The method `RecipeService.DeleteRecipe`. -/
def DeleteRecipe (L : Lib) (db : DB) (id : String) (authorID : String) : Result Unit × DB :=
  match RecipeRepository.GetByID L db id with
  | .panicked m => (.panicked m, db)
  | .err e => (.err e, db)
  | .ok existing =>
    match existing.AuthorID with
    | none => (.panicked nilDereference, db)
    | some author =>
      if L.uuidString author ≠ authorID then
        (.err "unauthorized: you can only delete your own recipes", db)
      else RecipeRepository.Delete L db id

/-- The method `RecipeService.PublishRecipe`. -/
def PublishRecipe (L : Lib) (db : DB) (id : String) (authorID : String) (published : Bool)
    (now : Time) : Result Recipe × DB :=
  match RecipeRepository.GetByID L db id with
  | .panicked m => (.panicked m, db)
  | .err e => (.err e, db)
  | .ok existing =>
    match existing.AuthorID with
    | none => (.panicked nilDereference, db)
    | some author =>
      if L.uuidString author ≠ authorID then
        (.err "unauthorized: you can only publish your own recipes", db)
      else RecipeRepository.UpdatePublishedStatus L db id published now

end RecipeService

/-! ## Recipe variations: `models/variation.go`, queries, `variation_repo.go`,
`variation_service.go` -/

/-- The struct `models.RecipeVariation`. -/
structure RecipeVariation where
  ID : UUID
  RecipeID : UUID
  AuthorID : UUID
  MarkdownContent : String
  PrepTimeMinutes : Option Int
  CookTimeMinutes : Option Int
  Servings : Option Int
  Difficulty : Option String
  Notes : Option String
  IsPublished : Bool
  CreatedAt : Time
  UpdatedAt : Time
deriving DecidableEq, Repr

/-- Modelled from the spec: the generated struct `sqlc.RecipeVariation` is not in the
source files; these are the fields `VariationRepository.sqlcToModel` reads, with the
types of the helpers that read them. -/
structure SqlcRecipeVariation where
  ID : UUID
  RecipeID : UUID
  AuthorID : UUID
  MarkdownContent : String
  PrepTimeMinutes : NullInt32
  CookTimeMinutes : NullInt32
  Servings : NullInt32
  Difficulty : NullString
  Notes : NullString
  IsPublished : NullBool
  CreatedAt : NullTime
  UpdatedAt : NullTime
deriving DecidableEq, Repr

/-- Scanning a `recipe_variations` row into `sqlc.RecipeVariation`. -/
def scanRecipeVariation (r : RecipeVariationRecord) : SqlcRecipeVariation :=
  { ID := r.id, RecipeID := r.recipe_id, AuthorID := r.author_id
    MarkdownContent := r.markdown_content
    PrepTimeMinutes := scanNullInt32 r.prep_time_minutes
    CookTimeMinutes := scanNullInt32 r.cook_time_minutes
    Servings := scanNullInt32 r.servings
    Difficulty := scanNullString r.difficulty
    Notes := scanNullString r.notes
    IsPublished := scanNullBool r.is_published
    CreatedAt := scanNullTime r.created_at, UpdatedAt := scanNullTime r.updated_at }

namespace Queries

/-- Modelled from the spec: the generated query `GetVariationsByRecipe` is not in the
source files; it is the variation store's listing of the rows whose `recipe_id` is the
given id, here in the order of the table. -/
def GetVariationsByRecipe (db : DB) (recipeID : UUID) : Result (List SqlcRecipeVariation) :=
  .ok ((db.recipe_variations.filter (fun r => decide (r.recipe_id = recipeID))).map
    scanRecipeVariation)

end Queries

namespace VariationRepository

/-- The method `VariationRepository.sqlcToModel`. -/
def sqlcToModel (dbVariation : SqlcRecipeVariation) : RecipeVariation :=
  { ID := dbVariation.ID
    RecipeID := dbVariation.RecipeID
    AuthorID := dbVariation.AuthorID
    MarkdownContent := dbVariation.MarkdownContent
    PrepTimeMinutes := nullInt32ToPtr dbVariation.PrepTimeMinutes
    CookTimeMinutes := nullInt32ToPtr dbVariation.CookTimeMinutes
    Servings := nullInt32ToPtr dbVariation.Servings
    Difficulty := nullStringToPtr dbVariation.Difficulty
    Notes := nullStringToPtr dbVariation.Notes
    IsPublished := dbVariation.IsPublished.Bool
    CreatedAt := dbVariation.CreatedAt.Time
    UpdatedAt := dbVariation.UpdatedAt.Time }

/-- The method `VariationRepository.GetByRecipe`: `uuid.MustParse(recipeID)` panics on a
malformed id. -/
def GetByRecipe (L : Lib) (db : DB) (recipeID : String) : Result (List RecipeVariation) :=
  match MustParse L recipeID with
  | .ok u =>
    match Queries.GetVariationsByRecipe db u with
    | .ok results => .ok (results.map sqlcToModel)
    | .err e => .err e
    | .panicked m => .panicked m
  | .err e => .err e
  | .panicked m => .panicked m

/-- The method `VariationRepository.GetPublishedByRecipe`: the loop appends each
variation of `GetByRecipe` whose `IsPublished` is set. -/
def GetPublishedByRecipe (L : Lib) (db : DB) (recipeID : String) :
    Result (List RecipeVariation) :=
  match GetByRecipe L db recipeID with
  | .panicked m => .panicked m
  | .err e => .err e
  | .ok allVariations =>
    .ok (allVariations.foldl
      (fun publishedVariations v =>
        if v.IsPublished then publishedVariations ++ [v] else publishedVariations) [])

end VariationRepository

namespace VariationService

/-- The method `VariationService.GetPublishedVariationsByRecipe`. -/
def GetPublishedVariationsByRecipe (L : Lib) (db : DB) (recipeID : String) :
    Result (List RecipeVariation) :=
  VariationRepository.GetPublishedByRecipe L db recipeID

end VariationService

/-! ## `middleware/auth.go`: `RequireRole` -/

namespace AuthMiddleware

/-- The constant `http.StatusForbidden`. -/
def StatusForbidden : Nat := 403

/-- The method `AuthMiddleware.RequireRole`.  The comma-ok type assertion
`r.Context().Value(UserKey).(*models.User)` fails when the context holds nothing, or a
value of another type, under `UserKey`; the loop over `roles` stops at the first role
equal to the user's. -/
def RequireRole (roles : List String) (next : Handler) : Handler :=
  fun w r =>
    match r.Context.Value UserKey with
    | some (.user user) =>
      let hasRole := roles.any (fun role => decide (user.Role = role))
      if !hasRole then .ok (httpError w "Forbidden" StatusForbidden)
      else next w r
    | _ => .ok (httpError w "Unauthorized" StatusUnauthorized)

end AuthMiddleware

/-! ## Handlers behind the Auth middleware: `handlers/recipe_handler.go`,
`variation_handler.go`, `user_invite_handler.go` -/

/-- The struct `models.CreateRecipeRequest`. -/
structure CreateRecipeRequest where
  Title : String
  MarkdownContent : String
  CategoryID : Option String := none
  Description : Option String := none
  PrepTimeMinutes : Option Int := none
  CookTimeMinutes : Option Int := none
  Servings : Option Int := none
  Difficulty : Option String := none
  FeaturedImagePath : Option String := none
  IsPublished : Bool := false
deriving DecidableEq, Repr

/-- The struct `models.CreateVariationRequest`. -/
structure CreateVariationRequest where
  MarkdownContent : String
  PrepTimeMinutes : Option Int := none
  CookTimeMinutes : Option Int := none
  Servings : Option Int := none
  Difficulty : Option String := none
  Notes : Option String := none
  IsPublished : Bool := false
deriving DecidableEq, Repr

/-- The struct `handlers.CreateUserInviteRequest`. -/
structure CreateUserInviteRequest where
  Email : String
  Role : String
  ExpiresAt : Option Time := none
deriving DecidableEq, Repr

/-- The key of a lookup written `r.Context().Value("user")`: the text as a value of the
type `string`. -/
def stringKey (s : String) : ContextKey := { typeName := "string", value := s }

/-- The constant `http.StatusBadRequest`. -/
def StatusBadRequest : Nat := 400

/-- The constant `http.StatusCreated`. -/
def StatusCreated : Nat := 201

/-- The constant `http.StatusInternalServerError`. -/
def StatusInternalServerError : Nat := 500

namespace RecipeHandler

/-- The method `RecipeHandler.CreateRecipe`.  `recipeService` is the method `CreateRecipe`
of the service the handler was built with, `decode` is `json.NewDecoder(r.Body).Decode`
(`none` for its error) and `encode` is what `json.NewEncoder(w).Encode` writes.  The type
assertion `r.Context().Value("user").(*models.User)` has no comma-ok form: it panics when
the value is nil or of another type. -/
def CreateRecipe (L : Lib) (recipeService : CreateRecipeRequest → String → Result Recipe)
    (decode : String → Option CreateRecipeRequest) (encode : Recipe → String) : Handler :=
  fun w r =>
    match decode r.Body with
    | none => .ok (httpError w "Invalid request body" StatusBadRequest)
    | some req =>
      match r.Context.Value (stringKey "user") with
      | none => .panicked "interface conversion: interface {} is nil, not *models.User"
      | some (.text _) =>
        .panicked "interface conversion: interface {} is string, not *models.User"
      | some (.user user) =>
        match recipeService req (L.uuidString user.ID) with
        | .panicked m => .panicked m
        | .err e => .ok (httpError w e StatusBadRequest)
        | .ok recipe => .ok ((w.WriteHeader StatusCreated).Write (encode recipe))

end RecipeHandler

namespace VariationHandler

/-- The method `VariationHandler.CreateVariation`; `variationService` is the method
`CreateVariation` of the service the handler was built with, and `decode` and `encode`
are as in `RecipeHandler.CreateRecipe`. -/
def CreateVariation (L : Lib)
    (variationService : CreateVariationRequest → String → String → Result RecipeVariation)
    (decode : String → Option CreateVariationRequest) (encode : RecipeVariation → String) :
    Handler :=
  fun w r =>
    let recipeID := r.PathValue "id"
    if recipeID = "" then .ok (httpError w "Recipe ID required" StatusBadRequest)
    else
      match decode r.Body with
      | none => .ok (httpError w "Invalid request body" StatusBadRequest)
      | some req =>
        match r.Context.Value (stringKey "user") with
        | none => .panicked "interface conversion: interface {} is nil, not *models.User"
        | some (.text _) =>
          .panicked "interface conversion: interface {} is string, not *models.User"
        | some (.user user) =>
          match variationService req recipeID (L.uuidString user.ID) with
          | .panicked m => .panicked m
          | .err e =>
            if e = "markdown content is required" then .ok (httpError w e StatusBadRequest)
            else .ok (httpError w "Failed to create variation" StatusInternalServerError)
          | .ok variation =>
            .ok ((w.WriteHeader StatusCreated).Write (encode variation))

end VariationHandler

namespace UserInviteHandler

/-- The method `UserInviteHandler.CreateInvite`; `inviteService` is the method
`CreateInvite` of the service the handler was built with.  The type assertion
`r.Context().Value("user_id").(string)` comes first and has no comma-ok form. -/
def CreateInvite
    (inviteService : String → String → String → Option Time → Result UserInvite)
    (decode : String → Option CreateUserInviteRequest) (encode : UserInvite → String) :
    Handler :=
  fun w r =>
    match r.Context.Value (stringKey "user_id") with
    | none => .panicked "interface conversion: interface {} is nil, not string"
    | some (.user _) =>
      .panicked "interface conversion: interface {} is *models.User, not string"
    | some (.text userID) =>
      match decode r.Body with
      | none => .ok (httpError w "Invalid request body" StatusBadRequest)
      | some req =>
        match inviteService req.Email req.Role userID req.ExpiresAt with
        | .panicked m => .panicked m
        | .err e => .ok (httpError w e StatusBadRequest)
        | .ok invite => .ok ((w.WriteHeader StatusCreated).Write (encode invite))

end UserInviteHandler

/-! ## Sequences of calls -/

/-- Calling `UseShareCode` on `code` once at each instant of `times`, in sequence: the
results in order and the final database. -/
def useShareCodeAt (L : Lib) (code : String) : DB → List Time → List (Result Unit) × DB
  | db, [] => ([], db)
  | db, now :: rest =>
    let step := ShareCodeService.UseShareCode L db now code
    let tail := useShareCodeAt L code step.2 rest
    (step.1 :: tail.1, tail.2)

/-- The database with the use count of the share code `id` raised by `k`. -/
def withUseCountRaised (db : DB) (id : UUID) (k : Int) : DB :=
  { db with
    share_codes := db.share_codes.map (fun r =>
      if r.id = id then { r with use_count := r.use_count.map (fun c => c + k) } else r) }

/-- The use count stored for the share code `code`. -/
def storedUseCount (db : DB) (code : String) : Option Int :=
  (db.share_codes.find? (fun r => decide (r.code = code))).bind (fun r => r.use_count)

/-- One call of the share-code service with its arguments. -/
inductive ShareCodeCall where
  | create (recipeID : String) (expiresAt : Option Time) (maxUses : Option Int)
      (random : Except String (Fin 8 → UInt8)) (newID : UUID) (now : Time)
  | get (now : Time) (code : String)
  | use (now : Time) (code : String)
  | delete (id : String)

/-- The database a call of the share-code service leaves (the database it found when
the call fails or panics). -/
def ShareCodeCall.run (L : Lib) (db : DB) : ShareCodeCall → DB
  | .create recipeID expiresAt maxUses random newID now =>
    (ShareCodeService.CreateShareCode L db recipeID expiresAt maxUses random newID now).2
  | .get _ _ => db
  | .use now code => (ShareCodeService.UseShareCode L db now code).2
  | .delete id => (ShareCodeService.DeleteShareCode L db id).2

/-- The database after a sequence of calls of the share-code service. -/
def runShareCodeCalls (L : Lib) (db : DB) (calls : List ShareCodeCall) : DB :=
  calls.foldl (ShareCodeCall.run L) db

/-- The max-use limit a `CreateShareCode` call asks for, as the repository's `int32(...)`
conversion stores it, is not negative. -/
def ShareCodeCall.LimitNotNegative : ShareCodeCall → Prop
  | .create _ _ maxUses _ _ _ => ∀ m, maxUses = some m → 0 ≤ wrapInt32 m
  | _ => True

/-- The library reads the id the database gives a new share code back from its text. -/
def ShareCodeCall.IdReadsBack (L : Lib) : ShareCodeCall → Prop
  | .create _ _ _ _ newID _ => L.uuidParse (L.uuidString newID) = some newID
  | _ => True

/-- A later call on an invite code: `GetInvite`, or `UseInvite` by `usedBy`. -/
inductive InviteCall where
  | get (now : Time)
  | use (now : Time) (usedBy : String)

/-- A call that names who uses the invite: `UseInvite` with a non-empty `usedBy`. -/
def InviteCall.NamesUser : InviteCall → Prop
  | .get _ => True
  | .use _ usedBy => usedBy ≠ ""

/-- The result (whether an invite or which error) and the database of one call on `code`. -/
def InviteCall.run (L : Lib) (code : String) (db : DB) : InviteCall → Result UserInvite × DB
  | .get now => (UserInviteService.GetInvite db now code, db)
  | .use now usedBy => UserInviteService.UseInvite L db now code usedBy

/-- Calls on `code` in sequence: the results in order and the final database. -/
def runInviteCalls (L : Lib) (code : String) : DB → List InviteCall →
    List (Result UserInvite) × DB
  | db, [] => ([], db)
  | db, c :: rest =>
    let step := InviteCall.run L code db c
    let tail := runInviteCalls L code step.2 rest
    (step.1 :: tail.1, tail.2)

/-! ## A small concrete library and database, for evaluating the code on examples -/

namespace Example

/-- Text of an optional date in an example token. -/
def showDate : Option Time → String
  | none => "-"
  | some t => toString t

/-- An example signing function: the secret and the claims, written out. -/
def sign (secret : String) (c : Claims) : String :=
  secret ++ "." ++ c.UserID ++ "." ++ c.Email ++ "." ++ c.Role ++ "."
    ++ showDate c.ExpiresAt ++ "." ++ showDate c.NotBefore ++ "." ++ showDate c.IssuedAt

/-- An example library.  UUIDs are written `id-n` (for n below 16); a bcrypt hash is the
password behind a fixed salt; a token is `sign secret claims`, and it decodes under a
secret to the claims of `known` that sign to it under that secret.  The case table leaves
every character above ASCII as it is. -/
def lib (known : List Claims) : Lib :=
  { uuidParse := fun s =>
      ((List.range 16).find? (fun n => decide ("id-" ++ toString n = s))).map UUID.mk
    uuidString := fun u => "id-" ++ toString u.val
    bcryptGenerateFromPassword := fun pw =>
      if pw.length > 72 then .error "bcrypt: password length exceeds 72 bytes"
      else .ok ("$2a$10$salt" ++ pw)
    bcryptCompareHashAndPassword := fun h pw => decide (h = "$2a$10$salt" ++ pw)
    jwtSignedString := fun secret c => .ok (sign secret c)
    jwtDecode := fun secret t =>
      match known.find? (fun c => decide (sign secret c = t)) with
      | some c => .ok c
      | none => .error "token signature is invalid: signature is invalid"
    unicodeLowerCase := fun r => r }

/-- The configuration `Load` gives when no environment variable is set. -/
def defaultConfig : Config :=
  { Environment := "development"
    Auth := { JWTSecret := "change-me-in-production"
              RefreshSecret := "change-me-in-production"
              TokenExpiryHours := 24 } }

/-- The configuration of the service tests. -/
def testConfig : Config :=
  { Environment := "development"
    Auth := { JWTSecret := "test-secret-key"
              RefreshSecret := "test-refresh-secret"
              TokenExpiryHours := 1 } }

/-- A user row. -/
def alice : UserRecord :=
  { id := ⟨1⟩, email := "alice@example.com", password_hash := "$2a$10$saltpassword"
    role := "user", created_at := some 0, updated_at := some 0 }

/-- The user `alice` as the repository returns her. -/
def aliceUser : User := UserRepository.sqlcToModel (scanUser alice)

/-- A database holding the user `alice`. -/
def db1 : DB := { users := [alice] }

/-- The claims of the tokens issued to `alice` at instant 0: the access token under
`testConfig` (1 hour) and under `defaultConfig` (24 hours), the refresh token, and the
access token under a configuration of 0 hours. -/
def known : List Claims :=
  [ { UserID := "id-1", Email := "alice@example.com", Role := "user"
      ExpiresAt := some 3600000000000, NotBefore := none, IssuedAt := some 0 },
    { UserID := "id-1", Email := "alice@example.com", Role := "user"
      ExpiresAt := some 86400000000000, NotBefore := none, IssuedAt := some 0 },
    { UserID := "id-1", Email := "alice@example.com", Role := "user"
      ExpiresAt := some 604800000000000, NotBefore := none, IssuedAt := some 0 },
    { UserID := "id-1", Email := "alice@example.com", Role := "user"
      ExpiresAt := some 0, NotBefore := none, IssuedAt := some 0 } ]

/-- The access token `alice` gets at instant 0 under `testConfig`. -/
def aliceAccessToken : String := "test-secret-key.id-1.alice@example.com.user.3600000000000.-.0"

/-- The refresh token `alice` gets at instant 0 under `testConfig`. -/
def aliceRefreshToken : String :=
  "test-refresh-secret.id-1.alice@example.com.user.604800000000000.-.0"

/-- The row of `alice` after an administrator changed her e-mail and role. -/
def alicePromoted : UserRecord :=
  { id := ⟨1⟩, email := "alice@new.example.com", password_hash := "$2a$10$saltpassword"
    role := "admin", created_at := some 0, updated_at := some 7 }

/-- The configuration `testConfig` with `TokenExpiryHours` set to `h`. -/
def configWithHours (h : Int) : Config :=
  { Environment := "development"
    Auth := { JWTSecret := "test-secret-key"
              RefreshSecret := "test-refresh-secret"
              TokenExpiryHours := h } }

/-- An environment that sets the two secrets and a token lifetime of 0 hours. -/
def zeroHoursEnv (key : String) : String :=
  if key = "JWT_SECRET" then "test-secret-key"
  else if key = "REFRESH_SECRET" then "test-refresh-secret"
  else if key = "TOKEN_EXPIRY_HOURS" then "0"
  else ""

/-- The part of `strconv.Atoi` the examples use. -/
def atoi (s : String) : Option Int :=
  if s = "0" then some 0 else if s = "1" then some 1 else if s = "24" then some 24 else none

/-- The row `Register` creates for bob at instant 0 with id 2. -/
def bob : UserRecord :=
  { id := ⟨2⟩, email := "bob@example.com", password_hash := "$2a$10$saltsecret"
    role := "user", created_at := some 0, updated_at := some 0 }

/-- A published recipe (id 3) and a draft (id 4). -/
def recipes : List RecipeRecord :=
  [ { id := ⟨3⟩, title := "Fluffy Pancakes", slug := "fluffy-pancakes"
      is_published := some true },
    { id := ⟨4⟩, title := "Secret Stew", slug := "secret-stew", is_published := some false } ]

/-- A database holding the two recipes and no share code. -/
def dbRecipes : DB := { recipes := recipes }

/-- Eight bytes as `rand.Read` may deliver them. -/
def bytes : Fin 8 → UInt8 := fun i => UInt8.ofNat (16 * i.val + 10)

/-- A share code stored for the published recipe with no max-use limit and no expiry. -/
def unlimitedCode : ShareCodeRecord :=
  { id := ⟨9⟩, recipe_id := some ⟨3⟩, code := "0a1a2a3a4a5a6a7a"
    expires_at := none, max_uses := none, use_count := some 0, created_at := some 0 }

/-- A share code for the published recipe that expired at instant 10 and has been used
as often as its limit of 1 allows. -/
def spentExpiredCode : ShareCodeRecord :=
  { id := ⟨9⟩, recipe_id := some ⟨3⟩, code := "0a1a2a3a4a5a6a7a"
    expires_at := some 10, max_uses := some 1, use_count := some 1, created_at := some 0 }

/-- A share code for the published recipe that expired at instant 10, used once of 5. -/
def expiredCode : ShareCodeRecord :=
  { id := ⟨9⟩, recipe_id := some ⟨3⟩, code := "0a1a2a3a4a5a6a7a"
    expires_at := some 10, max_uses := some 5, use_count := some 1, created_at := some 0 }

/-- A share code for the published recipe with a limit of 2 uses and no expiry, unused. -/
def twoUseCode : ShareCodeRecord :=
  { id := ⟨9⟩, recipe_id := some ⟨3⟩, code := "0a1a2a3a4a5a6a7a"
    expires_at := none, max_uses := some 2, use_count := some 0, created_at := some 0 }

/-- An unused invite for carol, created by alice, that expires at instant 100. -/
def carolInvite : UserInviteRecord :=
  { id := ⟨11⟩, code := "0a1a2a3a4a5a6a7a", email := some "carol@example.com"
    role := some "user", created_by := some ⟨1⟩, expires_at := some 100
    used_at := none, used_by := none, created_at := some 0 }

/-- An unused invite addressed to alice, who is registered in `db1`. -/
def aliceInvite : UserInviteRecord :=
  { id := ⟨12⟩, code := "1b2b3b4b5b6b7b8b", email := some "alice@example.com"
    role := some "user", created_by := some ⟨1⟩, expires_at := none
    used_at := none, used_by := none, created_at := some 0 }

/-- The user `alice` and the two invites. -/
def dbInvites : DB := { users := [alice], user_invites := [carolInvite, aliceInvite] }

/-- The row `CreateShareCode` stores when asked for a max-use limit of -1. -/
def negativeLimitCode : ShareCodeRecord :=
  { id := ⟨9⟩, recipe_id := some ⟨3⟩, code := "0a1a2a3a4a5a6a7a"
    expires_at := none, max_uses := some (-1), use_count := some 0, created_at := some 0 }

/-- Creating a share code with a limit of 1 for the published recipe, then using it twice. -/
def createThenUseTwice : List ShareCodeCall :=
  [ .create "id-3" none (some 1) (.ok bytes) ⟨9⟩ 0,
    .use 1 "0a1a2a3a4a5a6a7a",
    .use 2 "0a1a2a3a4a5a6a7a" ]

/-- The mock of the middleware tests: one valid token, whose user is `aliceUser`. -/
def mockValidateToken (token : String) : Result User :=
  if token = "valid-token" then .ok aliceUser else .err "assert.AnError general error for testing"

/-- A request with the given Authorization header and an empty context. -/
def requestWith (authorization : String) : Request :=
  { Header := fun key => if key = "Authorization" then authorization else ""
    Context := [] }

/-- A next handler that answers with the e-mail of the user it finds in the context under
`UserKey`. -/
def echoUser : Handler := fun w r =>
  match r.Context.Value AuthMiddleware.UserKey with
  | some (.user u) => .ok (w.Write u.Email)
  | _ => .panicked "interface conversion: interface {} is nil, not *models.User"

/-- The row in the table after `createThenUseTwice`: limit 1, used once. -/
def usedUpCode : ShareCodeRecord :=
  { id := ⟨9⟩, recipe_id := some ⟨3⟩, code := "0a1a2a3a4a5a6a7a"
    expires_at := none, max_uses := some 1, use_count := some 1, created_at := some 0 }

/-- A request whose context holds the user `u` under `UserKey`, as the middleware tests
build it. -/
def requestOf (u : User) : Request :=
  { Header := fun _ => "", Context := WithValue [] AuthMiddleware.UserKey (.user u) }

/-- The user of the row `alicePromoted`, whose role is "admin". -/
def adminUser : User := UserRepository.sqlcToModel (scanUser alicePromoted)

/-- A next handler that answers with the text "next". -/
def sayNext : Handler := fun w _ => .ok (w.Write "next")

/-- The recipe of the service tests: "Pancakes", a draft written by `alice` (id 5). -/
def pancakes : RecipeRecord :=
  { id := ⟨5⟩, title := "Pancakes", slug := "pancakes"
    markdown_content := "Ingredients: Flour, Eggs.", author_id := some ⟨1⟩
    is_published := some false, created_at := some 0, updated_at := some 0 }

/-- A recipe whose author column is NULL (id 6). -/
def orphanRecipe : RecipeRecord :=
  { id := ⟨6⟩, title := "Porridge", slug := "porridge", markdown_content := "Oats."
    author_id := none, is_published := some true, created_at := some 0
    updated_at := some 0 }

/-- A database holding `alice`, `bob` and the two recipes. -/
def dbPancakes : DB := { users := [alice, bob], recipes := [pancakes, orphanRecipe] }

/-- The update request of the service test. -/
def fluffyUpdate : UpdateRecipeRequest :=
  { Title := some "Fluffy Pancakes", Description := some "Updated description" }

/-- The row of the recipe `pancakes` after the update of the service test at instant 7. -/
def pancakesUpdated : RecipeRecord :=
  { id := ⟨5⟩, title := "Fluffy Pancakes", slug := "pancakes"
    markdown_content := "Ingredients: Flour, Eggs.", author_id := some ⟨1⟩
    description := some "Updated description"
    is_published := some false, created_at := some 0, updated_at := some 7 }

/-- The two variations of the service test for the recipe `pancakes`: a published one by
`alice` and a draft by `bob`, and a published variation of another recipe. -/
def variations : List RecipeVariationRecord :=
  [ { id := ⟨11⟩, recipe_id := ⟨5⟩, author_id := ⟨1⟩
      markdown_content := "Published variation", is_published := some true
      created_at := some 1, updated_at := some 1 },
    { id := ⟨12⟩, recipe_id := ⟨5⟩, author_id := ⟨2⟩
      markdown_content := "Draft variation", is_published := some false
      created_at := some 2, updated_at := some 2 },
    { id := ⟨13⟩, recipe_id := ⟨6⟩, author_id := ⟨2⟩
      markdown_content := "With honey", is_published := some true
      created_at := some 3, updated_at := some 3 } ]

/-- The database `dbPancakes` with the variations. -/
def dbVariations : DB := { dbPancakes with recipe_variations := variations }

/-- The published variation of `pancakes` as the repository returns it. -/
def publishedVariation : RecipeVariation :=
  { ID := ⟨11⟩, RecipeID := ⟨5⟩, AuthorID := ⟨1⟩, MarkdownContent := "Published variation"
    PrepTimeMinutes := none, CookTimeMinutes := none, Servings := none, Difficulty := none
    Notes := none, IsPublished := true, CreatedAt := 1, UpdatedAt := 1 }

/-- The draft variation of `pancakes` as the repository returns it. -/
def draftVariation : RecipeVariation :=
  { ID := ⟨12⟩, RecipeID := ⟨5⟩, AuthorID := ⟨2⟩, MarkdownContent := "Draft variation"
    PrepTimeMinutes := none, CookTimeMinutes := none, Servings := none, Difficulty := none
    Notes := none, IsPublished := false, CreatedAt := 2, UpdatedAt := 2 }

/-- A request to `POST /api/v1/recipes/id-5/variations` style routes: the given
Authorization header and body, the path value `id`, and the given context. -/
def requestTo (authorization body : String) (ctx : Context) : Request :=
  { Header := fun key => if key = "Authorization" then authorization else ""
    Context := ctx
    Body := body
    PathValue := fun name => if name = "id" then "id-5" else "" }

/-- A stand-in for the JSON decoder of a `CreateRecipeRequest`: the empty body is
malformed, any other body is taken as the title and the content. -/
def decodeRecipe (body : String) : Option CreateRecipeRequest :=
  if body = "" then none else some { Title := body, MarkdownContent := body }

/-- A stand-in for the JSON decoder of a `CreateVariationRequest`. -/
def decodeVariation (body : String) : Option CreateVariationRequest :=
  if body = "" then none else some { MarkdownContent := body }

/-- A stand-in for the JSON decoder of a `CreateUserInviteRequest`. -/
def decodeInvite (body : String) : Option CreateUserInviteRequest :=
  if body = "" then none else some { Email := body, Role := "user" }

/-- A recipe service that answers with the recipe `pancakes` under the requested title. -/
def recipeService (req : CreateRecipeRequest) (_authorID : String) : Result Recipe :=
  if req.Title = "" then .err "title is required"
  else .ok { RecipeRepository.sqlcToModel (scanRecipe pancakes) with Title := req.Title }

/-- A variation service that answers with `publishedVariation`. -/
def variationService (req : CreateVariationRequest) (_recipeID _authorID : String) :
    Result RecipeVariation :=
  if req.MarkdownContent = "" then .err "markdown content is required"
  else .ok publishedVariation

/-- An invite service that answers with the invite of the row `carolInvite`. -/
def inviteService (_email _role createdBy : String) (_expiresAt : Option Time) :
    Result UserInvite :=
  if createdBy = "" then .err "created_by is required"
  else .ok (UserInviteRepository.sqlcToModel (scanUserInvite carolInvite))

/-- The handler `recipeHandler.CreateRecipe` of the example. -/
def createRecipe : Handler :=
  RecipeHandler.CreateRecipe (lib []) recipeService decodeRecipe (fun recipe => recipe.Title)

/-- The handler `variationHandler.CreateVariation` of the example. -/
def createVariation : Handler :=
  VariationHandler.CreateVariation (lib []) variationService decodeVariation
    (fun variation => variation.MarkdownContent)

/-- The handler `userInviteHandler.CreateInvite` of the example. -/
def createInvite : Handler :=
  UserInviteHandler.CreateInvite inviteService decodeInvite (fun invite => invite.Code)

/-- The example library with UUIDs written in the canonical form of `UUID.String`, 36
characters of which the last is the hexadecimal digit of the value modulo 16. -/
def hexLib : Lib :=
  { lib [] with
    uuidString := fun u =>
      String.mk ("00000000-0000-0000-0000-00000000000".data ++ [hextable.getD (u.val % 16) '0']) }

end Example









end HomeCooking

/-! # Theorems -/

namespace HomeCooking

open AuthService

/-! ## Lookups in the user table -/

theorem getByEmail_absent (db : DB) (email : String)
    (h : ∀ r ∈ db.users, r.email ≠ email) :
    UserRepository.GetByEmail db email = .err ErrNoRows := by
  have hfind : db.users.find? (fun r => decide (r.email = email)) = none := by
    rw [List.find?_eq_none]
    intro r hr
    simpa using h r hr
  simp [UserRepository.GetByEmail, Queries.GetUserByEmail, hfind]

theorem getUserByID_absent (db : DB) (id : UUID)
    (h : ∀ r ∈ db.users, r.id ≠ id) :
    Queries.GetUserByID db id = .err ErrNoRows := by
  have hfind : db.users.find? (fun r => decide (r.id = id)) = none := by
    rw [List.find?_eq_none]
    intro r hr
    simpa using h r hr
  simp [Queries.GetUserByID, hfind]

/-! ## Login -/

/-- C1. `Login` with an e-mail no user has, and `Login` with an existing user's e-mail and
a password that does not match the stored hash, return the same error, whose message is
"invalid credentials". -/
theorem login_unknown_email_and_wrong_password_same_error
    (L : Lib) (cfg : Config) (db : DB) (now : Time) (req1 req2 : LoginRequest) (user : User)
    (hnone : ∀ r ∈ db.users, r.email ≠ req1.Email)
    (huser : UserRepository.GetByEmail db req2.Email = .ok user)
    (hpw : L.bcryptCompareHashAndPassword user.PasswordHash req2.Password = false) :
    Login L cfg db now req1 = .err "invalid credentials"
      ∧ Login L cfg db now req2 = .err "invalid credentials"
      ∧ Login L cfg db now req1 = Login L cfg db now req2 := by
  have h1 : Login L cfg db now req1 = .err "invalid credentials" := by
    simp [Login, getByEmail_absent db req1.Email hnone]
  have h2 : Login L cfg db now req2 = .err "invalid credentials" := by
    simp [Login, huser, hpw]
  exact ⟨h1, h2, h1.trans h2.symm⟩

theorem login_unknown_email_and_wrong_password_same_error_witness :
    Login (Example.lib []) Example.testConfig Example.db1 0
        { Email := "nonexistent@example.com", Password := "password123" }
      = .err "invalid credentials"
    ∧ Login (Example.lib []) Example.testConfig Example.db1 0
        { Email := "alice@example.com", Password := "wrongpassword" }
      = .err "invalid credentials"
    ∧ Login (Example.lib []) Example.testConfig Example.db1 0
        { Email := "nonexistent@example.com", Password := "password123" }
      = Login (Example.lib []) Example.testConfig Example.db1 0
        { Email := "alice@example.com", Password := "wrongpassword" } :=
  login_unknown_email_and_wrong_password_same_error (Example.lib []) Example.testConfig
    Example.db1 0 { Email := "nonexistent@example.com", Password := "password123" }
    { Email := "alice@example.com", Password := "wrongpassword" } Example.aliceUser
    (by decide) (by decide) (by decide)

/-! ## Token kinds -/

theorem parseWithClaims_error (L : Lib) (secret : String) (now : Time) (t e : String)
    (h : L.jwtDecode secret t = .error e) :
    ParseWithClaims L secret now t = .error e := by
  simp [ParseWithClaims, h]

theorem parseWithClaims_valid (L : Lib) (secret : String) (now : Time) (t : String)
    (token : Token) (h : ParseWithClaims L secret now t = .ok token) :
    token.Valid = true ∧ L.jwtDecode secret t = .ok token.Claims := by
  unfold ParseWithClaims at h
  cases hd : L.jwtDecode secret t with
  | error e => simp [hd] at h
  | ok c =>
    simp only [hd] at h
    split_ifs at h
    injection h with h
    subst h
    exact ⟨rfl, rfl⟩

/-- C2, as the code has it. A token made by `generateAccessToken` is rejected by
`RefreshToken`, and one made by `generateRefreshToken` is rejected by `ValidateToken`,
with the library's error, whenever the signature check under the other secret fails;
nothing but the difference of the two secrets separates the two kinds. -/
theorem cross_kind_rejected_when_signature_fails
    (L : Lib) (cfg : Config) (db : DB) (now later : Time) (user : User)
    (hA : ∀ t, generateAccessToken L cfg now user = .ok t →
      ∃ e, L.jwtDecode cfg.Auth.RefreshSecret t = .error e)
    (hR : ∀ t, generateRefreshToken L cfg now user = .ok t →
      ∃ e, L.jwtDecode cfg.Auth.JWTSecret t = .error e) :
    (∀ t, generateAccessToken L cfg now user = .ok t →
        ∃ e, RefreshToken L cfg db later t = .err e)
      ∧ (∀ t, generateRefreshToken L cfg now user = .ok t →
        ∃ e, ValidateToken L cfg db later t = .err e) := by
  constructor
  · intro t ht
    obtain ⟨e, he⟩ := hA t ht
    exact ⟨e, by simp [RefreshToken, parseWithClaims_error L _ later t e he]⟩
  · intro t ht
    obtain ⟨e, he⟩ := hR t ht
    exact ⟨e, by simp [ValidateToken, parseWithClaims_error L _ later t e he]⟩

theorem cross_kind_rejected_when_signature_fails_witness :
    (∀ t, generateAccessToken (Example.lib Example.known) Example.testConfig 0
          Example.aliceUser = .ok t →
        ∃ e, RefreshToken (Example.lib Example.known) Example.testConfig Example.db1 5 t
          = .err e)
      ∧ (∀ t, generateRefreshToken (Example.lib Example.known) Example.testConfig 0
          Example.aliceUser = .ok t →
        ∃ e, ValidateToken (Example.lib Example.known) Example.testConfig Example.db1 5 t
          = .err e) :=
  cross_kind_rejected_when_signature_fails (Example.lib Example.known) Example.testConfig
    Example.db1 0 5 Example.aliceUser
    (fun t ht => by
      have h0 : generateAccessToken (Example.lib Example.known) Example.testConfig 0
          Example.aliceUser = .ok Example.aliceAccessToken := by decide
      rw [h0] at ht
      injection ht with ht
      subst ht
      exact ⟨"token signature is invalid: signature is invalid", by decide⟩)
    (fun t ht => by
      have h0 : generateRefreshToken (Example.lib Example.known) Example.testConfig 0
          Example.aliceUser = .ok Example.aliceRefreshToken := by decide
      rw [h0] at ht
      injection ht with ht
      subst ht
      exact ⟨"token signature is invalid: signature is invalid", by decide⟩)

/-- C2 fails for the configuration `Load` builds when no variable is set: both secrets
are "change-me-in-production", `RefreshToken` accepts an access token and `ValidateToken`
accepts a refresh token. -/
theorem cross_kind_accepted_under_default_secrets :
    Load (fun _ => "") (fun _ => none) = .ok Example.defaultConfig
      ∧ generateAccessToken (Example.lib Example.known) Example.defaultConfig 0
          Example.aliceUser
        = .ok "change-me-in-production.id-1.alice@example.com.user.86400000000000.-.0"
      ∧ (RefreshToken (Example.lib Example.known) Example.defaultConfig Example.db1 5
          "change-me-in-production.id-1.alice@example.com.user.86400000000000.-.0").isOk
        = true
      ∧ generateRefreshToken (Example.lib Example.known) Example.defaultConfig 0
          Example.aliceUser
        = .ok "change-me-in-production.id-1.alice@example.com.user.604800000000000.-.0"
      ∧ ValidateToken (Example.lib Example.known) Example.defaultConfig Example.db1 5
          "change-me-in-production.id-1.alice@example.com.user.604800000000000.-.0"
        = .ok Example.aliceUser := by
  decide

/-! ## ValidateToken -/

/-- C3, as the code has it. For a token that verifies as an access token and whose user
id is a well-formed UUID with no row in the user table, `ValidateToken` fails and
returns no user; the error is the store's lookup error `sql.ErrNoRows`, passed through. -/
theorem validateToken_missing_user_returns_store_error
    (L : Lib) (cfg : Config) (db : DB) (now : Time) (tokenString : String) (token : Token)
    (id : UUID)
    (hparse : ParseWithClaims L cfg.Auth.JWTSecret now tokenString = .ok token)
    (hid : L.uuidParse token.Claims.UserID = some id)
    (hnone : ∀ r ∈ db.users, r.id ≠ id) :
    ValidateToken L cfg db now tokenString = .err ErrNoRows := by
  have hv := (parseWithClaims_valid L _ now tokenString token hparse).1
  simp [ValidateToken, hparse, hv, UserRepository.GetByID, MustParse, hid,
    getUserByID_absent db id hnone]

theorem validateToken_missing_user_returns_store_error_witness :
    ValidateToken (Example.lib Example.known) Example.testConfig {} 5
      Example.aliceAccessToken = .err ErrNoRows :=
  validateToken_missing_user_returns_store_error (Example.lib Example.known)
    Example.testConfig {} 5 Example.aliceAccessToken
    { Claims := { UserID := "id-1", Email := "alice@example.com", Role := "user"
                  ExpiresAt := some 3600000000000, NotBefore := none, IssuedAt := some 0 }
      Valid := true }
    ⟨1⟩ (by decide) (by decide) (by simp)

/-- C3 fails: with the user's row gone, `ValidateToken` on her valid access token returns
the error "sql: no rows in result set", which is not the error "invalid token". -/
theorem validateToken_missing_user_is_not_invalid_token :
    ValidateToken (Example.lib Example.known) Example.testConfig {} 5
        Example.aliceAccessToken = .err "sql: no rows in result set"
      ∧ ValidateToken (Example.lib Example.known) Example.testConfig {} 5
        Example.aliceAccessToken ≠ .err "invalid token" := by
  decide

/-- C6. For a token that verifies as an access token, `ValidateToken` returns the row the
user table holds for the user id of the claims: id, e-mail, role and password hash of the
result are the row's, whatever e-mail and role the token's claims carry. -/
theorem validateToken_returns_stored_record
    (L : Lib) (cfg : Config) (db : DB) (now : Time) (tokenString : String) (token : Token)
    (id : UUID) (r : UserRecord)
    (hparse : ParseWithClaims L cfg.Auth.JWTSecret now tokenString = .ok token)
    (hid : L.uuidParse token.Claims.UserID = some id)
    (hrow : db.users.find? (fun x => decide (x.id = id)) = some r) :
    ∃ user, ValidateToken L cfg db now tokenString = .ok user
      ∧ user = UserRepository.sqlcToModel (scanUser r)
      ∧ user.ID = id ∧ user.Email = r.email ∧ user.Role = r.role
      ∧ user.PasswordHash = r.password_hash := by
  have hv := (parseWithClaims_valid L _ now tokenString token hparse).1
  have hrid : r.id = id := by
    have := List.find?_some hrow
    simpa using this
  refine ⟨UserRepository.sqlcToModel (scanUser r), ?_, rfl, ?_, rfl, rfl, rfl⟩
  · simp [ValidateToken, hparse, hv, UserRepository.GetByID, MustParse, hid,
      Queries.GetUserByID, hrow]
  · simpa [UserRepository.sqlcToModel, scanUser] using hrid

theorem validateToken_returns_stored_record_witness :
    ∃ user, ValidateToken (Example.lib Example.known) Example.testConfig
        { users := [Example.alicePromoted] } 5 Example.aliceAccessToken = .ok user
      ∧ user = UserRepository.sqlcToModel (scanUser Example.alicePromoted)
      ∧ user.ID = ⟨1⟩ ∧ user.Email = "alice@new.example.com" ∧ user.Role = "admin"
      ∧ user.PasswordHash = "$2a$10$saltpassword" :=
  validateToken_returns_stored_record (Example.lib Example.known) Example.testConfig
    { users := [Example.alicePromoted] } 5 Example.aliceAccessToken
    { Claims := { UserID := "id-1", Email := "alice@example.com", Role := "user"
                  ExpiresAt := some 3600000000000, NotBefore := none, IssuedAt := some 0 }
      Valid := true }
    ⟨1⟩ Example.alicePromoted (by decide) (by decide) (by decide)

/-! ## Token lifetimes -/

theorem wrapInt64_of_range (x : Int)
    (h1 : -9223372036854775808 ≤ x) (h2 : x ≤ 9223372036854775807) : wrapInt64 x = x := by
  unfold wrapInt64
  omega

theorem truncateSecond_add_seconds (t k : Int) :
    truncateSecond (t + k * Second) = truncateSecond t + k * Second := by
  unfold truncateSecond
  rw [Int.add_mul_emod_self]
  ring

theorem truncateSecond_add_hours (t h : Int) :
    truncateSecond (t + h * Hour) = truncateSecond t + h * Hour := by
  have : h * Hour = (h * 3600) * Second := by
    simp only [Hour, Second]
    ring
  rw [this, truncateSecond_add_seconds]

theorem truncateSecond_le (t : Int) : truncateSecond t ≤ t ∧ t < truncateSecond t + Second := by
  have h1 : 0 ≤ t % 1000000000 := Int.emod_nonneg t (by norm_num)
  have h2 : t % 1000000000 < 1000000000 := Int.emod_lt_of_pos t (by norm_num)
  simp only [truncateSecond, Second]
  constructor
  · show t - t % 1000000000 ≤ t
    linarith
  · show t < t - t % 1000000000 + 1000000000
    linarith

/-- C7, as the code has it. The claims of both tokens carry the user's id, e-mail and
role.  The refresh token expires at the issue time, cut to the whole second, plus 7×24
hours, whatever `TokenExpiryHours` is.  The access token expires at the issue time, cut
to the whole second, plus `TokenExpiryHours` hours when that many hours fit in an `int64`
duration of nanoseconds. -/
theorem token_claims_identity_and_expiry
    (L : Lib) (cfg : Config) (t : Time) (user : User) :
    generateAccessToken L cfg t user
        = ofExcept (L.jwtSignedString cfg.Auth.JWTSecret (accessTokenClaims L cfg t user))
      ∧ generateRefreshToken L cfg t user
        = ofExcept (L.jwtSignedString cfg.Auth.RefreshSecret (refreshTokenClaims L t user))
      ∧ (accessTokenClaims L cfg t user).UserID = L.uuidString user.ID
      ∧ (accessTokenClaims L cfg t user).Email = user.Email
      ∧ (accessTokenClaims L cfg t user).Role = user.Role
      ∧ (refreshTokenClaims L t user).UserID = L.uuidString user.ID
      ∧ (refreshTokenClaims L t user).Email = user.Email
      ∧ (refreshTokenClaims L t user).Role = user.Role
      ∧ (refreshTokenClaims L t user).ExpiresAt = some (truncateSecond t + 7 * 24 * Hour)
      ∧ (-2562047 ≤ cfg.Auth.TokenExpiryHours ∧ cfg.Auth.TokenExpiryHours ≤ 2562047 →
          (accessTokenClaims L cfg t user).ExpiresAt
            = some (truncateSecond t + cfg.Auth.TokenExpiryHours * Hour)) := by
  refine ⟨rfl, rfl, rfl, rfl, rfl, rfl, rfl, rfl, ?_, ?_⟩
  · have h := truncateSecond_add_hours t (7 * 24)
    simp only [refreshTokenClaims, NewNumericDate]
    rw [show (24 : Int) * 7 * Hour = 7 * 24 * Hour by ring, h]
  · intro hH
    have hw : durationMul cfg.Auth.TokenExpiryHours Hour = cfg.Auth.TokenExpiryHours * Hour := by
      unfold durationMul
      apply wrapInt64_of_range <;> simp only [Hour] <;> omega
    simp only [accessTokenClaims, NewNumericDate, hw, truncateSecond_add_hours]

theorem token_claims_identity_and_expiry_witness :
    (accessTokenClaims (Example.lib []) Example.testConfig 1500000000 Example.aliceUser).ExpiresAt
      = some (1000000000 + 1 * Hour) :=
  (token_claims_identity_and_expiry (Example.lib []) Example.testConfig 1500000000
    Example.aliceUser).2.2.2.2.2.2.2.2.2 (by decide)

/-- C7 fails when `TokenExpiryHours` hours overflow the `int64` duration: with 2562048
hours the access token issued at instant 0 expires some 292 years before it, not 2562048
hours after. -/
theorem accessToken_expiry_wraps :
    (accessTokenClaims (Example.lib []) (Example.configWithHours 2562048) 0
        Example.aliceUser).ExpiresAt = some (-9223371274000000000)
      ∧ (accessTokenClaims (Example.lib []) (Example.configWithHours 2562048) 0
        Example.aliceUser).ExpiresAt ≠ some (0 + 2562048 * Hour) := by
  decide

/-! ## Register, then Login -/

theorem find?_append_new {α : Type} (l : List α) (r : α) (p : α → Bool)
    (h : l.any p = false) (hr : p r = true) : (l ++ [r]).find? p = some r := by
  have hnone : l.find? p = none := by
    rw [List.find?_eq_none]
    intro x hx
    have := List.any_eq_false.mp h x hx
    simpa using this
  simp [List.find?_append, hnone, hr]

/-- What a successful `Register` did: the password was hashed, no row had the e-mail or
the new id, one row was appended, and the returned user is that row. -/
theorem register_ok (L : Lib) (db db1 : DB) (req : RegisterRequest) (newID : UUID)
    (t0 : Time) (user : User)
    (h : Register L db req newID t0 = (.ok user, db1)) :
    ∃ hashed, L.bcryptGenerateFromPassword req.Password = .ok hashed
      ∧ db.users.any (fun r => decide (r.email = req.Email)) = false
      ∧ db.users.any (fun r => decide (r.id = newID)) = false
      ∧ db1 = { db with users := db.users ++
          [{ id := newID, email := req.Email, password_hash := hashed, role := "user"
             created_at := some t0, updated_at := some t0 }] }
      ∧ user = { ID := newID, Email := req.Email, PasswordHash := hashed, Role := "user"
                 CreatedAt := t0, UpdatedAt := t0 } := by
  unfold Register at h
  cases hg : L.bcryptGenerateFromPassword req.Password with
  | error e => simp [hg] at h
  | ok hashed =>
    refine ⟨hashed, rfl, ?_⟩
    simp only [hg, UserRepository.Create, Queries.CreateUser] at h
    by_cases he : db.users.any (fun r => decide (r.email = req.Email)) = true
    · simp [he] at h
    · by_cases hi : db.users.any (fun r => decide (r.id = newID)) = true
      · simp [he, hi] at h
      · have he2 : db.users.any (fun r => decide (r.email = req.Email)) = false := by
          simpa using he
        have hi2 : db.users.any (fun r => decide (r.id = newID)) = false := by
          simpa using hi
        have hf := find?_append_new db.users
          { id := newID, email := req.Email, password_hash := hashed, role := "user"
            created_at := some t0, updated_at := some t0 }
          (fun r => decide (r.id = newID)) hi2 (by simp)
        simp only [he2, hi2, Queries.GetUserByID, scanUser] at h
        simp only [Bool.false_eq_true, if_false] at h
        rw [hf] at h
        simp only [Prod.mk.injEq, Result.ok.injEq] at h
        refine ⟨he2, hi2, h.2.symm, ?_⟩
        rw [← h.1]
        simp [UserRepository.sqlcToModel, scanNullTime]

/-- C5, as the code has it. After `Register` accepts an e-mail and password, `Login`
with the same e-mail and password succeeds under every configuration and returns a
non-empty access token and a non-empty refresh token; its `ExpiresIn` is the `int` product
`TokenExpiryHours * 3600`.  That is the exact product and positive when `TokenExpiryHours`
is positive and the product fits in an `int`, and it is the exact product and not
positive when `TokenExpiryHours` is zero or negative (and the product fits). -/
theorem login_after_register
    (L : Lib) (cfg : Config) (db db1 : DB) (req : RegisterRequest) (newID : UUID)
    (t0 t1 : Time) (user : User)
    (hreg : Register L db req newID t0 = (.ok user, db1))
    (hbcrypt : ∀ pw h, L.bcryptGenerateFromPassword pw = .ok h →
      L.bcryptCompareHashAndPassword h pw = true)
    (hsign : ∀ k c, ∃ t, L.jwtSignedString k c = .ok t ∧ t ≠ "") :
    ∃ resp, Login L cfg db1 t1 { Email := req.Email, Password := req.Password } = .ok resp
      ∧ resp.AccessToken ≠ "" ∧ resp.RefreshToken ≠ ""
      ∧ resp.ExpiresIn = wrapInt64 (cfg.Auth.TokenExpiryHours * 3600)
      ∧ (0 < cfg.Auth.TokenExpiryHours → cfg.Auth.TokenExpiryHours ≤ 2562047788015215 →
        resp.ExpiresIn = cfg.Auth.TokenExpiryHours * 3600 ∧ 0 < resp.ExpiresIn)
      ∧ (cfg.Auth.TokenExpiryHours ≤ 0 → -2562047788015215 ≤ cfg.Auth.TokenExpiryHours →
        resp.ExpiresIn = cfg.Auth.TokenExpiryHours * 3600 ∧ resp.ExpiresIn ≤ 0) := by
  obtain ⟨hashed, hg, he, _, hdb, hu⟩ := register_ok L db db1 req newID t0 user hreg
  have hf := find?_append_new db.users
    { id := newID, email := req.Email, password_hash := hashed, role := "user"
      created_at := some t0, updated_at := some t0 }
    (fun r => decide (r.email = req.Email)) he (by simp)
  have hget : UserRepository.GetByEmail db1 req.Email = .ok user := by
    subst hdb
    simp only [UserRepository.GetByEmail, Queries.GetUserByEmail, hf]
    rw [hu]
    simp [UserRepository.sqlcToModel, scanUser, scanNullTime]
  have hcmp : L.bcryptCompareHashAndPassword user.PasswordHash req.Password = true := by
    rw [hu]
    exact hbcrypt _ _ hg
  obtain ⟨ta, hta, hane⟩ := hsign cfg.Auth.JWTSecret (accessTokenClaims L cfg t1 user)
  obtain ⟨tr, htr, hrne⟩ := hsign cfg.Auth.RefreshSecret (refreshTokenClaims L t1 user)
  refine ⟨{ AccessToken := ta, RefreshToken := tr
            ExpiresIn := wrapInt64 (cfg.Auth.TokenExpiryHours * 3600) },
    ?_, hane, hrne, rfl, ?_, ?_⟩
  · simp [Login, hget, hcmp, generateAccessToken, generateRefreshToken, hta, htr,
      AuthService.ofExcept]
  · intro hpos hfit
    have hw : wrapInt64 (cfg.Auth.TokenExpiryHours * 3600)
        = cfg.Auth.TokenExpiryHours * 3600 := by
      apply wrapInt64_of_range <;> omega
    refine ⟨hw, ?_⟩
    show 0 < wrapInt64 (cfg.Auth.TokenExpiryHours * 3600)
    rw [hw]
    omega
  · intro hneg hfit
    have hw : wrapInt64 (cfg.Auth.TokenExpiryHours * 3600)
        = cfg.Auth.TokenExpiryHours * 3600 := by
      apply wrapInt64_of_range <;> omega
    refine ⟨hw, ?_⟩
    show wrapInt64 (cfg.Auth.TokenExpiryHours * 3600) ≤ 0
    rw [hw]
    omega

theorem example_sign_nonempty (k : String) (c : Claims) : Example.sign k c ≠ "" := by
  intro h
  have hl := congrArg String.length h
  have h1 : (".").length = 1 := rfl
  simp [Example.sign, String.length_append, h1] at hl

theorem login_after_register_witness :
    ∃ resp, Login (Example.lib []) Example.testConfig { users := [Example.bob] } 9
        { Email := "bob@example.com", Password := "secret" } = .ok resp
      ∧ resp.AccessToken ≠ "" ∧ resp.RefreshToken ≠ ""
      ∧ resp.ExpiresIn = wrapInt64 (Example.testConfig.Auth.TokenExpiryHours * 3600)
      ∧ (0 < Example.testConfig.Auth.TokenExpiryHours →
        Example.testConfig.Auth.TokenExpiryHours ≤ 2562047788015215 →
        resp.ExpiresIn = Example.testConfig.Auth.TokenExpiryHours * 3600
          ∧ 0 < resp.ExpiresIn)
      ∧ (Example.testConfig.Auth.TokenExpiryHours ≤ 0 →
        -2562047788015215 ≤ Example.testConfig.Auth.TokenExpiryHours →
        resp.ExpiresIn = Example.testConfig.Auth.TokenExpiryHours * 3600
          ∧ resp.ExpiresIn ≤ 0) :=
  login_after_register (Example.lib []) Example.testConfig {} { users := [Example.bob] }
    { Email := "bob@example.com", Password := "secret" } ⟨2⟩ 0 9
    (UserRepository.sqlcToModel (scanUser Example.bob))
    (by decide)
    (by
      intro pw h hgen
      simp only [Example.lib] at hgen ⊢
      split at hgen
      · simp at hgen
      · simp only [Except.ok.injEq] at hgen
        simp [← hgen])
    (fun k c => ⟨Example.sign k c, rfl, example_sign_nonempty k c⟩)

/-- C5 fails for a configuration with `TOKEN_EXPIRY_HOURS=0`, which `Load` accepts:
`Register` then `Login` succeeds and reports `ExpiresIn = 0`. -/
theorem login_after_register_expiresIn_zero :
    Load Example.zeroHoursEnv Example.atoi = .ok (Example.configWithHours 0)
      ∧ Register (Example.lib []) {} { Email := "bob@example.com", Password := "secret" }
          ⟨2⟩ 0
        = (.ok (UserRepository.sqlcToModel (scanUser Example.bob)), { users := [Example.bob] })
      ∧ Login (Example.lib []) (Example.configWithHours 0) { users := [Example.bob] } 9
          { Email := "bob@example.com", Password := "secret" }
        = .ok { AccessToken := "test-secret-key.id-2.bob@example.com.user.0.-.0"
                RefreshToken := "test-refresh-secret.id-2.bob@example.com.user.604800000000000.-.0"
                ExpiresIn := 0 } := by
  decide

/-! ## Refresh, then validate -/

/-- What a successful `Login` returned: the user's password matched and the two tokens
are the signed access and refresh claims of the user found by e-mail. -/
theorem login_ok (L : Lib) (cfg : Config) (db : DB) (t0 : Time) (req : LoginRequest)
    (resp : TokenResponse) (user : User)
    (hfound : UserRepository.GetByEmail db req.Email = .ok user)
    (hlogin : Login L cfg db t0 req = .ok resp) :
    L.jwtSignedString cfg.Auth.JWTSecret (accessTokenClaims L cfg t0 user)
        = .ok resp.AccessToken
      ∧ L.jwtSignedString cfg.Auth.RefreshSecret (refreshTokenClaims L t0 user)
        = .ok resp.RefreshToken := by
  simp only [Login, hfound] at hlogin
  split_ifs at hlogin
  simp only [generateAccessToken, generateRefreshToken] at hlogin
  cases ha : L.jwtSignedString cfg.Auth.JWTSecret (accessTokenClaims L cfg t0 user) with
  | error e => simp [ha, AuthService.ofExcept] at hlogin
  | ok ta =>
    cases hr : L.jwtSignedString cfg.Auth.RefreshSecret (refreshTokenClaims L t0 user) with
    | error e => simp [ha, hr, AuthService.ofExcept] at hlogin
    | ok tr =>
      simp only [ha, hr, AuthService.ofExcept, Result.ok.injEq] at hlogin
      subst hlogin
      exact ⟨rfl, rfl⟩

theorem getByID_present (L : Lib) (db : DB) (id : UUID) (r : UserRecord)
    (huuid : L.uuidParse (L.uuidString id) = some id)
    (hrow : db.users.find? (fun x => decide (x.id = id)) = some r) :
    UserRepository.GetByID L db (L.uuidString id)
      = .ok (UserRepository.sqlcToModel (scanUser r)) := by
  simp [UserRepository.GetByID, MustParse, huuid, Queries.GetUserByID, hrow]

/-- C4, as the code has it. For a user found by `Login` and still present in the user
table, and the refresh token `Login` issued, not yet expired: `RefreshToken` succeeds,
and `ValidateToken` accepts the access token of its response at every instant before
that token expires (issue time cut to the second plus `TokenExpiryHours` hours), which
includes the instant of the refresh when `TokenExpiryHours` is positive; it returns the
row the table holds for that user. -/
theorem refresh_then_validate
    (L : Lib) (cfg : Config) (db0 db : DB) (t0 t1 t2 : Time) (req : LoginRequest)
    (resp : TokenResponse) (user : User) (r : UserRecord)
    (hfound : UserRepository.GetByEmail db0 req.Email = .ok user)
    (hlogin : Login L cfg db0 t0 req = .ok resp)
    (hrow : db.users.find? (fun x => decide (x.id = user.ID)) = some r)
    (hunexpired : t1 < truncateSecond (t0 + 24 * 7 * Hour))
    (huuid : L.uuidParse (L.uuidString user.ID) = some user.ID)
    (hsign : ∀ k c, ∃ t, L.jwtSignedString k c = .ok t)
    (hverR : ∀ t, L.jwtSignedString cfg.Auth.RefreshSecret (refreshTokenClaims L t0 user)
        = .ok t →
      L.jwtDecode cfg.Auth.RefreshSecret t = .ok (refreshTokenClaims L t0 user))
    (hverA : ∀ t, L.jwtSignedString cfg.Auth.JWTSecret
        (accessTokenClaims L cfg t1 (UserRepository.sqlcToModel (scanUser r))) = .ok t →
      L.jwtDecode cfg.Auth.JWTSecret t
        = .ok (accessTokenClaims L cfg t1 (UserRepository.sqlcToModel (scanUser r))))
    (hfit : -2562047 ≤ cfg.Auth.TokenExpiryHours ∧ cfg.Auth.TokenExpiryHours ≤ 2562047)
    (hwindow : t2 < truncateSecond t1 + cfg.Auth.TokenExpiryHours * Hour) :
    ∃ resp2, RefreshToken L cfg db t1 resp.RefreshToken = .ok resp2
      ∧ ValidateToken L cfg db t2 resp2.AccessToken
          = .ok (UserRepository.sqlcToModel (scanUser r))
      ∧ (UserRepository.sqlcToModel (scanUser r)).ID = user.ID
      ∧ (0 < cfg.Auth.TokenExpiryHours →
          ValidateToken L cfg db t1 resp2.AccessToken
            = .ok (UserRepository.sqlcToModel (scanUser r))) := by
  have hrt := (login_ok L cfg db0 t0 req resp user hfound hlogin).2
  have hrid : r.id = user.ID := by
    have := List.find?_some hrow
    simpa using this
  have hget := getByID_present L db user.ID r huuid hrow
  have hmid : (UserRepository.sqlcToModel (scanUser r)).ID = user.ID := by
    simpa [UserRepository.sqlcToModel, scanUser] using hrid
  -- the refresh token verifies at t1
  have hparseR : ParseWithClaims L cfg.Auth.RefreshSecret t1 resp.RefreshToken
      = .ok { Claims := refreshTokenClaims L t0 user, Valid := true } := by
    have hun : t1 < truncateSecond (t0 + 168 * Hour) := by
      have h168 : (24 : Int) * 7 = 168 := by norm_num
      rw [h168] at hunexpired
      exact hunexpired
    simp [ParseWithClaims, hverR _ hrt, refreshTokenClaims, NewNumericDate, hun]
  obtain ⟨ta, hta⟩ := hsign cfg.Auth.JWTSecret
    (accessTokenClaims L cfg t1 (UserRepository.sqlcToModel (scanUser r)))
  obtain ⟨tr, htr⟩ := hsign cfg.Auth.RefreshSecret
    (refreshTokenClaims L t1 (UserRepository.sqlcToModel (scanUser r)))
  have hUID : (refreshTokenClaims L t0 user).UserID = L.uuidString user.ID := rfl
  have hrefresh : RefreshToken L cfg db t1 resp.RefreshToken
      = .ok { AccessToken := ta, RefreshToken := tr
              ExpiresIn := wrapInt64 (cfg.Auth.TokenExpiryHours * 3600) } := by
    simp [RefreshToken, hparseR, hUID, hget, generateAccessToken, generateRefreshToken,
      hta, htr, AuthService.ofExcept]
  -- the new access token verifies at every instant before its expiry
  have hw : durationMul cfg.Auth.TokenExpiryHours Hour = cfg.Auth.TokenExpiryHours * Hour := by
    unfold durationMul
    apply wrapInt64_of_range <;> simp only [Hour] <;> omega
  have hexp : (accessTokenClaims L cfg t1 (UserRepository.sqlcToModel (scanUser r))).ExpiresAt
      = some (truncateSecond t1 + cfg.Auth.TokenExpiryHours * Hour) := by
    simp only [accessTokenClaims, NewNumericDate, hw, truncateSecond_add_hours]
  have hnbf : (accessTokenClaims L cfg t1 (UserRepository.sqlcToModel (scanUser r))).NotBefore
      = none := rfl
  have hAUID : (accessTokenClaims L cfg t1 (UserRepository.sqlcToModel (scanUser r))).UserID
      = L.uuidString user.ID := by
    simp only [accessTokenClaims, hmid]
  have hvalidate : ∀ t, t < truncateSecond t1 + cfg.Auth.TokenExpiryHours * Hour →
      ValidateToken L cfg db t ta = .ok (UserRepository.sqlcToModel (scanUser r)) := by
    intro t ht
    have hparseA : ParseWithClaims L cfg.Auth.JWTSecret t ta
        = .ok { Claims := accessTokenClaims L cfg t1
                  (UserRepository.sqlcToModel (scanUser r)), Valid := true } := by
      simp [ParseWithClaims, hverA _ hta, hexp, hnbf, ht]
    simp [ValidateToken, hparseA, hAUID, hget]
  refine ⟨_, hrefresh, hvalidate t2 hwindow, hmid, ?_⟩
  intro hpos
  apply hvalidate
  have h1 := (truncateSecond_le t1).2
  have h2 : Second ≤ cfg.Auth.TokenExpiryHours * Hour := by
    simp only [Second, Hour]
    omega
  linarith

theorem refresh_then_validate_witness :
    ∃ resp2, RefreshToken (Example.lib Example.known) Example.testConfig Example.db1 5
        Example.aliceRefreshToken = .ok resp2
      ∧ ValidateToken (Example.lib Example.known) Example.testConfig Example.db1 5
          resp2.AccessToken = .ok (UserRepository.sqlcToModel (scanUser Example.alice))
      ∧ (UserRepository.sqlcToModel (scanUser Example.alice)).ID = Example.aliceUser.ID
      ∧ (0 < Example.testConfig.Auth.TokenExpiryHours →
          ValidateToken (Example.lib Example.known) Example.testConfig Example.db1 5
            resp2.AccessToken = .ok (UserRepository.sqlcToModel (scanUser Example.alice))) :=
  refresh_then_validate (Example.lib Example.known) Example.testConfig Example.db1
    Example.db1 0 5 5 { Email := "alice@example.com", Password := "password" }
    { AccessToken := Example.aliceAccessToken, RefreshToken := Example.aliceRefreshToken
      ExpiresIn := 3600 }
    Example.aliceUser Example.alice
    (by decide) (by decide) (by decide) (by decide) (by decide)
    (fun k c => ⟨Example.sign k c, rfl⟩)
    (fun t ht => by
      have h0 : (Example.lib Example.known).jwtSignedString
          Example.testConfig.Auth.RefreshSecret
          (refreshTokenClaims (Example.lib Example.known) 0 Example.aliceUser)
          = .ok Example.aliceRefreshToken := by decide
      rw [h0] at ht
      injection ht with ht
      subst ht
      decide)
    (fun t ht => by
      have h0 : (Example.lib Example.known).jwtSignedString
          Example.testConfig.Auth.JWTSecret
          (accessTokenClaims (Example.lib Example.known) Example.testConfig 5
            (UserRepository.sqlcToModel (scanUser Example.alice)))
          = .ok Example.aliceAccessToken := by decide
      rw [h0] at ht
      injection ht with ht
      subst ht
      decide)
    (by decide) (by decide)

/-- C4 fails for a configuration with `TokenExpiryHours = 0`: `Login` succeeds,
`RefreshToken` on its refresh token succeeds, and `ValidateToken` rejects the access
token of the response as expired. -/
theorem refreshed_access_token_rejected_with_zero_hours :
    Login (Example.lib Example.known) (Example.configWithHours 0) Example.db1 0
        { Email := "alice@example.com", Password := "password" }
      = .ok { AccessToken := "test-secret-key.id-1.alice@example.com.user.0.-.0"
              RefreshToken := Example.aliceRefreshToken, ExpiresIn := 0 }
    ∧ RefreshToken (Example.lib Example.known) (Example.configWithHours 0) Example.db1 5
        Example.aliceRefreshToken
      = .ok { AccessToken := "test-secret-key.id-1.alice@example.com.user.0.-.0"
              RefreshToken := Example.aliceRefreshToken, ExpiresIn := 0 }
    ∧ ValidateToken (Example.lib Example.known) (Example.configWithHours 0) Example.db1 5
        "test-secret-key.id-1.alice@example.com.user.0.-.0"
      = .err "token has invalid claims: token is expired" := by
  decide

/-! ## Share codes -/

open ShareCodeService

/-- C8. For a recipe id (a non-empty string that parses as a UUID): when the recipe
exists and is not published, `CreateShareCode` fails with "can only share published
recipes"; when no recipe has the id it fails with "recipe not found"; in both cases the
database is returned unchanged, so no share code is written. -/
theorem createShareCode_rejected_writes_nothing
    (L : Lib) (db : DB) (recipeID : String) (expiresAt : Option Time) (maxUses : Option Int)
    (random : Except String (Fin 8 → UInt8)) (newID : UUID) (now : Time) (rid : UUID)
    (hne : recipeID ≠ "") (hid : L.uuidParse recipeID = some rid) :
    (∀ r, db.recipes.find? (fun x => decide (x.id = rid)) = some r →
        r.is_published ≠ some true →
        CreateShareCode L db recipeID expiresAt maxUses random newID now
          = (.err "can only share published recipes", db))
      ∧ (db.recipes.find? (fun x => decide (x.id = rid)) = none →
        CreateShareCode L db recipeID expiresAt maxUses random newID now
          = (.err "recipe not found", db)) := by
  constructor
  · intro r hr hpub
    have hb : (scanNullBool r.is_published).Bool = false := by
      cases hp : r.is_published with
      | none => rfl
      | some b =>
        cases b with
        | false => rfl
        | true => exact absurd hp hpub
    simp [CreateShareCode, hne, RecipeRepository.GetByID, MustParse, hid,
      Queries.GetRecipeByID, hr, RecipeRepository.sqlcToModel, scanRecipe, hb]
  · intro hnone
    simp [CreateShareCode, hne, RecipeRepository.GetByID, MustParse, hid,
      Queries.GetRecipeByID, hnone]

theorem createShareCode_rejected_writes_nothing_witness :
    CreateShareCode (Example.lib []) Example.dbRecipes "id-4" none (some 3)
        (.ok Example.bytes) ⟨9⟩ 0
      = (.err "can only share published recipes", Example.dbRecipes)
    ∧ CreateShareCode (Example.lib []) Example.dbRecipes "id-5" none (some 3)
        (.ok Example.bytes) ⟨9⟩ 0
      = (.err "recipe not found", Example.dbRecipes) :=
  ⟨(createShareCode_rejected_writes_nothing (Example.lib []) Example.dbRecipes "id-4" none
      (some 3) (.ok Example.bytes) ⟨9⟩ 0 ⟨4⟩ (by decide) (by decide)).1
      { id := ⟨4⟩, title := "Secret Stew", slug := "secret-stew", is_published := some false }
      (by decide) (by decide),
    (createShareCode_rejected_writes_nothing (Example.lib []) Example.dbRecipes "id-5" none
      (some 3) (.ok Example.bytes) ⟨9⟩ 0 ⟨5⟩ (by decide) (by decide)).2 (by decide)⟩

/-- What `GetByCode` returns for a stored row whose recipe is in the recipes table. -/
theorem getByCode_present (db : DB) (code : String) (r : ShareCodeRecord) (x : RecipeRecord)
    (hrow : db.share_codes.find? (fun y => decide (y.code = code)) = some r)
    (hrecipe : db.recipes.find? (fun y => decide (some y.id = r.recipe_id)) = some x) :
    ShareCodeRepository.GetByCode db code
      = .ok { ID := r.id, RecipeID := (scanNullUUID r.recipe_id).UUID, Code := r.code
              ExpiresAt := r.expires_at
              MaxUses := some (scanNullInt32 r.max_uses).Int32
              UseCount := (scanNullInt32 r.use_count).Int32
              CreatedAt := (scanNullTime r.created_at).Time
              RecipeTitle := x.title, RecipeSlug := x.slug } := by
  have ht : nullTimeToTimePtr (scanNullTime r.expires_at) = r.expires_at := by
    cases r.expires_at <;> rfl
  simp [ShareCodeRepository.GetByCode, Queries.GetShareCodeByCode, hrow, hrecipe,
    ShareCodeRepository.sqlcToModelWithRecipe, int32PtrToInt, ht]

/-- Every stored share code without a max-use limit (recipe present, use count not
negative) is refused by `GetShareCode` and `UseShareCode` with "share code has reached
maximum uses": the repository reads the absent limit as a limit of 0. -/
theorem share_code_without_limit_is_refused
    (L : Lib) (db : DB) (now : Time) (code : String) (r : ShareCodeRecord) (x : RecipeRecord)
    (hcode : code ≠ "")
    (hrow : db.share_codes.find? (fun y => decide (y.code = code)) = some r)
    (hrecipe : db.recipes.find? (fun y => decide (some y.id = r.recipe_id)) = some x)
    (hmax : r.max_uses = none) (huse : 0 ≤ (scanNullInt32 r.use_count).Int32) :
    GetShareCode db now code = .err "share code has reached maximum uses"
      ∧ UseShareCode L db now code = (.err "share code has reached maximum uses", db) := by
  have hget := getByCode_present db code r x hrow hrecipe
  have hm : (scanNullInt32 r.max_uses).Int32 = 0 := by rw [hmax]; rfl
  constructor
  · simp [GetShareCode, hcode, hget, hm, huse]
  · simp [UseShareCode, hcode, hget, hm, huse]

/-- C9 fails on the code. A share code stored with no max-use limit and no expiry, never
used, for a published recipe: `GetShareCode` and `UseShareCode` both fail with "share code
has reached maximum uses", and `CreateShareCode` called without a limit stores exactly
such a row and reports a limit of 0. -/
theorem unlimited_share_code_is_refused :
    GetShareCode { Example.dbRecipes with share_codes := [Example.unlimitedCode] } 5
        "0a1a2a3a4a5a6a7a"
      = .err "share code has reached maximum uses"
    ∧ UseShareCode (Example.lib [])
        { Example.dbRecipes with share_codes := [Example.unlimitedCode] } 5 "0a1a2a3a4a5a6a7a"
      = (.err "share code has reached maximum uses",
          { Example.dbRecipes with share_codes := [Example.unlimitedCode] })
    ∧ CreateShareCode (Example.lib []) Example.dbRecipes "id-3" none none
        (.ok Example.bytes) ⟨9⟩ 0
      = (.ok { ID := ⟨9⟩, RecipeID := ⟨3⟩, Code := "0a1a2a3a4a5a6a7a", ExpiresAt := none
               MaxUses := some 0, UseCount := 0, CreatedAt := 0 },
          { Example.dbRecipes with share_codes := [Example.unlimitedCode] }) := by
  decide

/-- C10, as the code has it. For a stored share code (non-empty code, recipe present)
whose expiry is before the current time and whose use count is below its max-use limit,
`GetShareCode` and `UseShareCode` both fail with "share code has expired", and
`UseShareCode` leaves the database unchanged. -/
theorem expired_share_code_below_limit_is_expired
    (L : Lib) (db : DB) (now : Time) (code : String) (r : ShareCodeRecord)
    (x : RecipeRecord) (exp : Time) (m : Int)
    (hcode : code ≠ "")
    (hrow : db.share_codes.find? (fun y => decide (y.code = code)) = some r)
    (hrecipe : db.recipes.find? (fun y => decide (some y.id = r.recipe_id)) = some x)
    (hexp : r.expires_at = some exp) (hpast : exp < now)
    (hmax : r.max_uses = some m) (hbelow : (scanNullInt32 r.use_count).Int32 < m) :
    GetShareCode db now code = .err "share code has expired"
      ∧ UseShareCode L db now code = (.err "share code has expired", db) := by
  have hget := getByCode_present db code r x hrow hrecipe
  have hm : (scanNullInt32 r.max_uses).Int32 = m := by rw [hmax]; rfl
  have hnot : ¬ (m ≤ (scanNullInt32 r.use_count).Int32) := not_le.mpr hbelow
  constructor
  · simp [GetShareCode, hcode, hget, hm, hnot, hexp, hpast]
  · simp [UseShareCode, hcode, hget, hm, hnot, hexp, hpast]

theorem expired_share_code_below_limit_is_expired_witness :
    GetShareCode { Example.dbRecipes with share_codes := [Example.expiredCode] } 20
        "0a1a2a3a4a5a6a7a" = .err "share code has expired"
      ∧ UseShareCode (Example.lib [])
          { Example.dbRecipes with share_codes := [Example.expiredCode] } 20
          "0a1a2a3a4a5a6a7a"
        = (.err "share code has expired",
            { Example.dbRecipes with share_codes := [Example.expiredCode] }) :=
  expired_share_code_below_limit_is_expired (Example.lib [])
    { Example.dbRecipes with share_codes := [Example.expiredCode] } 20 "0a1a2a3a4a5a6a7a"
    Example.expiredCode
    { id := ⟨3⟩, title := "Fluffy Pancakes", slug := "fluffy-pancakes"
      is_published := some true }
    10 5 (by decide) (by decide) (by decide) (by decide) (by decide) (by decide) (by decide)

/-- C10 fails for an expired share code whose use count has reached its limit: both
`GetShareCode` and `UseShareCode` report "share code has reached maximum uses", not
"share code has expired". -/
theorem expired_share_code_at_limit_reports_max_uses :
    GetShareCode { Example.dbRecipes with share_codes := [Example.spentExpiredCode] } 20
        "0a1a2a3a4a5a6a7a" = .err "share code has reached maximum uses"
      ∧ UseShareCode (Example.lib [])
          { Example.dbRecipes with share_codes := [Example.spentExpiredCode] } 20
          "0a1a2a3a4a5a6a7a"
        = (.err "share code has reached maximum uses",
            { Example.dbRecipes with share_codes := [Example.spentExpiredCode] }) := by
  decide

/-! ## Share codes: order of the checks, and get against use -/

/-- C11. For every stored share code that is at its max-use limit and past its expiry,
`GetShareCode` and `UseShareCode` report "share code has reached maximum uses" and not
"share code has expired", and `UseShareCode` leaves the database unchanged.  (The proof
does not use the expiry: the answer is the same whatever the expiry is.) -/
theorem share_code_at_limit_reports_max_uses_not_expired
    (L : Lib) (db : DB) (now : Time) (code : String) (r : ShareCodeRecord)
    (x : RecipeRecord) (exp : Time) (m : Int)
    (hcode : code ≠ "")
    (hrow : db.share_codes.find? (fun y => decide (y.code = code)) = some r)
    (hrecipe : db.recipes.find? (fun y => decide (some y.id = r.recipe_id)) = some x)
    (hmax : r.max_uses = some m) (hlimit : m ≤ (scanNullInt32 r.use_count).Int32)
    (_hexp : r.expires_at = some exp) (_hpast : exp < now) :
    GetShareCode db now code = .err "share code has reached maximum uses"
      ∧ UseShareCode L db now code = (.err "share code has reached maximum uses", db)
      ∧ GetShareCode db now code ≠ .err "share code has expired"
      ∧ (UseShareCode L db now code).1 ≠ .err "share code has expired" := by
  have hget := getByCode_present db code r x hrow hrecipe
  have hm : (scanNullInt32 r.max_uses).Int32 = m := by rw [hmax]; rfl
  have h1 : GetShareCode db now code = .err "share code has reached maximum uses" := by
    simp [GetShareCode, hcode, hget, hm, hlimit]
  have h2 : UseShareCode L db now code
      = (.err "share code has reached maximum uses", db) := by
    simp [UseShareCode, hcode, hget, hm, hlimit]
  refine ⟨h1, h2, ?_, ?_⟩
  · rw [h1]; decide
  · rw [h2]; simp

theorem share_code_at_limit_reports_max_uses_not_expired_witness :
    GetShareCode { Example.dbRecipes with share_codes := [Example.spentExpiredCode] } 20
        "0a1a2a3a4a5a6a7a" = .err "share code has reached maximum uses"
      ∧ UseShareCode (Example.lib [])
          { Example.dbRecipes with share_codes := [Example.spentExpiredCode] } 20
          "0a1a2a3a4a5a6a7a"
        = (.err "share code has reached maximum uses",
            { Example.dbRecipes with share_codes := [Example.spentExpiredCode] })
      ∧ GetShareCode { Example.dbRecipes with share_codes := [Example.spentExpiredCode] } 20
        "0a1a2a3a4a5a6a7a" ≠ .err "share code has expired"
      ∧ (UseShareCode (Example.lib [])
          { Example.dbRecipes with share_codes := [Example.spentExpiredCode] } 20
          "0a1a2a3a4a5a6a7a").1 ≠ .err "share code has expired" :=
  share_code_at_limit_reports_max_uses_not_expired (Example.lib [])
    { Example.dbRecipes with share_codes := [Example.spentExpiredCode] } 20
    "0a1a2a3a4a5a6a7a" Example.spentExpiredCode
    { id := ⟨3⟩, title := "Fluffy Pancakes", slug := "fluffy-pancakes"
      is_published := some true }
    10 1 (by decide) (by decide) (by decide) (by decide) (by decide) (by decide) (by decide)

/-- The two outcomes of `GetByCode`: no row (or no recipe for it), or the model of a
stored row. -/
theorem getByCode_cases (db : DB) (code : String) :
    ShareCodeRepository.GetByCode db code = .err ErrNoRows
      ∨ ∃ r x, r ∈ db.share_codes
          ∧ db.share_codes.find? (fun y => decide (y.code = code)) = some r
          ∧ db.recipes.find? (fun y => decide (some y.id = r.recipe_id)) = some x := by
  cases hrow : db.share_codes.find? (fun y => decide (y.code = code)) with
  | none =>
    left
    simp [ShareCodeRepository.GetByCode, Queries.GetShareCodeByCode, hrow]
  | some r =>
    cases hrecipe : db.recipes.find? (fun y => decide (some y.id = r.recipe_id)) with
    | none =>
      left
      simp [ShareCodeRepository.GetByCode, Queries.GetShareCodeByCode, hrow, hrecipe]
    | some x => exact Or.inr ⟨r, x, List.mem_of_find?_eq_some hrow, rfl, hrecipe⟩

/-- C14. For every database, non-empty code and instant, `UseShareCode` fails exactly
when `GetShareCode` fails, with the same error, which is one of "invalid or expired share
code", "share code has reached maximum uses" and "share code has expired"; and it
succeeds exactly when `GetShareCode` does. -/
theorem useShareCode_fails_iff_getShareCode_fails
    (L : Lib) (db : DB) (now : Time) (code : String)
    (hcode : code ≠ "")
    (hround : ∀ r ∈ db.share_codes, L.uuidParse (L.uuidString r.id) = some r.id) :
    (∀ e, (UseShareCode L db now code).1 = .err e ↔ GetShareCode db now code = .err e)
      ∧ ((UseShareCode L db now code).1 = .ok () ↔ ∃ sc, GetShareCode db now code = .ok sc)
      ∧ (∀ e, GetShareCode db now code = .err e →
          e = "invalid or expired share code" ∨ e = "share code has reached maximum uses"
            ∨ e = "share code has expired") := by
  rcases getByCode_cases db code with hnone | ⟨r, x, hmem, hrow, hrecipe⟩
  · have hg : GetShareCode db now code = .err "invalid or expired share code" := by
      simp [GetShareCode, hcode, hnone]
    have hu : UseShareCode L db now code = (.err "invalid or expired share code", db) := by
      simp [UseShareCode, hcode, hnone]
    rw [hg, hu]
    refine ⟨fun e => by simp, ?_, ?_⟩
    · constructor
      · intro h; cases h
      · rintro ⟨sc, h⟩; cases h
    · intro e h
      injection h with h
      exact Or.inl h.symm
  · have hget := getByCode_present db code r x hrow hrecipe
    by_cases hmax : (scanNullInt32 r.max_uses).Int32 ≤ (scanNullInt32 r.use_count).Int32
    · have hg : GetShareCode db now code = .err "share code has reached maximum uses" := by
        simp [GetShareCode, hcode, hget, hmax]
      have hu : UseShareCode L db now code
          = (.err "share code has reached maximum uses", db) := by
        simp [UseShareCode, hcode, hget, hmax]
      rw [hg, hu]
      refine ⟨fun e => by simp, ?_, ?_⟩
      · constructor
        · intro h; cases h
        · rintro ⟨sc, h⟩; cases h
      · intro e h
        injection h with h
        exact Or.inr (Or.inl h.symm)
    · by_cases hexp : (match r.expires_at with
          | some exp => decide (now > exp)
          | none => false) = true
      · have hg : GetShareCode db now code = .err "share code has expired" := by
          simp only [GetShareCode, hcode, hget]
          simp [hmax, hexp]
        have hu : UseShareCode L db now code = (.err "share code has expired", db) := by
          simp only [UseShareCode, hcode, hget]
          simp [hmax, hexp]
        rw [hg, hu]
        refine ⟨fun e => by simp, ?_, ?_⟩
        · constructor
          · intro h; cases h
          · rintro ⟨sc, h⟩; cases h
        · intro e h
          injection h with h
          exact Or.inr (Or.inr h.symm)
      · have hg : ∃ sc, GetShareCode db now code = .ok sc := by
          have h0 : GetShareCode db now code = ShareCodeRepository.GetByCode db code := by
            simp only [GetShareCode, hcode, hget]
            simp [hmax, hexp]
          exact ⟨_, h0.trans hget⟩
        have hu : (UseShareCode L db now code).1 = .ok () := by
          simp only [UseShareCode, hcode, hget]
          simp [hmax, hexp, ShareCodeRepository.IncrementUse, MustParse, hround r hmem,
            Queries.IncrementShareCodeUse]
        obtain ⟨sc, hsc⟩ := hg
        rw [hsc, hu]
        refine ⟨?_, ?_, ?_⟩
        · intro e
          constructor <;> intro h <;> cases h
        · exact ⟨fun _ => ⟨sc, rfl⟩, fun _ => rfl⟩
        · intro e h; cases h

theorem useShareCode_fails_iff_getShareCode_fails_witness :
    (∀ e, (UseShareCode (Example.lib [])
          { Example.dbRecipes with share_codes := [Example.expiredCode] } 20
          "0a1a2a3a4a5a6a7a").1 = .err e
        ↔ GetShareCode { Example.dbRecipes with share_codes := [Example.expiredCode] } 20
          "0a1a2a3a4a5a6a7a" = .err e)
      ∧ ((UseShareCode (Example.lib [])
          { Example.dbRecipes with share_codes := [Example.expiredCode] } 20
          "0a1a2a3a4a5a6a7a").1 = .ok ()
        ↔ ∃ sc, GetShareCode { Example.dbRecipes with share_codes := [Example.expiredCode] }
          20 "0a1a2a3a4a5a6a7a" = .ok sc)
      ∧ (∀ e, GetShareCode { Example.dbRecipes with share_codes := [Example.expiredCode] } 20
          "0a1a2a3a4a5a6a7a" = .err e →
          e = "invalid or expired share code" ∨ e = "share code has reached maximum uses"
            ∨ e = "share code has expired") :=
  useShareCode_fails_iff_getShareCode_fails (Example.lib [])
    { Example.dbRecipes with share_codes := [Example.expiredCode] } 20 "0a1a2a3a4a5a6a7a"
    (by decide) (by decide)

/-! ## Share codes: uses up to the limit -/

theorem find?_map_same_code (l : List ShareCodeRecord) (f : ShareCodeRecord → ShareCodeRecord)
    (code : String) (hf : ∀ r, (f r).code = r.code) :
    (l.map f).find? (fun y => decide (y.code = code))
      = (l.find? (fun y => decide (y.code = code))).map f := by
  rw [List.find?_map]
  congr 1
  have : ((fun y : ShareCodeRecord => decide (y.code = code)) ∘ f)
      = (fun y => decide (y.code = code)) := by
    funext y
    simp [Function.comp, hf]
  rw [this]

theorem withUseCountRaised_zero (db : DB) (id : UUID) : withUseCountRaised db id 0 = db := by
  have h : ∀ r : ShareCodeRecord,
      (if r.id = id then { r with use_count := r.use_count.map (fun c => c + 0) } else r)
        = r := by
    intro r
    split
    · cases hc : r.use_count <;> cases r <;> simp_all
    · rfl
  simp [withUseCountRaised, h]

theorem withUseCountRaised_add (db : DB) (id : UUID) (k j : Int) :
    withUseCountRaised (withUseCountRaised db id k) id j = withUseCountRaised db id (k + j) := by
  simp only [withUseCountRaised, List.map_map]
  congr 1
  apply List.map_congr_left
  intro r _
  by_cases h : r.id = id
  · simp [Function.comp, h, add_assoc]
  · simp [Function.comp, h]

theorem incrementShareCodeUse_eq (db : DB) (id : UUID) :
    Queries.IncrementShareCodeUse db id = (.ok (), withUseCountRaised db id 1) := rfl

/-- The row that a lookup by code finds once the use count of `r` was raised by `k`. -/
theorem find_in_raised (db : DB) (code : String) (r : ShareCodeRecord) (k : Int)
    (hrow : db.share_codes.find? (fun y => decide (y.code = code)) = some r) :
    (withUseCountRaised db r.id k).share_codes.find? (fun y => decide (y.code = code))
      = some { r with use_count := r.use_count.map (fun c => c + k) } := by
  simp only [withUseCountRaised]
  rw [find?_map_same_code _ _ code (by intro y; split <;> rfl), hrow]
  simp

theorem storedUseCount_raised (db : DB) (code : String) (r : ShareCodeRecord) (k : Int)
    (hrow : db.share_codes.find? (fun y => decide (y.code = code)) = some r)
    (hcount : r.use_count = some 0) :
    storedUseCount (withUseCountRaised db r.id k) code = some k := by
  simp [storedUseCount, find_in_raised db code r k hrow, hcount]

/-- One use below the limit succeeds and raises the stored count by one. -/
theorem useShareCode_below_limit (L : Lib) (db : DB) (now : Time) (code : String)
    (r : ShareCodeRecord) (x : RecipeRecord) (n k : Int)
    (hcode : code ≠ "")
    (hrow : db.share_codes.find? (fun y => decide (y.code = code)) = some r)
    (hrecipe : db.recipes.find? (fun y => decide (some y.id = r.recipe_id)) = some x)
    (hmax : r.max_uses = some n) (hcount : r.use_count = some 0)
    (hexp : r.expires_at = none)
    (hround : L.uuidParse (L.uuidString r.id) = some r.id) (hk : k < n) :
    UseShareCode L (withUseCountRaised db r.id k) now code
      = (.ok (), withUseCountRaised db r.id (k + 1)) := by
  have hget := getByCode_present (withUseCountRaised db r.id k) code
    { r with use_count := r.use_count.map (fun c => c + k) } x
    (find_in_raised db code r k hrow) hrecipe
  have hnot : ¬ n ≤ k := not_le.mpr hk
  simp only [UseShareCode, hcode, hget]
  simp [hmax, hcount, hexp, scanNullInt32, hnot, ShareCodeRepository.IncrementUse, MustParse,
    hround, incrementShareCodeUse_eq, withUseCountRaised_add]

/-- A use at the limit fails and changes nothing. -/
theorem useShareCode_at_limit (L : Lib) (db : DB) (now : Time) (code : String)
    (r : ShareCodeRecord) (x : RecipeRecord) (n k : Int)
    (hcode : code ≠ "")
    (hrow : db.share_codes.find? (fun y => decide (y.code = code)) = some r)
    (hrecipe : db.recipes.find? (fun y => decide (some y.id = r.recipe_id)) = some x)
    (hmax : r.max_uses = some n) (hcount : r.use_count = some 0) (hk : n ≤ k) :
    UseShareCode L (withUseCountRaised db r.id k) now code
      = (.err "share code has reached maximum uses", withUseCountRaised db r.id k) := by
  have hget := getByCode_present (withUseCountRaised db r.id k) code
    { r with use_count := r.use_count.map (fun c => c + k) } x
    (find_in_raised db code r k hrow) hrecipe
  simp only [UseShareCode, hcode, hget]
  simp [hmax, hcount, scanNullInt32, hk]

theorem useShareCodeAt_append (L : Lib) (code : String) (ts us : List Time) (db : DB) :
    useShareCodeAt L code db (ts ++ us)
      = ((useShareCodeAt L code db ts).1
            ++ (useShareCodeAt L code (useShareCodeAt L code db ts).2 us).1,
          (useShareCodeAt L code (useShareCodeAt L code db ts).2 us).2) := by
  induction ts generalizing db with
  | nil => simp [useShareCodeAt]
  | cons t rest ih => simp [useShareCodeAt, ih]

/-- Uses that stay within the limit all succeed, each raising the stored count by one. -/
theorem useShareCodeAt_within_limit (L : Lib) (db : DB) (code : String)
    (r : ShareCodeRecord) (x : RecipeRecord) (n : Nat)
    (hcode : code ≠ "")
    (hrow : db.share_codes.find? (fun y => decide (y.code = code)) = some r)
    (hrecipe : db.recipes.find? (fun y => decide (some y.id = r.recipe_id)) = some x)
    (hmax : r.max_uses = some (n : Int)) (hcount : r.use_count = some 0)
    (hexp : r.expires_at = none)
    (hround : L.uuidParse (L.uuidString r.id) = some r.id)
    (times : List Time) (k : Nat) (hk : k + times.length ≤ n) :
    useShareCodeAt L code (withUseCountRaised db r.id (k : Int)) times
      = (List.replicate times.length (.ok ()),
          withUseCountRaised db r.id ((k + times.length : Nat) : Int)) := by
  induction times generalizing k with
  | nil => simp [useShareCodeAt]
  | cons t rest ih =>
    have hlt : (k : Int) < (n : Int) := by
      simp only [List.length_cons] at hk
      omega
    have hstep := useShareCode_below_limit L db t code r x n k hcode hrow hrecipe hmax hcount
      hexp hround hlt
    have hnext := ih (k + 1) (by simp only [List.length_cons] at hk; omega)
    have hcast : ((k + 1 : Nat) : Int) = (k : Int) + 1 := by push_cast; ring
    rw [hcast] at hnext
    simp only [useShareCodeAt, hstep, hnext, List.length_cons, List.replicate_succ]
    congr 2
    omega

/-- C12. For a stored share code with max-uses `n`, use count 0 and no expiry, `n + 1`
calls of `UseShareCode` in sequence give: the first `n` succeed, the stored use count
after the first `k` of them is `k` (each call raises it by exactly 1), and the last call
fails with "share code has reached maximum uses", leaving the count at `n`. -/
theorem useShareCode_succeeds_exactly_max_uses_times
    (L : Lib) (db : DB) (code : String) (r : ShareCodeRecord) (x : RecipeRecord) (n : Nat)
    (times : List Time) (last : Time)
    (hcode : code ≠ "")
    (hrow : db.share_codes.find? (fun y => decide (y.code = code)) = some r)
    (hrecipe : db.recipes.find? (fun y => decide (some y.id = r.recipe_id)) = some x)
    (hmax : r.max_uses = some (n : Int)) (hcount : r.use_count = some 0)
    (hexp : r.expires_at = none)
    (hround : L.uuidParse (L.uuidString r.id) = some r.id)
    (hlen : times.length = n) :
    (useShareCodeAt L code db (times ++ [last])).1
        = List.replicate n (.ok ()) ++ [.err "share code has reached maximum uses"]
      ∧ (∀ k, k ≤ n →
          storedUseCount (useShareCodeAt L code db (times.take k)).2 code = some (k : Int))
      ∧ storedUseCount (useShareCodeAt L code db (times ++ [last])).2 code
        = some (n : Int) := by
  have hrun : ∀ ts : List Time, ts.length ≤ n →
      useShareCodeAt L code db ts
        = (List.replicate ts.length (.ok ()), withUseCountRaised db r.id (ts.length : Int)) := by
    intro ts hts
    have h := useShareCodeAt_within_limit L db code r x n hcode hrow hrecipe hmax hcount hexp
      hround ts 0 (by omega)
    simp only [Nat.cast_zero, withUseCountRaised_zero, Nat.zero_add] at h
    exact h
  have hall := hrun times (le_of_eq hlen)
  have hlast := useShareCode_at_limit L db last code r x n n hcode hrow hrecipe hmax hcount
    (le_refl _)
  have hfinal : useShareCodeAt L code db (times ++ [last])
      = (List.replicate n (.ok ()) ++ [.err "share code has reached maximum uses"],
          withUseCountRaised db r.id (n : Int)) := by
    rw [useShareCodeAt_append, hall, hlen]
    simp [useShareCodeAt, hlast]
  refine ⟨by rw [hfinal], ?_, ?_⟩
  · intro k hk
    have hlk : (times.take k).length = k := by
      rw [List.length_take]
      omega
    rw [hrun (times.take k) (by omega), hlk]
    exact storedUseCount_raised db code r k hrow hcount
  · rw [hfinal]
    exact storedUseCount_raised db code r n hrow hcount

theorem useShareCode_succeeds_exactly_max_uses_times_witness :
    (useShareCodeAt (Example.lib []) "0a1a2a3a4a5a6a7a"
        { Example.dbRecipes with share_codes := [Example.twoUseCode] } ([1, 2] ++ [3])).1
        = List.replicate 2 (.ok ()) ++ [.err "share code has reached maximum uses"]
      ∧ (∀ k, k ≤ 2 →
          storedUseCount (useShareCodeAt (Example.lib []) "0a1a2a3a4a5a6a7a"
            { Example.dbRecipes with share_codes := [Example.twoUseCode] }
            (([1, 2] : List Time).take k)).2 "0a1a2a3a4a5a6a7a" = some (k : Int))
      ∧ storedUseCount (useShareCodeAt (Example.lib []) "0a1a2a3a4a5a6a7a"
          { Example.dbRecipes with share_codes := [Example.twoUseCode] } ([1, 2] ++ [3])).2
          "0a1a2a3a4a5a6a7a" = some ((2 : Nat) : Int) :=
  useShareCode_succeeds_exactly_max_uses_times (Example.lib [])
    { Example.dbRecipes with share_codes := [Example.twoUseCode] } "0a1a2a3a4a5a6a7a"
    Example.twoUseCode
    { id := ⟨3⟩, title := "Fluffy Pancakes", slug := "fluffy-pancakes"
      is_published := some true }
    2 [1, 2] 3 (by decide) (by decide) (by decide) (by decide) (by decide) (by decide)
    (by decide) (by decide)

/-! ## Share codes: the use count never passes the limit -/

/-- The invariant of the share-code table: ids are unique and read back from their text,
every use count is set, and it is at most the limit when there is one. -/
theorem shareCodes_invariant_holds_initially (L : Lib) (db : DB) (h : db.share_codes = []) :
    (db.share_codes.map (fun r => r.id)).Nodup
      ∧ (∀ r ∈ db.share_codes, L.uuidParse (L.uuidString r.id) = some r.id)
      ∧ (∀ r ∈ db.share_codes, ∃ c, r.use_count = some c ∧ ∀ m, r.max_uses = some m → c ≤ m) := by
  simp [h]

/-- What `CreateShareCode` leaves in the database: nothing new, or one new row with a
fresh id, the limit as converted to `int32`, and use count 0. -/
theorem createShareCode_db (L : Lib) (db : DB) (recipeID : String) (expiresAt : Option Time)
    (maxUses : Option Int) (random : Except String (Fin 8 → UInt8)) (newID : UUID)
    (now : Time) :
    (CreateShareCode L db recipeID expiresAt maxUses random newID now).2 = db
      ∨ ∃ row : ShareCodeRecord,
          (CreateShareCode L db recipeID expiresAt maxUses random newID now).2
            = { db with share_codes := db.share_codes ++ [row] }
          ∧ row.id = newID ∧ row.use_count = some 0
          ∧ row.max_uses = maxUses.map wrapInt32
          ∧ db.share_codes.any (fun r => decide (r.id = newID)) = false := by
  unfold CreateShareCode
  by_cases h1 : recipeID = ""
  · simp [h1]
  · simp only [h1, if_false]
    cases h2 : RecipeRepository.GetByID L db recipeID with
    | panicked m => simp
    | err e => simp
    | ok recipe =>
      by_cases h3 : recipe.IsPublished = true
      · simp only [h3, Bool.not_true, Bool.false_eq_true, if_false]
        cases h4 : generateShareCode random with
        | panicked m => simp
        | err e => simp
        | ok code =>
          cases h5 : MustParse L recipeID with
          | panicked m => simp
          | err e => simp
          | ok rid =>
            simp only [ShareCodeRepository.Create, Queries.CreateShareCode]
            by_cases h6 : db.share_codes.any (fun r => decide (r.code = code)) = true
            · simp [h6]
            · by_cases h7 : db.share_codes.any (fun r => decide (r.id = newID)) = true
              · simp [h6, h7]
              · right
                simp only [h6, h7, if_false]
                refine ⟨_, rfl, rfl, rfl, ?_, trivial⟩
                cases maxUses <;> simp [NullInt32.toColumn]
      · simp [h3]

/-- What `UseShareCode` leaves in the database: no change, or the use count of a stored
row that was below its limit raised by one. -/
theorem useShareCode_db (L : Lib) (db : DB) (now : Time) (code : String)
    (hround : ∀ r ∈ db.share_codes, L.uuidParse (L.uuidString r.id) = some r.id) :
    (UseShareCode L db now code).2 = db
      ∨ ∃ r ∈ db.share_codes,
          ¬ ((scanNullInt32 r.max_uses).Int32 ≤ (scanNullInt32 r.use_count).Int32)
          ∧ (UseShareCode L db now code).2 = withUseCountRaised db r.id 1 := by
  by_cases hcode : code = ""
  · left; simp [UseShareCode, hcode]
  · rcases getByCode_cases db code with hnone | ⟨r, x, hmem, hrow, hrecipe⟩
    · left; simp [UseShareCode, hcode, hnone]
    · have hget := getByCode_present db code r x hrow hrecipe
      by_cases hmax : (scanNullInt32 r.max_uses).Int32 ≤ (scanNullInt32 r.use_count).Int32
      · left; simp [UseShareCode, hcode, hget, hmax]
      · by_cases hexp : (match r.expires_at with
            | some exp => decide (now > exp)
            | none => false) = true
        · left
          simp only [UseShareCode, hcode, hget]
          simp [hmax, hexp]
        · right
          refine ⟨r, hmem, hmax, ?_⟩
          simp only [UseShareCode, hcode, hget]
          simp [hmax, hexp, ShareCodeRepository.IncrementUse, MustParse, hround r hmem,
            incrementShareCodeUse_eq]

/-- What `DeleteShareCode` leaves in the database: no change, or the rows of one id removed. -/
theorem deleteShareCode_db (L : Lib) (db : DB) (id : String) :
    (DeleteShareCode L db id).2 = db
      ∨ ∃ u, (DeleteShareCode L db id).2
          = { db with share_codes := db.share_codes.filter (fun r => !decide (r.id = u)) } := by
  unfold DeleteShareCode
  by_cases h1 : id = ""
  · simp [h1]
  · simp only [h1, if_false, ShareCodeRepository.Delete]
    cases h2 : MustParse L id with
    | panicked m => simp
    | err e => simp
    | ok u => exact Or.inr ⟨u, rfl⟩

/-- One call keeps the invariant of the share-code table. -/
theorem shareCodeCall_keeps_invariant (L : Lib) (db : DB) (c : ShareCodeCall)
    (hlimit : c.LimitNotNegative) (hid : c.IdReadsBack L)
    (hnodup : (db.share_codes.map (fun r => r.id)).Nodup)
    (hround : ∀ r ∈ db.share_codes, L.uuidParse (L.uuidString r.id) = some r.id)
    (hcount : ∀ r ∈ db.share_codes,
      ∃ c, r.use_count = some c ∧ ∀ m, r.max_uses = some m → c ≤ m) :
    ((c.run L db).share_codes.map (fun r => r.id)).Nodup
      ∧ (∀ r ∈ (c.run L db).share_codes, L.uuidParse (L.uuidString r.id) = some r.id)
      ∧ (∀ r ∈ (c.run L db).share_codes,
          ∃ c, r.use_count = some c ∧ ∀ m, r.max_uses = some m → c ≤ m) := by
  cases c with
  | get now code => exact ⟨hnodup, hround, hcount⟩
  | create recipeID expiresAt maxUses random newID now =>
    simp only [ShareCodeCall.run]
    rcases createShareCode_db L db recipeID expiresAt maxUses random newID now with
      h | ⟨row, h, hrid, hrc, hrm, hfresh⟩
    · rw [h]; exact ⟨hnodup, hround, hcount⟩
    · rw [h]
      have hnot : newID ∉ db.share_codes.map (fun r => r.id) := by
        intro hmem
        obtain ⟨r, hr, hrr⟩ := List.mem_map.mp hmem
        have := List.any_eq_false.mp hfresh r hr
        simp [hrr] at this
      refine ⟨?_, ?_, ?_⟩
      · simp only [List.map_append, List.map_cons, List.map_nil, hrid]
        rw [List.nodup_append]
        refine ⟨hnodup, List.nodup_singleton _, ?_⟩
        intro a ha hb
        simp only [List.mem_singleton] at hb
        exact hnot (hb ▸ ha)
      · intro r hr
        simp only [List.mem_append, List.mem_singleton] at hr
        rcases hr with hr | hr
        · exact hround r hr
        · subst hr; rw [hrid]; exact hid
      · intro r hr
        simp only [List.mem_append, List.mem_singleton] at hr
        rcases hr with hr | hr
        · exact hcount r hr
        · subst hr
          refine ⟨0, hrc, ?_⟩
          intro m hm
          rw [hrm] at hm
          cases hmu : maxUses with
          | none => simp [hmu] at hm
          | some m0 =>
            simp only [hmu, Option.map_some', Option.some.injEq] at hm
            rw [← hm]
            exact hlimit m0 hmu
  | use now code =>
    simp only [ShareCodeCall.run]
    rcases useShareCode_db L db now code hround with h | ⟨r, hmem, hbelow, h⟩
    · rw [h]; exact ⟨hnodup, hround, hcount⟩
    · rw [h]
      have hinj := List.inj_on_of_nodup_map hnodup
      have hids : (withUseCountRaised db r.id 1).share_codes.map (fun y => y.id)
          = db.share_codes.map (fun y => y.id) := by
        simp only [withUseCountRaised, List.map_map]
        apply List.map_congr_left
        intro y _
        simp only [Function.comp]
        split <;> rfl
      refine ⟨by rw [hids]; exact hnodup, ?_, ?_⟩
      · intro y hy
        simp only [withUseCountRaised, List.mem_map] at hy
        obtain ⟨y0, hy0, rfl⟩ := hy
        have := hround y0 hy0
        split <;> simpa using this
      · intro y hy
        simp only [withUseCountRaised, List.mem_map] at hy
        obtain ⟨y0, hy0, rfl⟩ := hy
        by_cases hyid : y0.id = r.id
        · have hy0r : y0 = r := hinj hy0 hmem hyid
          subst hy0r
          obtain ⟨c, hc, _⟩ := hcount y0 hy0
          refine ⟨c + 1, by simp [hc], ?_⟩
          intro m hm
          simp only [if_true] at hm
          have hm2 : (scanNullInt32 y0.max_uses).Int32 = m := by rw [hm]; rfl
          have hc2 : (scanNullInt32 y0.use_count).Int32 = c := by rw [hc]; rfl
          rw [hm2, hc2] at hbelow
          omega
        · simpa [hyid] using hcount y0 hy0
  | delete id =>
    simp only [ShareCodeCall.run]
    rcases deleteShareCode_db L db id with h | ⟨u, h⟩
    · rw [h]; exact ⟨hnodup, hround, hcount⟩
    · rw [h]
      refine ⟨?_, ?_, ?_⟩
      · exact List.Nodup.sublist (List.Sublist.map _ (List.filter_sublist _)) hnodup
      · intro r hr
        exact hround r (List.mem_of_mem_filter hr)
      · intro r hr
        exact hcount r (List.mem_of_mem_filter hr)

/-- C13, as the code has it. In every database reached from one without share codes by
`CreateShareCode`, `GetShareCode`, `UseShareCode` and `DeleteShareCode` calls in sequence,
whose requested max-use limits are not negative once converted to `int32`, every share
code that has a max-use limit has a use count of at most that limit. -/
theorem use_count_never_exceeds_limit
    (L : Lib) (db0 : DB) (calls : List ShareCodeCall)
    (hempty : db0.share_codes = [])
    (hlimit : ∀ c ∈ calls, c.LimitNotNegative)
    (hid : ∀ c ∈ calls, c.IdReadsBack L) :
    ∀ r ∈ (runShareCodeCalls L db0 calls).share_codes, ∀ m, r.max_uses = some m →
      (scanNullInt32 r.use_count).Int32 ≤ m := by
  have hgen : ∀ (cs : List ShareCodeCall) (db : DB),
      (∀ c ∈ cs, c.LimitNotNegative) → (∀ c ∈ cs, c.IdReadsBack L) →
      (db.share_codes.map (fun r => r.id)).Nodup →
      (∀ r ∈ db.share_codes, L.uuidParse (L.uuidString r.id) = some r.id) →
      (∀ r ∈ db.share_codes, ∃ c, r.use_count = some c ∧ ∀ m, r.max_uses = some m → c ≤ m) →
      ∀ r ∈ (runShareCodeCalls L db cs).share_codes,
        ∃ c, r.use_count = some c ∧ ∀ m, r.max_uses = some m → c ≤ m := by
    intro cs
    induction cs with
    | nil => intro db _ _ _ _ h3; exact h3
    | cons c rest ih =>
      intro db hl hi h1 h2 h3
      obtain ⟨k1, k2, k3⟩ := shareCodeCall_keeps_invariant L db c
        (hl c (List.mem_cons_self _ _)) (hi c (List.mem_cons_self _ _)) h1 h2 h3
      exact ih (c.run L db) (fun c' hc' => hl c' (List.mem_cons_of_mem _ hc'))
        (fun c' hc' => hi c' (List.mem_cons_of_mem _ hc')) k1 k2 k3
  obtain ⟨i1, i2, i3⟩ := shareCodes_invariant_holds_initially L db0 hempty
  intro r hr m hm
  obtain ⟨c, hc, hle⟩ := hgen calls db0 hlimit hid i1 i2 i3 r hr
  rw [hc]
  exact hle m hm

theorem use_count_never_exceeds_limit_witness :
    Example.usedUpCode ∈ (runShareCodeCalls (Example.lib []) Example.dbRecipes
        Example.createThenUseTwice).share_codes
      ∧ (scanNullInt32 Example.usedUpCode.use_count).Int32 ≤ 1 :=
  ⟨by decide,
    use_count_never_exceeds_limit (Example.lib []) Example.dbRecipes
      Example.createThenUseTwice
      (by decide)
      (by
        intro c hc
        simp only [Example.createThenUseTwice, List.mem_cons, List.mem_singleton,
          List.mem_nil_iff, or_false] at hc
        rcases hc with rfl | rfl | rfl
        · intro m hm
          injection hm with hm
          subst hm
          decide
        · trivial
        · trivial)
      (by
        intro c hc
        simp only [Example.createThenUseTwice, List.mem_cons, List.mem_singleton,
          List.mem_nil_iff, or_false] at hc
        rcases hc with rfl | rfl | rfl
        · show (Example.lib []).uuidParse ((Example.lib []).uuidString ⟨9⟩) = some ⟨9⟩
          decide
        · trivial
        · trivial)
      Example.usedUpCode (by decide) 1 rfl⟩

/-- C13 fails when a negative limit is asked for: from a database without share codes,
`CreateShareCode` with max-uses -1 on a published recipe stores a code with limit -1 and
use count 0, which is above the limit. -/
theorem use_count_exceeds_negative_limit :
    Example.dbRecipes.share_codes = []
      ∧ runShareCodeCalls (Example.lib []) Example.dbRecipes
          [.create "id-3" none (some (-1)) (.ok Example.bytes) ⟨9⟩ 0]
        = { Example.dbRecipes with share_codes := [Example.negativeLimitCode] }
      ∧ Example.negativeLimitCode.max_uses = some (-1)
      ∧ ¬ ((scanNullInt32 Example.negativeLimitCode.use_count).Int32 ≤ -1) := by
  decide

/-! ## Generated codes -/

open UserInviteService

theorem hextable_digit (n : Nat) (h : n < 16) :
    hextable.getD n '0' ∈ hextable ∧ hexValue (hextable.getD n '0') = some n := by
  revert n
  decide

theorem encodeHex_length (src : List UInt8) : (encodeHex src).length = 2 * src.length := by
  induction src with
  | nil => rfl
  | cons v rest ih => simp [encodeHex, ih]; omega

theorem encodeHex_digits (src : List UInt8) : ∀ c ∈ encodeHex src, c ∈ hextable := by
  induction src with
  | nil => intro c hc; simp [encodeHex] at hc
  | cons v rest ih =>
    intro c hc
    have hv := UInt8.toNat_lt_size v
    simp only [UInt8.size] at hv
    simp only [encodeHex, List.mem_cons] at hc
    rcases hc with rfl | rfl | hc
    · exact (hextable_digit _ (by omega)).1
    · exact (hextable_digit _ (by omega)).1
    · exact ih c hc

theorem decodeHex_encodeHex (src : List UInt8) :
    decodeHex (encodeHex src) = some (src.map (fun v => v.toNat)) := by
  induction src with
  | nil => rfl
  | cons v rest ih =>
    have hv := UInt8.toNat_lt_size v
    simp only [UInt8.size] at hv
    have h1 := (hextable_digit (v.toNat / 16) (by omega)).2
    have h2 := (hextable_digit (v.toNat % 16) (by omega)).2
    simp only [encodeHex, decodeHex, h1, h2, ih, List.map_cons]
    congr 2
    omega

/-- C15. For every 8 bytes the random source delivers, `generateShareCode` and
`generateInviteCode` return their lowercase hexadecimal encoding: 16 characters, each one
of `0123456789abcdef`, that read back as those bytes; and for a published recipe
`CreateShareCode` hands `ShareCodeRepository.Create` a share code with that code and use
count 0. -/
theorem generated_code_is_hex_of_random_bytes (bytes : Fin 8 → UInt8) :
    generateShareCode (.ok bytes) = .ok (EncodeToString (List.ofFn bytes))
      ∧ generateInviteCode (.ok bytes) = .ok (EncodeToString (List.ofFn bytes))
      ∧ (EncodeToString (List.ofFn bytes)).length = 16
      ∧ (∀ c ∈ (EncodeToString (List.ofFn bytes)).data, c ∈ "0123456789abcdef".data)
      ∧ decodeHex (EncodeToString (List.ofFn bytes)).data
          = some ((List.ofFn bytes).map (fun v => v.toNat))
      ∧ (∀ (L : Lib) (db : DB) (recipeID : String) (expiresAt : Option Time)
          (maxUses : Option Int) (newID : UUID) (now : Time) (rid : UUID) (recipe : Recipe),
          recipeID ≠ "" → L.uuidParse recipeID = some rid →
          RecipeRepository.GetByID L db recipeID = .ok recipe → recipe.IsPublished = true →
          CreateShareCode L db recipeID expiresAt maxUses (.ok bytes) newID now
            = ShareCodeRepository.Create db
                { ID := uuidNil, RecipeID := rid
                  Code := EncodeToString (List.ofFn bytes)
                  ExpiresAt := expiresAt, MaxUses := maxUses, UseCount := 0
                  CreatedAt := zeroTime } newID now) := by
  refine ⟨rfl, rfl, ?_, ?_, ?_, ?_⟩
  · show (encodeHex (List.ofFn bytes)).length = 16
    rw [encodeHex_length, List.length_ofFn]
  · exact encodeHex_digits (List.ofFn bytes)
  · exact decodeHex_encodeHex (List.ofFn bytes)
  · intro L db recipeID expiresAt maxUses newID now rid recipe hne hid hget hpub
    simp [CreateShareCode, hne, hget, hpub, generateShareCode, MustParse, hid]

theorem generated_code_is_hex_of_random_bytes_witness :
    CreateShareCode (Example.lib []) Example.dbRecipes "id-3" none (some 3)
        (.ok Example.bytes) ⟨9⟩ 0
      = ShareCodeRepository.Create Example.dbRecipes
          { ID := uuidNil, RecipeID := ⟨3⟩
            Code := EncodeToString (List.ofFn Example.bytes)
            ExpiresAt := none, MaxUses := some 3, UseCount := 0
            CreatedAt := zeroTime } ⟨9⟩ 0 :=
  (generated_code_is_hex_of_random_bytes Example.bytes).2.2.2.2.2 (Example.lib [])
    Example.dbRecipes "id-3" none (some 3) ⟨9⟩ 0 ⟨3⟩
    (RecipeRepository.sqlcToModel (scanRecipe
      { id := ⟨3⟩, title := "Fluffy Pancakes", slug := "fluffy-pancakes"
        is_published := some true }))
    (by decide) (by decide) (by decide) (by decide)

/-! ## Invites -/

/-- The model of a stored invite row, as `GetByCode` returns it. -/
theorem inviteModel_of_row (r : UserInviteRecord) :
    UserInviteRepository.sqlcToModel (scanUserInvite r)
      = { ID := r.id, Code := r.code, Email := r.email
          Role := (match r.role with | some s => s | none => "user")
          CreatedBy := r.created_by, ExpiresAt := r.expires_at, UsedAt := r.used_at
          UsedBy := r.used_by, CreatedAt := (scanNullTime r.created_at).Time } := by
  cases r with
  | mk id code email role created_by expires_at used_at used_by created_at =>
    cases email <;> cases role <;> cases created_by <;> cases expires_at <;> cases used_at
      <;> cases used_by <;> rfl

theorem inviteGetByCode_present (db : DB) (code : String) (r : UserInviteRecord)
    (hrow : db.user_invites.find? (fun y => decide (y.code = code)) = some r) :
    UserInviteRepository.GetByCode db code
      = .ok (UserInviteRepository.sqlcToModel (scanUserInvite r)) := by
  simp [UserInviteRepository.GetByCode, Queries.GetInviteByCode, hrow]

theorem inviteGetByCode_absent (db : DB) (code : String)
    (hrow : db.user_invites.find? (fun y => decide (y.code = code)) = none) :
    UserInviteRepository.GetByCode db code = .err ErrNoRows := by
  simp [UserInviteRepository.GetByCode, Queries.GetInviteByCode, hrow]

theorem getInvite_used (db : DB) (now : Time) (code : String) (r : UserInviteRecord)
    (hcode : code ≠ "")
    (hrow : db.user_invites.find? (fun y => decide (y.code = code)) = some r)
    (hused : r.used_at ≠ none) :
    GetInvite db now code = .err "invite has already been used" := by
  simp [GetInvite, hcode, inviteGetByCode_present db code r hrow, inviteModel_of_row, hused]

theorem getInvite_expired (db : DB) (now : Time) (code : String) (r : UserInviteRecord)
    (exp : Time) (hcode : code ≠ "")
    (hrow : db.user_invites.find? (fun y => decide (y.code = code)) = some r)
    (hunused : r.used_at = none) (hexp : r.expires_at = some exp) (hpast : exp < now) :
    GetInvite db now code = .err "invite has expired" := by
  simp [GetInvite, hcode, inviteGetByCode_present db code r hrow, inviteModel_of_row, hunused,
    hexp, hpast]

theorem getInvite_valid (db : DB) (now : Time) (code : String) (r : UserInviteRecord)
    (hcode : code ≠ "")
    (hrow : db.user_invites.find? (fun y => decide (y.code = code)) = some r)
    (hunused : r.used_at = none)
    (hlive : r.expires_at = none ∨ ∃ exp, r.expires_at = some exp ∧ now ≤ exp) :
    GetInvite db now code = .ok (UserInviteRepository.sqlcToModel (scanUserInvite r)) := by
  rcases hlive with hnever | ⟨exp, hexp, hle⟩
  · simp [GetInvite, hcode, inviteGetByCode_present db code r hrow, inviteModel_of_row,
      hunused, hnever]
  · have hnot : ¬ exp < now := not_lt.mpr hle
    simp [GetInvite, hcode, inviteGetByCode_present db code r hrow, inviteModel_of_row,
      hunused, hexp, hnot]

/-- C18. For every database, non-empty code and instant: `GetInvite` fails with "invalid
or expired invite code" when no invite has the code, with "invite has already been used"
when used-at is set (expired or not), with "invite has expired" when the invite is unused
and its expiry has passed; it returns the invite when it is unused and its expiry is unset
or has not passed, and it succeeds in that case only. -/
theorem getInvite_outcomes (db : DB) (now : Time) (code : String) (hcode : code ≠ "") :
    (db.user_invites.find? (fun y => decide (y.code = code)) = none →
        GetInvite db now code = .err "invalid or expired invite code")
      ∧ (∀ r, db.user_invites.find? (fun y => decide (y.code = code)) = some r →
          r.used_at ≠ none → GetInvite db now code = .err "invite has already been used")
      ∧ (∀ r exp, db.user_invites.find? (fun y => decide (y.code = code)) = some r →
          r.used_at = none → r.expires_at = some exp → exp < now →
          GetInvite db now code = .err "invite has expired")
      ∧ (∀ r, db.user_invites.find? (fun y => decide (y.code = code)) = some r →
          r.used_at = none → (r.expires_at = none ∨ ∃ exp, r.expires_at = some exp ∧ now ≤ exp) →
          GetInvite db now code = .ok (UserInviteRepository.sqlcToModel (scanUserInvite r)))
      ∧ ((∃ invite, GetInvite db now code = .ok invite) ↔
          ∃ r, db.user_invites.find? (fun y => decide (y.code = code)) = some r
            ∧ r.used_at = none
            ∧ (r.expires_at = none ∨ ∃ exp, r.expires_at = some exp ∧ now ≤ exp)) := by
  have hnone : db.user_invites.find? (fun y => decide (y.code = code)) = none →
      GetInvite db now code = .err "invalid or expired invite code" := by
    intro h
    simp [GetInvite, hcode, inviteGetByCode_absent db code h]
  refine ⟨hnone, fun r h1 h2 => getInvite_used db now code r hcode h1 h2,
    fun r exp h1 h2 h3 h4 => getInvite_expired db now code r exp hcode h1 h2 h3 h4,
    fun r h1 h2 h3 => getInvite_valid db now code r hcode h1 h2 h3, ?_⟩
  constructor
  · rintro ⟨invite, hok⟩
    cases hrow : db.user_invites.find? (fun y => decide (y.code = code)) with
    | none => rw [hnone hrow] at hok; cases hok
    | some r =>
      refine ⟨r, rfl, ?_⟩
      by_cases hused : r.used_at = none
      · refine ⟨hused, ?_⟩
        cases hexp : r.expires_at with
        | none => exact Or.inl rfl
        | some exp =>
          right
          refine ⟨exp, rfl, ?_⟩
          by_contra hlt
          rw [getInvite_expired db now code r exp hcode hrow hused hexp (not_le.mp hlt)] at hok
          cases hok
      · rw [getInvite_used db now code r hcode hrow hused] at hok
        cases hok
  · rintro ⟨r, hrow, hunused, hlive⟩
    exact ⟨_, getInvite_valid db now code r hcode hrow hunused hlive⟩

theorem getInvite_outcomes_witness :
    GetInvite Example.dbInvites 50 "0a1a2a3a4a5a6a7a"
      = .ok (UserInviteRepository.sqlcToModel (scanUserInvite Example.carolInvite)) :=
  (getInvite_outcomes Example.dbInvites 50 "0a1a2a3a4a5a6a7a" (by decide)).2.2.2.1
    Example.carolInvite (by decide) (by decide) (Or.inr ⟨100, by decide, by decide⟩)

/-- C19. For an unused, unexpired invite that carries a target e-mail for which the user
table holds a user, `UseInvite` (by a non-empty `usedBy`) fails with "user with this email
already exists" and returns the database unchanged, so the invite stays as it was stored,
unused. -/
theorem useInvite_rejects_registered_email
    (L : Lib) (db : DB) (now : Time) (code usedBy : String) (r : UserInviteRecord)
    (email : String) (user : User)
    (hcode : code ≠ "") (husedBy : usedBy ≠ "")
    (hrow : db.user_invites.find? (fun y => decide (y.code = code)) = some r)
    (hunused : r.used_at = none)
    (hlive : r.expires_at = none ∨ ∃ exp, r.expires_at = some exp ∧ now ≤ exp)
    (hemail : r.email = some email)
    (huser : UserRepository.GetByEmail db email = .ok user) :
    UseInvite L db now code usedBy = (.err "user with this email already exists", db)
      ∧ (UseInvite L db now code usedBy).2.user_invites.find?
          (fun y => decide (y.code = code)) = some r
      ∧ r.used_at = none := by
  have hget := getInvite_valid db now code r hcode hrow hunused hlive
  have h : UseInvite L db now code usedBy
      = (.err "user with this email already exists", db) := by
    simp [UseInvite, hcode, husedBy, hget, inviteModel_of_row, hemail, huser, Result.isOk]
  exact ⟨h, by rw [h]; exact hrow, hunused⟩

theorem useInvite_rejects_registered_email_witness :
    UseInvite (Example.lib []) Example.dbInvites 50 "1b2b3b4b5b6b7b8b" "id-2"
        = (.err "user with this email already exists", Example.dbInvites)
      ∧ (UseInvite (Example.lib []) Example.dbInvites 50 "1b2b3b4b5b6b7b8b"
          "id-2").2.user_invites.find? (fun y => decide (y.code = "1b2b3b4b5b6b7b8b"))
        = some Example.aliceInvite
      ∧ Example.aliceInvite.used_at = none :=
  useInvite_rejects_registered_email (Example.lib []) Example.dbInvites 50
    "1b2b3b4b5b6b7b8b" "id-2" Example.aliceInvite "alice@example.com" Example.aliceUser
    (by decide) (by decide) (by decide) (by decide) (Or.inl (by decide)) (by decide)
    (by decide)

/-! ## Invites: creation -/

/-- C16. For every e-mail, expiry and createdBy id (a non-empty string that parses as a
UUID): `CreateInvite` with a role other than "", "user" and "admin" fails with "invalid
role" and leaves the database unchanged; with role "" it stores and returns an invite of
role "user", and with role "user" or "admin" one of that role (given that the random source
delivers bytes and that the store, which keeps codes and ids unique, accepts the new row);
and whatever the arguments, an invite it returns has role "user" or "admin". -/
theorem createInvite_role_handling
    (L : Lib) (db : DB) (email role createdBy : String) (expiresAt : Option Time)
    (random : Except String (Fin 8 → UInt8)) (newID : UUID) (now : Time) (creator : UUID)
    (hcreatedBy : createdBy ≠ "") (hparse : L.uuidParse createdBy = some creator) :
    (role ≠ "" → role ≠ "user" → role ≠ "admin" →
        CreateInvite L db email role createdBy expiresAt random newID now
          = (.err "invalid role", db))
      ∧ (role = "" ∨ role = "user" ∨ role = "admin" →
        ∀ bytes, random = .ok bytes →
        db.user_invites.any (fun r => decide (r.code = EncodeToString (List.ofFn bytes)))
          = false →
        db.user_invites.any (fun r => decide (r.id = newID)) = false →
        CreateInvite L db email role createdBy expiresAt random newID now
          = (.ok { ID := newID, Code := EncodeToString (List.ofFn bytes), Email := some email
                   Role := if role = "" then "user" else role
                   CreatedBy := some creator, ExpiresAt := expiresAt
                   UsedAt := none, UsedBy := none, CreatedAt := now },
              { db with user_invites := db.user_invites ++
                [{ id := newID, code := EncodeToString (List.ofFn bytes), email := some email
                   role := some (if role = "" then "user" else role)
                   created_by := some creator, expires_at := expiresAt
                   used_at := none, used_by := none, created_at := some now }] }))
      ∧ (∀ invite db1, CreateInvite L db email role createdBy expiresAt random newID now
          = (.ok invite, db1) → invite.Role = "user" ∨ invite.Role = "admin") := by
  refine ⟨?_, ?_, ?_⟩
  · intro h1 h2 h3
    simp [CreateInvite, hcreatedBy, h1, h2, h3]
  · intro hrole bytes hrandom hcode hid
    have hr : (if role = "" then "user" else role) = "user"
        ∨ (if role = "" then "user" else role) = "admin" := by
      rcases hrole with h | h | h <;> simp [h]
    have hvalid : ¬ ((if role = "" then "user" else role) ≠ "user"
        ∧ (if role = "" then "user" else role) ≠ "admin") := by
      rcases hr with h | h <;> simp [h]
    have hexp : (sqlNullTimePtr expiresAt).toColumn = expiresAt := by
      cases expiresAt <;> rfl
    simp only [CreateInvite, hcreatedBy, if_false, hvalid, hrandom, generateInviteCode,
      MustParse, hparse, UserInviteRepository.Create, Queries.CreateUserInvite, hcode, hid,
      Bool.false_eq_true]
    simp [inviteModel_of_row, hexp, sqlNullString, sqlString, sqlNullUUID, nullStringToColumn,
      NullUUID.toColumn, scanNullTime]
  · intro invite db1 h
    unfold CreateInvite at h
    by_cases h1 : createdBy = ""
    · simp [h1] at h
    · simp only [h1, if_false] at h
      by_cases h2 : (if role = "" then "user" else role) ≠ "user"
          ∧ (if role = "" then "user" else role) ≠ "admin"
      · simp [h2] at h
      · have hr : (if role = "" then "user" else role) = "user"
            ∨ (if role = "" then "user" else role) = "admin" := by
          by_contra hcon
          push_neg at hcon
          exact h2 hcon
        simp only [h2, if_false] at h
        cases h3 : generateInviteCode random with
        | panicked m => simp [h3] at h
        | err e => simp [h3] at h
        | ok code =>
          simp only [h3] at h
          cases h4 : MustParse L createdBy with
          | panicked m => simp [h4] at h
          | err e => simp [h4] at h
          | ok cb =>
            simp only [h4, UserInviteRepository.Create, Queries.CreateUserInvite] at h
            by_cases h5 : db.user_invites.any (fun r => decide (r.code = code)) = true
            · simp [h5] at h
            · by_cases h6 : db.user_invites.any (fun r => decide (r.id = newID)) = true
              · simp [h5, h6] at h
              · simp only [h5, h6, Bool.false_eq_true, if_false, Prod.mk.injEq,
                  Result.ok.injEq] at h
                rw [← h.1]
                simpa [inviteModel_of_row, sqlString, nullStringToColumn] using hr

theorem createInvite_role_handling_witness :
    CreateInvite (Example.lib []) Example.db1 "carol@example.com" "" "id-1" (some 100)
        (.ok Example.bytes) ⟨11⟩ 0
      = (.ok { ID := ⟨11⟩, Code := EncodeToString (List.ofFn Example.bytes)
               Email := some "carol@example.com"
               Role := if ("" : String) = "" then "user" else ""
               CreatedBy := some ⟨1⟩, ExpiresAt := some 100
               UsedAt := none, UsedBy := none, CreatedAt := 0 },
          { Example.db1 with user_invites := Example.db1.user_invites ++
            [{ id := ⟨11⟩, code := EncodeToString (List.ofFn Example.bytes)
               email := some "carol@example.com"
               role := some (if ("" : String) = "" then "user" else "")
               created_by := some ⟨1⟩, expires_at := some 100
               used_at := none, used_by := none, created_at := some 0 }] }) :=
  (createInvite_role_handling (Example.lib []) Example.db1 "carol@example.com" "" "id-1"
    (some 100) (.ok Example.bytes) ⟨11⟩ 0 ⟨1⟩ (by decide) (by decide)).2.1
    (Or.inl rfl) Example.bytes rfl (by decide) (by decide)

/-! ## Invites: single use -/

theorem find?_by_id_of_nodup (l : List UserInviteRecord) (r : UserInviteRecord)
    (hnodup : (l.map (fun y => y.id)).Nodup) (hmem : r ∈ l) :
    l.find? (fun y => decide (y.id = r.id)) = some r := by
  cases hfind : l.find? (fun y => decide (y.id = r.id)) with
  | none =>
    have := List.find?_eq_none.mp hfind r hmem
    simp at this
  | some r0 =>
    have hid : r0.id = r.id := by
      have := List.find?_some hfind
      simpa using this
    have hr0 : r0 ∈ l := List.mem_of_find?_eq_some hfind
    rw [List.inj_on_of_nodup_map hnodup hr0 hmem hid]

/-- The row that lookups find once the invite `r` was marked used. -/
theorem find_in_marked (l : List UserInviteRecord) (r : UserInviteRecord) (now : Time)
    (usedBy : Option UUID) (code : String)
    (hrow : l.find? (fun y => decide (y.code = code)) = some r)
    (hnodup : (l.map (fun y => y.id)).Nodup) :
    (l.map (fun y => if y.id = r.id then { y with used_at := some now, used_by := usedBy }
        else y)).find? (fun y => decide (y.id = r.id))
        = some { r with used_at := some now, used_by := usedBy }
      ∧ (l.map (fun y => if y.id = r.id then { y with used_at := some now, used_by := usedBy }
        else y)).find? (fun y => decide (y.code = code))
        = some { r with used_at := some now, used_by := usedBy } := by
  have hmem : r ∈ l := List.mem_of_find?_eq_some hrow
  constructor
  · rw [List.find?_map]
    have hp : ((fun y : UserInviteRecord => decide (y.id = r.id)) ∘
        (fun y => if y.id = r.id then { y with used_at := some now, used_by := usedBy } else y))
        = (fun y => decide (y.id = r.id)) := by
      funext y
      simp only [Function.comp]
      split <;> rfl
    rw [hp, find?_by_id_of_nodup l r hnodup hmem]
    simp
  · rw [List.find?_map]
    have hp : ((fun y : UserInviteRecord => decide (y.code = code)) ∘
        (fun y => if y.id = r.id then { y with used_at := some now, used_by := usedBy } else y))
        = (fun y => decide (y.code = code)) := by
      funext y
      simp only [Function.comp]
      split <;> rfl
    rw [hp, hrow]
    simp

/-- Calls on the code of an invite that is marked used all fail with "invite has already
been used" and change nothing. -/
theorem runInviteCalls_used (L : Lib) (db : DB) (code : String) (r : UserInviteRecord)
    (hcode : code ≠ "")
    (hrow : db.user_invites.find? (fun y => decide (y.code = code)) = some r)
    (hused : r.used_at ≠ none) (calls : List InviteCall)
    (hcalls : ∀ c ∈ calls, c.NamesUser) :
    runInviteCalls L code db calls
      = (List.replicate calls.length (.err "invite has already been used"), db) := by
  induction calls with
  | nil => rfl
  | cons c rest ih =>
    have hrest := ih (fun c' hc' => hcalls c' (List.mem_cons_of_mem _ hc'))
    have hget : ∀ t, GetInvite db t code = .err "invite has already been used" :=
      fun t => getInvite_used db t code r hcode hrow hused
    have hstep : InviteCall.run L code db c = (.err "invite has already been used", db) := by
      cases c with
      | get t => simp [InviteCall.run, hget]
      | use t usedBy =>
        have hne : usedBy ≠ "" := hcalls (.use t usedBy) (List.mem_cons_self _ _)
        simp [InviteCall.run, UseInvite, hcode, hne, hget]
    simp [runInviteCalls, hstep, hrest, List.replicate_succ]

/-- C17. For an unused, unexpired invite whose target e-mail is not registered, the
first `UseInvite(code, usedBy)` (with `usedBy` a UUID string) succeeds and returns the
invite with used-at set and used-by equal to `usedBy`; every later `GetInvite` or
`UseInvite` on the same code, in sequence, fails with "invite has already been used" and
leaves the database as the first use left it. -/
theorem useInvite_succeeds_once
    (L : Lib) (db : DB) (now : Time) (code usedBy : String) (r : UserInviteRecord)
    (user : UUID) (later : List InviteCall)
    (hcode : code ≠ "") (husedBy : usedBy ≠ "")
    (hparse : L.uuidParse usedBy = some user)
    (hrow : db.user_invites.find? (fun y => decide (y.code = code)) = some r)
    (hnodup : (db.user_invites.map (fun y => y.id)).Nodup)
    (hround : L.uuidParse (L.uuidString r.id) = some r.id)
    (hunused : r.used_at = none)
    (hlive : r.expires_at = none ∨ ∃ exp, r.expires_at = some exp ∧ now ≤ exp)
    (hfree : ∀ email, r.email = some email → ∀ x ∈ db.users, x.email ≠ email)
    (hlater : ∀ c ∈ later, c.NamesUser) :
    ∃ invite db1, UseInvite L db now code usedBy = (.ok invite, db1)
      ∧ invite.ID = r.id ∧ invite.Code = code
      ∧ invite.UsedAt = some now ∧ invite.UsedBy = some user
      ∧ runInviteCalls L code db1 later
          = (List.replicate later.length (.err "invite has already been used"), db1) := by
  have hget := getInvite_valid db now code r hcode hrow hunused hlive
  have hmail : (match r.email with
      | some email => (UserRepository.GetByEmail db email).isOk
      | none => false) = false := by
    cases he : r.email with
    | none => rfl
    | some email =>
      simp [getByEmail_absent db email (hfree email he), Result.isOk]
  obtain ⟨hbyid, hbycode⟩ := find_in_marked db.user_invites r now (some user) code hrow hnodup
  have hrcode : r.code = code := by
    have := List.find?_some hrow
    simpa using this
  have huse : UseInvite L db now code usedBy
      = (.ok (UserInviteRepository.sqlcToModel
            (scanUserInvite { r with used_at := some now, used_by := some user })),
          { db with user_invites := db.user_invites.map (fun y =>
            if y.id = r.id then { y with used_at := some now, used_by := some user }
            else y) }) := by
    simp only [UseInvite, hcode, husedBy, if_false, hget, inviteModel_of_row, hmail,
      Bool.false_eq_true, UserInviteRepository.Use, MustParse, hparse, hround,
      Queries.UseInvite, sqlNullUUID, NullUUID.toColumn, if_true, hbyid]
  refine ⟨_, _, huse, ?_, ?_, ?_, ?_, ?_⟩
  · simp [inviteModel_of_row]
  · simp [inviteModel_of_row, hrcode]
  · simp [inviteModel_of_row]
  · simp [inviteModel_of_row]
  · exact runInviteCalls_used L _ code { r with used_at := some now, used_by := some user }
      hcode hbycode (by simp) later hlater

theorem useInvite_succeeds_once_witness :
    ∃ invite db1, UseInvite (Example.lib []) Example.dbInvites 50 "0a1a2a3a4a5a6a7a" "id-2"
        = (.ok invite, db1)
      ∧ invite.ID = Example.carolInvite.id ∧ invite.Code = "0a1a2a3a4a5a6a7a"
      ∧ invite.UsedAt = some 50 ∧ invite.UsedBy = some ⟨2⟩
      ∧ runInviteCalls (Example.lib []) "0a1a2a3a4a5a6a7a" db1
          [.use 60 "id-3", .get 70]
        = (List.replicate ([InviteCall.use 60 "id-3", InviteCall.get 70]).length
            (.err "invite has already been used"), db1) :=
  useInvite_succeeds_once (Example.lib []) Example.dbInvites 50 "0a1a2a3a4a5a6a7a" "id-2"
    Example.carolInvite ⟨2⟩ [.use 60 "id-3", .get 70]
    (by decide) (by decide) (by decide) (by decide) (by decide) (by decide) (by decide)
    (Or.inr ⟨100, by decide, by decide⟩)
    (by
      intro email he x hx
      have he2 : email = "carol@example.com" := by
        have : Example.carolInvite.email = some "carol@example.com" := rfl
        rw [this] at he
        injection he with he
        exact he.symm
      subst he2
      revert x
      decide)
    (by
      intro c hc
      simp only [List.mem_cons, List.mem_singleton, List.mem_nil_iff, or_false] at hc
      rcases hc with rfl | rfl
      · show ("id-3" : String) ≠ ""
        decide
      · trivial)

/-! ## The Auth middleware -/

open AuthMiddleware

theorem hasPrefix_append (p rest : String) :
    HasPrefix (p ++ rest) p = true ∧ TrimPrefix (p ++ rest) p = rest := by
  have h : HasPrefix (p ++ rest) p = true := by
    simp [HasPrefix, String.data_append]
  refine ⟨h, ?_⟩
  simp [TrimPrefix, h, String.data_append]

theorem hasPrefix_bearer_ne_empty (h : String) (hp : HasPrefix h "Bearer " = true) :
    h ≠ "" := by
  intro he
  subst he
  revert hp
  decide

theorem httpError_eq (w : ResponseRecorder) (error : String) (code : Nat) :
    httpError w error code
      = { Code := if w.wroteHeader then w.Code else code
          Body := w.Body ++ (error ++ "\n")
          wroteHeader := true } := by
  cases w with
  | mk c b wh =>
    cases wh <;>
      simp [httpError, ResponseRecorder.WriteHeader, ResponseRecorder.Write]

/-- C20. For every request and every response recorder: with an empty Authorization
header the middleware writes the status 401 and the line "Authorization header required";
with a header that does not start with "Bearer " it writes 401 and "Invalid authorization
header format"; when `ValidateToken` returns an error for the rest of the header it writes
401 and "Invalid token".  The status of the response is 401 whenever its header has not
been written before, which is how the server hands it to the middleware; a response whose
header has been written keeps its status and gets the line.  In these cases, and whenever
`ValidateToken` does not return a user, the outcome does not depend on the next handler
(it is not called).  When `ValidateToken` returns a user, the outcome is the next
handler's on the request whose context holds that user under `UserKey`.  The rest of a
header "Bearer " ++ t is t. -/
theorem auth_middleware_outcomes
    (ValidateToken : String → Result User) (next : Handler) (w : ResponseRecorder)
    (r : Request) :
    (r.Header "Authorization" = "" →
        Auth ValidateToken next w r
          = .ok { Code := if w.wroteHeader then w.Code else 401
                  Body := w.Body ++ "Authorization header required\n"
                  wroteHeader := true })
      ∧ (r.Header "Authorization" ≠ "" → HasPrefix (r.Header "Authorization") "Bearer " = false →
        Auth ValidateToken next w r
          = .ok { Code := if w.wroteHeader then w.Code else 401
                  Body := w.Body ++ "Invalid authorization header format\n"
                  wroteHeader := true })
      ∧ (∀ e, HasPrefix (r.Header "Authorization") "Bearer " = true →
        ValidateToken (TrimPrefix (r.Header "Authorization") "Bearer ") = .err e →
        Auth ValidateToken next w r
          = .ok { Code := if w.wroteHeader then w.Code else 401
                  Body := w.Body ++ "Invalid token\n"
                  wroteHeader := true })
      ∧ (∀ user, HasPrefix (r.Header "Authorization") "Bearer " = true →
        ValidateToken (TrimPrefix (r.Header "Authorization") "Bearer ") = .ok user →
        Auth ValidateToken next w r
            = next w { r with Context := WithValue r.Context UserKey (.user user) }
          ∧ Context.Value (WithValue r.Context UserKey (.user user)) UserKey
            = some (.user user))
      ∧ ((¬ ∃ user, HasPrefix (r.Header "Authorization") "Bearer " = true
            ∧ ValidateToken (TrimPrefix (r.Header "Authorization") "Bearer ") = .ok user) →
        ∀ other : Handler, Auth ValidateToken next w r = Auth ValidateToken other w r)
      ∧ (∀ t, HasPrefix ("Bearer " ++ t) "Bearer " = true
          ∧ TrimPrefix ("Bearer " ++ t) "Bearer " = t) := by
  have m1 : "Authorization header required" ++ "\n" = "Authorization header required\n" := by
    decide
  have m2 : "Invalid authorization header format" ++ "\n"
      = "Invalid authorization header format\n" := by
    decide
  have m3 : "Invalid token" ++ "\n" = "Invalid token\n" := by decide
  refine ⟨?_, ?_, ?_, ?_, ?_, fun t => hasPrefix_append "Bearer " t⟩
  · intro h
    have he := httpError_eq w "Authorization header required" 401
    rw [m1] at he
    simp only [Auth, h, StatusUnauthorized, if_true, he]
  · intro h1 h2
    have he := httpError_eq w "Invalid authorization header format" 401
    rw [m2] at he
    simp [Auth, h1, h2, StatusUnauthorized, he]
  · intro e hp hv
    have hne := hasPrefix_bearer_ne_empty _ hp
    have he := httpError_eq w "Invalid token" 401
    rw [m3] at he
    simp [Auth, hne, hp, hv, StatusUnauthorized, he]
  · intro user hp hv
    have hne := hasPrefix_bearer_ne_empty _ hp
    refine ⟨by simp [Auth, hne, hp, hv], ?_⟩
    simp [WithValue, Context.Value]
  · intro hno other
    by_cases h1 : r.Header "Authorization" = ""
    · simp [Auth, h1]
    · by_cases h2 : HasPrefix (r.Header "Authorization") "Bearer " = true
      · cases hv : ValidateToken (TrimPrefix (r.Header "Authorization") "Bearer ") with
        | ok user => exact absurd ⟨user, h2, hv⟩ hno
        | err e => simp [Auth, h1, h2, hv]
        | panicked m => simp [Auth, h1, h2, hv]
      · simp [Auth, h1, h2]

theorem auth_middleware_outcomes_witness :
    (Auth Example.mockValidateToken Example.echoUser {}
        (Example.requestWith "Bearer valid-token")
      = Example.echoUser {}
          { Example.requestWith "Bearer valid-token" with
            Context := WithValue (Example.requestWith "Bearer valid-token").Context UserKey
              (.user Example.aliceUser) }
    ∧ Context.Value (WithValue (Example.requestWith "Bearer valid-token").Context UserKey
        (.user Example.aliceUser)) UserKey = some (.user Example.aliceUser))
    ∧ Auth Example.mockValidateToken Example.echoUser {} (Example.requestWith "")
      = .ok { Code := 401, Body := "Authorization header required\n", wroteHeader := true }
    ∧ Auth Example.mockValidateToken Example.echoUser {} (Example.requestWith "valid-token")
      = .ok { Code := 401, Body := "Invalid authorization header format\n"
              wroteHeader := true }
    ∧ Auth Example.mockValidateToken Example.echoUser {}
        (Example.requestWith "Bearer invalid-token")
      = .ok { Code := 401, Body := "Invalid token\n", wroteHeader := true } :=
  ⟨(auth_middleware_outcomes Example.mockValidateToken Example.echoUser {}
      (Example.requestWith "Bearer valid-token")).2.2.2.1 Example.aliceUser (by decide)
      (by decide),
    ((auth_middleware_outcomes Example.mockValidateToken Example.echoUser {}
      (Example.requestWith "")).1 (by decide)).trans (by decide),
    ((auth_middleware_outcomes Example.mockValidateToken Example.echoUser {}
      (Example.requestWith "valid-token")).2.1 (by decide) (by decide)).trans (by decide),
    ((auth_middleware_outcomes Example.mockValidateToken Example.echoUser {}
      (Example.requestWith "Bearer invalid-token")).2.2.1
        "assert.AnError general error for testing" (by decide) (by decide)).trans
      (by decide)⟩

/-! ## The role check -/

/-- C21. For every list of roles, every request and every response recorder: when the
context holds a user under `UserKey` whose role is one of the listed roles, the outcome
of `RequireRole` is the next handler's on the same recorder and request; when it holds a
user whose role is not listed, `RequireRole` writes the status 403 and the line
"Forbidden"; when it holds no user, it writes 401 and "Unauthorized".  The status of the
response is the 403 or 401 whenever its header has not been written before, which is how
the server hands it over; a response whose header has been written keeps its status and
gets the line.  Unless the context holds a user with a listed role the outcome does not
depend on the next handler (it is not called). -/
theorem requireRole_outcomes
    (roles : List String) (next : Handler) (w : ResponseRecorder) (r : Request) :
    (∀ user, r.Context.Value UserKey = some (.user user) → user.Role ∈ roles →
        RequireRole roles next w r = next w r)
      ∧ (∀ user, r.Context.Value UserKey = some (.user user) → user.Role ∉ roles →
        RequireRole roles next w r
          = .ok { Code := if w.wroteHeader then w.Code else 403
                  Body := w.Body ++ "Forbidden\n"
                  wroteHeader := true })
      ∧ ((∀ user, r.Context.Value UserKey ≠ some (.user user)) →
        RequireRole roles next w r
          = .ok { Code := if w.wroteHeader then w.Code else 401
                  Body := w.Body ++ "Unauthorized\n"
                  wroteHeader := true })
      ∧ ((¬ ∃ user, r.Context.Value UserKey = some (.user user) ∧ user.Role ∈ roles) →
        ∀ other : Handler, RequireRole roles next w r = RequireRole roles other w r) := by
  have m1 : "Forbidden" ++ "\n" = "Forbidden\n" := by decide
  have m2 : "Unauthorized" ++ "\n" = "Unauthorized\n" := by decide
  have hf := httpError_eq w "Forbidden" 403
  rw [m1] at hf
  have hu := httpError_eq w "Unauthorized" 401
  rw [m2] at hu
  refine ⟨?_, ?_, ?_, ?_⟩
  · intro user hctx hrole
    have hany : (roles.any fun role => decide (user.Role = role)) = true := by
      simp only [List.any_eq_true, decide_eq_true_eq]
      exact ⟨user.Role, hrole, rfl⟩
    simp [RequireRole, hctx, hany]
  · intro user hctx hrole
    have hany : (roles.any fun role => decide (user.Role = role)) = false := by
      rw [Bool.eq_false_iff]
      intro h
      simp only [List.any_eq_true, decide_eq_true_eq] at h
      obtain ⟨x, hx, hxe⟩ := h
      exact hrole (hxe ▸ hx)
    simp [RequireRole, hctx, hany, StatusForbidden, hf]
  · intro hno
    cases hctx : r.Context.Value UserKey with
    | none => simp [RequireRole, hctx, StatusUnauthorized, hu]
    | some v =>
      cases v with
      | user u => exact absurd hctx (hno u)
      | text s => simp [RequireRole, hctx, StatusUnauthorized, hu]
  · intro hno other
    cases hctx : r.Context.Value UserKey with
    | none => simp [RequireRole, hctx]
    | some v =>
      cases v with
      | text s => simp [RequireRole, hctx]
      | user u =>
        have hany : (roles.any fun role => decide (u.Role = role)) = false := by
          rw [Bool.eq_false_iff]
          intro h
          simp only [List.any_eq_true, decide_eq_true_eq] at h
          obtain ⟨x, hx, hxe⟩ := h
          exact hno ⟨u, hctx, hxe ▸ hx⟩
        simp [RequireRole, hctx, hany]

theorem requireRole_outcomes_witness :
    RequireRole ["admin"] Example.sayNext {} (Example.requestOf Example.adminUser)
        = Example.sayNext {} (Example.requestOf Example.adminUser)
      ∧ RequireRole ["admin"] Example.sayNext {} (Example.requestOf Example.aliceUser)
        = .ok { Code := 403, Body := "Forbidden\n", wroteHeader := true }
      ∧ RequireRole ["admin"] Example.sayNext {} (Example.requestWith "")
        = .ok { Code := 401, Body := "Unauthorized\n", wroteHeader := true } :=
  ⟨(requireRole_outcomes ["admin"] Example.sayNext {}
      (Example.requestOf Example.adminUser)).1 Example.adminUser (by decide) (by decide),
    ((requireRole_outcomes ["admin"] Example.sayNext {}
      (Example.requestOf Example.aliceUser)).2.1 Example.aliceUser (by decide)
      (by decide)).trans (by decide),
    ((requireRole_outcomes ["admin"] Example.sayNext {}
      (Example.requestWith "")).2.2.1 (fun _ h => Option.noConfusion h)).trans (by decide)⟩

/-! ## Recipes: ownership -/

theorem recipe_getByID_present (L : Lib) (db : DB) (id : String) (u : UUID)
    (row : RecipeRecord) (hparse : L.uuidParse id = some u)
    (hrow : db.recipes.find? (fun r => decide (r.id = u)) = some row) :
    RecipeRepository.GetByID L db id = .ok (RecipeRepository.sqlcToModel (scanRecipe row)) := by
  simp [RecipeRepository.GetByID, MustParse, hparse, Queries.GetRecipeByID, hrow]

theorem recipe_model_author (row : RecipeRecord) :
    (RecipeRepository.sqlcToModel (scanRecipe row)).AuthorID = row.author_id := by
  cases h : row.author_id <;>
    simp [RecipeRepository.sqlcToModel, scanRecipe, scanNullUUID, nullUUIDToPtr, h]

/-- C22. For every recipe in the store that has an author, and every `authorID` that is
not the text of that author's id: `UpdateRecipe`, `DeleteRecipe` and `PublishRecipe` fail
with the errors "unauthorized: you can only edit / delete / publish your own recipes",
each of which begins with "unauthorized", and leave the database as it was. -/
theorem recipe_mutation_by_other_author_is_unauthorized
    (L : Lib) (db : DB) (id : String) (u : UUID) (row : RecipeRecord) (author : UUID)
    (authorID : String) (req : UpdateRecipeRequest) (published : Bool) (now : Time)
    (hparse : L.uuidParse id = some u)
    (hrow : db.recipes.find? (fun r => decide (r.id = u)) = some row)
    (hauthor : row.author_id = some author)
    (hother : L.uuidString author ≠ authorID) :
    RecipeService.UpdateRecipe L db id req authorID now
        = (.err "unauthorized: you can only edit your own recipes", db)
      ∧ RecipeService.DeleteRecipe L db id authorID
        = (.err "unauthorized: you can only delete your own recipes", db)
      ∧ RecipeService.PublishRecipe L db id authorID published now
        = (.err "unauthorized: you can only publish your own recipes", db)
      ∧ HasPrefix "unauthorized: you can only edit your own recipes" "unauthorized" = true
      ∧ HasPrefix "unauthorized: you can only delete your own recipes" "unauthorized" = true
      ∧ HasPrefix "unauthorized: you can only publish your own recipes" "unauthorized"
        = true := by
  have hget := recipe_getByID_present L db id u row hparse hrow
  have ha := recipe_model_author row
  rw [hauthor] at ha
  refine ⟨?_, ?_, ?_, by decide, by decide, by decide⟩
  · simp only [RecipeService.UpdateRecipe, hget, ha]
    simp [hother]
  · simp only [RecipeService.DeleteRecipe, hget, ha]
    simp [hother]
  · simp only [RecipeService.PublishRecipe, hget, ha]
    simp [hother]

theorem recipe_mutation_by_other_author_is_unauthorized_witness :
    RecipeService.UpdateRecipe (Example.lib []) Example.dbPancakes "id-5"
        Example.fluffyUpdate "id-2" 7
        = (.err "unauthorized: you can only edit your own recipes", Example.dbPancakes)
      ∧ RecipeService.DeleteRecipe (Example.lib []) Example.dbPancakes "id-5" "id-2"
        = (.err "unauthorized: you can only delete your own recipes", Example.dbPancakes)
      ∧ RecipeService.PublishRecipe (Example.lib []) Example.dbPancakes "id-5" "id-2" true 7
        = (.err "unauthorized: you can only publish your own recipes", Example.dbPancakes)
      ∧ HasPrefix "unauthorized: you can only edit your own recipes" "unauthorized" = true
      ∧ HasPrefix "unauthorized: you can only delete your own recipes" "unauthorized" = true
      ∧ HasPrefix "unauthorized: you can only publish your own recipes" "unauthorized"
        = true :=
  recipe_mutation_by_other_author_is_unauthorized (Example.lib []) Example.dbPancakes "id-5"
    ⟨5⟩ Example.pancakes ⟨1⟩ "id-2" Example.fluffyUpdate true 7 (by decide) (by decide)
    (by decide) (by decide)

/-! ## Recipes: the slug on update -/

theorem update_ignores_slug (L : Lib) (db : DB) (id : String) (recipe : Recipe)
    (slug : String) (now : Time) :
    RecipeRepository.Update L db id { recipe with Slug := slug } now
      = RecipeRepository.Update L db id recipe now := rfl

theorem updateRecipe_by_author_keeps_slug
    (L : Lib) (db : DB) (id : String) (u : UUID) (row : RecipeRecord) (author : UUID)
    (req : UpdateRecipeRequest) (now : Time)
    (hparse : L.uuidParse id = some u)
    (hrow : db.recipes.find? (fun r => decide (r.id = u)) = some row)
    (hauthor : row.author_id = some author) :
    ∃ updated db', RecipeService.UpdateRecipe L db id req (L.uuidString author) now
        = (.ok updated, db')
      ∧ updated.Slug = row.slug := by
  have hget := recipe_getByID_present L db id u row hparse hrow
  have ha := recipe_model_author row
  rw [hauthor] at ha
  simp only [RecipeService.UpdateRecipe, hget, ha]
  simp [RecipeRepository.Update, MustParse, hparse, Queries.UpdateRecipe, hrow,
    RecipeRepository.sqlcToModel, scanRecipe]

/-- C23 fails on the code. The recipe "Pancakes" with slug "pancakes", updated by its
author with the title "Fluffy Pancakes" as in the service test: `UpdateRecipe` returns the
recipe with the new title and the old slug "pancakes", and that is the row the store
holds, although `generateSlug` of the new title is "fluffy-pancakes". -/
theorem updateRecipe_title_leaves_old_slug :
    RecipeService.UpdateRecipe (Example.lib []) Example.dbPancakes "id-5"
        Example.fluffyUpdate "id-1" 7
      = (.ok { ID := ⟨5⟩, Title := "Fluffy Pancakes", Slug := "pancakes"
               MarkdownContent := "Ingredients: Flour, Eggs.", AuthorID := some ⟨1⟩
               CategoryID := none, Description := some "Updated description"
               PrepTimeMinutes := none, CookTimeMinutes := none, Servings := none
               Difficulty := none, FeaturedImagePath := none, IsPublished := false
               CreatedAt := 0, UpdatedAt := 7, PublishedAt := none },
          { Example.dbPancakes with
            recipes := [Example.pancakesUpdated, Example.orphanRecipe] })
    ∧ Example.pancakesUpdated.slug = "pancakes"
    ∧ generateSlug (Example.lib []) "Fluffy Pancakes" = "fluffy-pancakes" := by
  decide

/-! ## Recipes without an author -/

theorem recipe_without_author_panics
    (L : Lib) (db : DB) (id : String) (u : UUID) (row : RecipeRecord)
    (authorID : String) (req : UpdateRecipeRequest) (published : Bool) (now : Time)
    (hparse : L.uuidParse id = some u)
    (hrow : db.recipes.find? (fun r => decide (r.id = u)) = some row)
    (hauthor : row.author_id = none) :
    RecipeService.UpdateRecipe L db id req authorID now
        = (.panicked RecipeService.nilDereference, db)
      ∧ RecipeService.DeleteRecipe L db id authorID
        = (.panicked RecipeService.nilDereference, db)
      ∧ RecipeService.PublishRecipe L db id authorID published now
        = (.panicked RecipeService.nilDereference, db) := by
  have hget := recipe_getByID_present L db id u row hparse hrow
  have ha := recipe_model_author row
  rw [hauthor] at ha
  refine ⟨?_, ?_, ?_⟩
  · simp only [RecipeService.UpdateRecipe, hget, ha]
  · simp only [RecipeService.DeleteRecipe, hget, ha]
  · simp only [RecipeService.PublishRecipe, hget, ha]

/-- C30 fails on the code. For the stored recipe whose author column is NULL,
`UpdateRecipe`, `DeleteRecipe` and `PublishRecipe` panic with the nil pointer dereference
of `existing.AuthorID.String()`, whoever the caller is; they return no error. -/
theorem recipe_without_author_panics_on_mutation :
    RecipeService.UpdateRecipe (Example.lib []) Example.dbPancakes "id-6"
        Example.fluffyUpdate "id-1" 7
      = (.panicked "runtime error: invalid memory address or nil pointer dereference",
          Example.dbPancakes)
    ∧ RecipeService.DeleteRecipe (Example.lib []) Example.dbPancakes "id-6" "id-1"
      = (.panicked "runtime error: invalid memory address or nil pointer dereference",
          Example.dbPancakes)
    ∧ RecipeService.PublishRecipe (Example.lib []) Example.dbPancakes "id-6" "id-1" true 7
      = (.panicked "runtime error: invalid memory address or nil pointer dereference",
          Example.dbPancakes)
    ∧ RecipeRepository.GetByID (Example.lib []) Example.dbPancakes "id-6"
      = .ok { ID := ⟨6⟩, Title := "Porridge", Slug := "porridge", MarkdownContent := "Oats."
              AuthorID := none, CategoryID := none, Description := none
              PrepTimeMinutes := none, CookTimeMinutes := none, Servings := none
              Difficulty := none, FeaturedImagePath := none, IsPublished := true
              CreatedAt := 0, UpdatedAt := 0, PublishedAt := none } := by
  decide

/-! ## Published variations -/

theorem foldl_append_if {α : Type} (p : α → Bool) (l init : List α) :
    l.foldl (fun acc v => if p v then acc ++ [v] else acc) init = init ++ l.filter p := by
  induction l generalizing init with
  | nil => simp
  | cons v rest ih =>
    by_cases hp : p v = true
    · simp [List.foldl_cons, ih, hp, List.filter_cons]
    · simp [List.foldl_cons, ih, hp, List.filter_cons]

/-- C26. For every recipe id: when `GetByRecipe` returns a list, `GetPublishedByRecipe`
returns its sublist of the variations whose `IsPublished` is true, in the same order (it
is the filter of that list), so no variation with `IsPublished` false is in it and none
with `IsPublished` true is left out; an error or a panic of `GetByRecipe` is passed on;
`GetPublishedVariationsByRecipe` of the service is the same function; and for a
well-formed id `GetByRecipe` does return a list. -/
theorem getPublishedByRecipe_is_published_part
    (L : Lib) (db : DB) (recipeID : String) :
    (∀ allVariations, VariationRepository.GetByRecipe L db recipeID = .ok allVariations →
        VariationRepository.GetPublishedByRecipe L db recipeID
            = .ok (allVariations.filter (fun v => v.IsPublished))
          ∧ (allVariations.filter (fun v => v.IsPublished)).Sublist allVariations
          ∧ (∀ v, v ∈ allVariations.filter (fun v => v.IsPublished)
              ↔ v ∈ allVariations ∧ v.IsPublished = true))
      ∧ (∀ e, VariationRepository.GetByRecipe L db recipeID = .err e →
        VariationRepository.GetPublishedByRecipe L db recipeID = .err e)
      ∧ (∀ m, VariationRepository.GetByRecipe L db recipeID = .panicked m →
        VariationRepository.GetPublishedByRecipe L db recipeID = .panicked m)
      ∧ VariationService.GetPublishedVariationsByRecipe L db recipeID
        = VariationRepository.GetPublishedByRecipe L db recipeID
      ∧ (∀ u, L.uuidParse recipeID = some u →
        ∃ allVariations, VariationRepository.GetByRecipe L db recipeID = .ok allVariations) := by
  refine ⟨?_, ?_, ?_, rfl, ?_⟩
  · intro allVariations h
    refine ⟨?_, List.filter_sublist _, fun v => by simp [List.mem_filter]⟩
    simp only [VariationRepository.GetPublishedByRecipe, h]
    rw [foldl_append_if (fun v : RecipeVariation => v.IsPublished)]
    simp
  · intro e h
    simp only [VariationRepository.GetPublishedByRecipe, h]
  · intro m h
    simp only [VariationRepository.GetPublishedByRecipe, h]
  · intro u hu
    simp [VariationRepository.GetByRecipe, MustParse, hu, Queries.GetVariationsByRecipe]

theorem getPublishedByRecipe_is_published_part_witness :
    VariationRepository.GetPublishedByRecipe (Example.lib []) Example.dbVariations "id-5"
        = .ok ([Example.publishedVariation, Example.draftVariation].filter
            (fun v => v.IsPublished))
      ∧ ([Example.publishedVariation, Example.draftVariation].filter
            (fun v => v.IsPublished)).Sublist
          [Example.publishedVariation, Example.draftVariation]
      ∧ (∀ v, v ∈ [Example.publishedVariation, Example.draftVariation].filter
            (fun v => v.IsPublished)
          ↔ v ∈ [Example.publishedVariation, Example.draftVariation]
            ∧ v.IsPublished = true) :=
  (getPublishedByRecipe_is_published_part (Example.lib []) Example.dbVariations "id-5").1
    [Example.publishedVariation, Example.draftVariation] (by decide)

/-! ## Malformed ids -/

theorem mustParse_malformed (L : Lib) (s : String) (h : L.uuidParse s = none) :
    MustParse L s = .panicked ("uuid: Parse(" ++ s ++ "): invalid UUID") := by
  simp [MustParse, h]

theorem createShareCode_malformed_id_panics
    (L : Lib) (db : DB) (recipeID : String) (expiresAt : Option Time) (maxUses : Option Int)
    (random : Except String (Fin 8 → UInt8)) (newID : UUID) (now : Time)
    (hid : recipeID ≠ "") (h : L.uuidParse recipeID = none) :
    CreateShareCode L db recipeID expiresAt maxUses random newID now
      = (.panicked ("uuid: Parse(" ++ recipeID ++ "): invalid UUID"), db) := by
  simp [CreateShareCode, hid, RecipeRepository.GetByID, MustParse, h]

/-- C28 fails on the code. With the id "not-a-uuid", which `uuid.Parse` rejects,
`CreateInvite` (as `createdBy`), `UseInvite` (as `usedBy`, on a valid invite) and
`CreateShareCode` (as `recipeID`) panic in `uuid.MustParse`; none of them returns an error
value, and none writes to the database. -/
theorem malformed_id_panics :
    CreateInvite (Example.lib []) Example.db1 "carol@example.com" "user" "not-a-uuid" none
        (.ok Example.bytes) ⟨9⟩ 0
      = (.panicked "uuid: Parse(not-a-uuid): invalid UUID", Example.db1)
    ∧ UseInvite (Example.lib []) Example.dbInvites 5 "0a1a2a3a4a5a6a7a" "not-a-uuid"
      = (.panicked "uuid: Parse(not-a-uuid): invalid UUID", Example.dbInvites)
    ∧ CreateShareCode (Example.lib []) Example.dbRecipes "not-a-uuid" none none
        (.ok Example.bytes) ⟨9⟩ 0
      = (.panicked "uuid: Parse(not-a-uuid): invalid UUID", Example.dbRecipes)
    ∧ (Example.lib []).uuidParse "not-a-uuid" = none
    ∧ RecipeService.parseUUID (Example.lib []) (some "not-a-uuid") = none := by
  decide

/-! ## The context key of the user -/

theorem value_under_string_key_after_auth (ctx : Context) (v : ContextValue) (k : String) :
    Context.Value (WithValue ctx UserKey v) (stringKey k) = Context.Value ctx (stringKey k) := by
  have hne : UserKey ≠ stringKey k := by
    intro h
    have h2 : UserKey.typeName = "string" := congrArg ContextKey.typeName h
    revert h2
    decide
  simp [WithValue, Context.Value, hne]

theorem createRecipe_behind_auth_panics
    (L : Lib) (recipeService : CreateRecipeRequest → String → Result Recipe)
    (decode : String → Option CreateRecipeRequest) (encode : Recipe → String)
    (ValidateToken : String → Result User) (w : ResponseRecorder) (r : Request)
    (user : User) (req : CreateRecipeRequest)
    (hp : HasPrefix (r.Header "Authorization") "Bearer " = true)
    (hv : ValidateToken (TrimPrefix (r.Header "Authorization") "Bearer ") = .ok user)
    (hctx : r.Context.Value (stringKey "user") = none)
    (hbody : decode r.Body = some req) :
    Auth ValidateToken (RecipeHandler.CreateRecipe L recipeService decode encode) w r
      = .panicked "interface conversion: interface {} is nil, not *models.User" := by
  have hne := hasPrefix_bearer_ne_empty _ hp
  have hk := value_under_string_key_after_auth r.Context (.user user) "user"
  rw [hctx] at hk
  simp [Auth, hne, hp, hv, RecipeHandler.CreateRecipe, hbody, hk]

theorem createInvite_behind_auth_panics
    (inviteService : String → String → String → Option Time → Result UserInvite)
    (decode : String → Option CreateUserInviteRequest) (encode : UserInvite → String)
    (ValidateToken : String → Result User) (w : ResponseRecorder) (r : Request)
    (user : User)
    (hp : HasPrefix (r.Header "Authorization") "Bearer " = true)
    (hv : ValidateToken (TrimPrefix (r.Header "Authorization") "Bearer ") = .ok user)
    (hctx : r.Context.Value (stringKey "user_id") = none) :
    Auth ValidateToken (UserInviteHandler.CreateInvite inviteService decode encode) w r
      = .panicked "interface conversion: interface {} is nil, not string" := by
  have hne := hasPrefix_bearer_ne_empty _ hp
  have hk := value_under_string_key_after_auth r.Context (.user user) "user_id"
  rw [hctx] at hk
  simp [Auth, hne, hp, hv, UserInviteHandler.CreateInvite, hk]

/-- C29 fails on the code. A request with a valid bearer token and a well-formed body
passes the Auth middleware, which stores the user under `UserKey` of type `contextKey`;
the recipe and variation handlers look up the key "user" of type `string` and the invite
handler the key "user_id", neither of which equals `UserKey`, so the lookup yields nil
and the type assertion panics.  The same handlers answer 201 when the context holds the
value under the string key, as the integration test setup stores it. -/
theorem handlers_behind_auth_do_not_find_the_user :
    Auth Example.mockValidateToken Example.createRecipe {}
        (Example.requestTo "Bearer valid-token" "Pancakes" [])
      = .panicked "interface conversion: interface {} is nil, not *models.User"
    ∧ Auth Example.mockValidateToken Example.createVariation {}
        (Example.requestTo "Bearer valid-token" "More milk" [])
      = .panicked "interface conversion: interface {} is nil, not *models.User"
    ∧ Auth Example.mockValidateToken Example.createInvite {}
        (Example.requestTo "Bearer valid-token" "carol@example.com" [])
      = .panicked "interface conversion: interface {} is nil, not string"
    ∧ UserKey ≠ stringKey "user"
    ∧ UserKey ≠ stringKey "user_id"
    ∧ Context.Value (WithValue [] UserKey (.user Example.aliceUser)) (stringKey "user") = none
    ∧ Example.createRecipe {}
        (Example.requestTo "" "Pancakes"
          (WithValue [] (stringKey "user") (.user Example.aliceUser)))
      = .ok { Code := 201, Body := "Pancakes", wroteHeader := true } := by
  decide

/-! ## Slugs -/

theorem map_eq_self_of_forall {α : Type} (f : α → α) (l : List α) (h : ∀ x ∈ l, f x = x) :
    l.map f = l := by
  induction l with
  | nil => rfl
  | cons a t ih =>
    simp only [List.map_cons]
    rw [h a (List.mem_cons_self _ _), ih (fun x hx => h x (List.mem_cons_of_mem _ hx))]

theorem filterMap_eq_self_of_forall {α : Type} (f : α → Option α) (l : List α)
    (h : ∀ x ∈ l, f x = some x) : l.filterMap f = l := by
  induction l with
  | nil => rfl
  | cons a t ih =>
    rw [List.filterMap_cons, h a (List.mem_cons_self _ _),
      ih (fun x hx => h x (List.mem_cons_of_mem _ hx))]

theorem unicodeToLower_dash (L : Lib) : unicodeToLower L '-' = '-' := by
  simp [unicodeToLower]

theorem generateSlug_eq_slugAsSpecified (L : Lib) (title : String) :
    generateSlug L title = slugAsSpecified L title := by
  simp only [generateSlug, slugAsSpecified, ToLower, Map, ReplaceAll]
  congr 1
  generalize title.data.map (unicodeToLower L) = l
  induction l with
  | nil => rfl
  | cons c t ih =>
    have h1 : ¬ ('-' = apostrophe) := by decide
    have h2 : ¬ ('-' = doubleQuote) := by decide
    have h3 : ¬ (' ' = apostrophe) := by decide
    have h4 : ¬ (' ' = doubleQuote) := by decide
    simp only [List.flatMap_cons, List.filterMap_cons, List.flatMap_append] at ih ⊢
    rw [ih]
    by_cases hs : c = ' '
    · subst hs
      simp [h1, h2]
    · by_cases ha : c = apostrophe
      · subst ha
        simp [hs]
      · by_cases hq : c = doubleQuote
        · subst hq
          simp [hs, ha]
        · simp [hs, ha, hq]

theorem slugAsSpecified_chars (L : Lib) (title : String) :
    ∀ c ∈ (slugAsSpecified L title).data,
      c ≠ ' ' ∧ c ≠ apostrophe ∧ c ≠ doubleQuote
        ∧ (c = '-' ∨ ∃ d, c = unicodeToLower L d) := by
  intro c hc
  simp only [slugAsSpecified, List.mem_filterMap, List.mem_map] at hc
  obtain ⟨a, ⟨d, _, hd⟩, ha⟩ := hc
  by_cases hs : a = ' '
  · simp only [hs, if_true, Option.some.injEq] at ha
    subst ha
    exact ⟨by decide, by decide, by decide, Or.inl rfl⟩
  · by_cases hq : a = apostrophe ∨ a = doubleQuote
    · simp [hs, hq] at ha
    · simp only [hs, hq, if_false, Option.some.injEq] at ha
      subst ha
      exact ⟨hs, fun h => hq (Or.inl h), fun h => hq (Or.inr h), Or.inr ⟨d, hd.symm⟩⟩

theorem slugAsSpecified_idempotent (L : Lib) (title : String)
    (hlower : ∀ c, unicodeToLower L (unicodeToLower L c) = unicodeToLower L c) :
    slugAsSpecified L (slugAsSpecified L title) = slugAsSpecified L title := by
  have hchars := slugAsSpecified_chars L title
  generalize slugAsSpecified L title = s at hchars
  simp only [slugAsSpecified]
  have hmap : s.data.map (unicodeToLower L) = s.data := by
    apply map_eq_self_of_forall
    intro c hc
    obtain ⟨_, _, _, h | ⟨d, hd⟩⟩ := hchars c hc
    · rw [h]; exact unicodeToLower_dash L
    · rw [hd]; exact hlower d
  rw [hmap]
  have hfm : s.data.filterMap (fun c =>
      if c = ' ' then some '-'
      else if c = apostrophe ∨ c = doubleQuote then none
      else some c) = s.data := by
    apply filterMap_eq_self_of_forall
    intro c hc
    obtain ⟨h1, h2, h3, _⟩ := hchars c hc
    simp [h1, h2, h3]
  rw [hfm]

theorem toNat_literals :
    'a'.toNat = 97 ∧ 'z'.toNat = 122 ∧ 'A'.toNat = 65 ∧ 'Z'.toNat = 90 ∧ '0'.toNat = 48
      ∧ '9'.toNat = 57 ∧ '-'.toNat = 45 ∧ ' '.toNat = 32 := by
  decide

theorem toNat_ofNat_upper : ∀ n < 91, 65 ≤ n → (Char.ofNat (n + 32)).toNat = n + 32 := by
  decide

theorem slugRune_eq (r : Char) :
    RecipeGroupService.slugRune r = if isSlugChar r then r else '-' := by
  by_cases h : ('a'.toNat ≤ r.toNat ∧ r.toNat ≤ 'z'.toNat)
      ∨ ('0'.toNat ≤ r.toNat ∧ r.toNat ≤ '9'.toNat) ∨ r = '-'
  · simp [RecipeGroupService.slugRune, isSlugChar, h]
  · simp [RecipeGroupService.slugRune, isSlugChar, h]

theorem isSlugChar_slugRune (r : Char) : isSlugChar (RecipeGroupService.slugRune r) = true := by
  rw [slugRune_eq]
  by_cases h : isSlugChar r = true
  · simp [h]
  · simp [h]
    decide

theorem unicodeToLower_space (L : Lib) : unicodeToLower L ' ' = ' ' := by
  simp [unicodeToLower]

theorem lowered_letterOrDigit (L : Lib) (c : Char) (h : isASCIILetterOrDigit c = true) :
    c ≠ ' ' ∧ isSlugChar (unicodeToLower L c) = true ∧ unicodeToLower L c ≠ '-' := by
  obtain ⟨ha, hz, hA, hZ, h0, h9, hd, hs⟩ := toNat_literals
  simp only [isASCIILetterOrDigit, decide_eq_true_eq, ha, hz, hA, hZ, h0, h9] at h
  have hne : ∀ x : Char, x.toNat ≠ 45 → x ≠ '-' := by
    intro x hx hxe
    rw [hxe] at hx
    exact hx hd
  refine ⟨?_, ?_⟩
  · intro hc
    rw [hc, hs] at h
    omega
  · rcases h with h | h | h
    · have hl : unicodeToLower L c = c := by
        have h1 : c.toNat ≤ 127 := by omega
        have h2 : ¬ (65 ≤ c.toNat ∧ c.toNat ≤ 90) := by omega
        simp [unicodeToLower, h1, hA, hZ, h2]
      rw [hl]
      refine ⟨?_, hne c (by omega)⟩
      simp only [isSlugChar, decide_eq_true_eq, ha, hz]
      exact Or.inl h
    · have hl : unicodeToLower L c = Char.ofNat (c.toNat + 32) := by
        have h1 : c.toNat ≤ 127 := by omega
        simp [unicodeToLower, h1, hA, hZ, ha, h]
      have hn := toNat_ofNat_upper c.toNat (by omega) h.1
      rw [hl]
      refine ⟨?_, hne _ (by omega)⟩
      simp only [isSlugChar, decide_eq_true_eq, ha, hz, hn]
      exact Or.inl (by omega)
    · have hl : unicodeToLower L c = c := by
        have h1 : c.toNat ≤ 127 := by omega
        have h2 : ¬ (65 ≤ c.toNat ∧ c.toNat ≤ 90) := by omega
        simp [unicodeToLower, h1, hA, hZ, h2]
      rw [hl]
      refine ⟨?_, hne c (by omega)⟩
      simp only [isSlugChar, decide_eq_true_eq, h0, h9]
      exact Or.inr (Or.inl h)

theorem mem_dropWhile_of_not {α : Type} (p : α → Bool) (l : List α) (x : α)
    (hx : x ∈ l) (hp : p x = false) : x ∈ l.dropWhile p := by
  induction l with
  | nil => cases hx
  | cons a t ih =>
    by_cases ha : p a = true
    · rw [List.dropWhile_cons_of_pos ha]
      rcases List.mem_cons.1 hx with h | h
      · rw [h, ha] at hp; cases hp
      · exact ih h
    · rw [List.dropWhile_cons_of_neg ha]
      exact hx

theorem trimmed_mem {α : Type} (p : α → Bool) (l : List α) :
    ∀ x ∈ (l.dropWhile p).rdropWhile p, x ∈ l := by
  intro x hx
  exact (List.dropWhile_sublist p).subset ((List.rdropWhile_prefix p _).sublist.subset hx)

theorem trimmed_ne_nil {α : Type} (p : α → Bool) (l : List α) (x : α)
    (hx : x ∈ l) (hp : p x = false) : (l.dropWhile p).rdropWhile p ≠ [] := by
  intro h
  rw [List.rdropWhile_eq_nil_iff] at h
  have := h x (mem_dropWhile_of_not p l x hx hp)
  rw [hp] at this
  cases this

theorem trimmed_head {α : Type} (p : α → Bool) (l : List α) (x : α)
    (h : ((l.dropWhile p).rdropWhile p).head? = some x) : p x = false := by
  have hpre := List.rdropWhile_prefix p (l.dropWhile p)
  obtain ⟨t, ht⟩ := hpre
  cases hd : (l.dropWhile p).rdropWhile p with
  | nil => rw [hd] at h; cases h
  | cons a rest =>
    rw [hd] at h ht
    simp only [List.head?_cons, Option.some.injEq] at h
    subst h
    have hne : l.dropWhile p ≠ [] := by
      rw [← ht]; simp
    have := List.head_dropWhile_not p l hne
    simp only [← ht, List.cons_append, List.head_cons] at this
    exact this

theorem trimmed_last {α : Type} (p : α → Bool) (l : List α) (x : α)
    (h : ((l.dropWhile p).rdropWhile p).getLast? = some x) : p x = false := by
  have hne : (l.dropWhile p).rdropWhile p ≠ [] := by
    intro h0
    rw [h0] at h
    cases h
  have := List.rdropWhile_last_not p (l.dropWhile p) hne
  rw [List.getLast?_eq_getLast _ hne] at h
  simp only [Option.some.injEq] at h
  rw [h] at this
  simpa using this

theorem utf8ByteSize_go_ge (l : List Char) : l.length ≤ String.utf8ByteSize.go l := by
  induction l with
  | nil => simp [String.utf8ByteSize.go]
  | cons c t ih =>
    have := Char.utf8Size_pos c
    simp only [String.utf8ByteSize.go, List.length_cons]
    omega

theorem utf8ByteSize_ge_length (s : String) : s.data.length ≤ s.utf8ByteSize := by
  cases s with
  | mk l => exact utf8ByteSize_go_ge l

theorem hextable_isSlugChar : ∀ c ∈ hextable, isSlugChar c = true ∧ c ≠ '-' := by
  decide

theorem replaceAll_space_data (name : String) :
    (ReplaceAll name ' ' "-").data = name.data.map (fun c => if c = ' ' then '-' else c) := by
  simp only [ReplaceAll]
  induction name.data with
  | nil => rfl
  | cons c t ih =>
    simp only [List.flatMap_cons, List.map_cons, ih]
    by_cases h : c = ' '
    · simp [h]
    · simp [h]

theorem generateSlug_trimmed (L : Lib) (name : String) (newID : UUID) (x : Char)
    (rest : List Char)
    (h : (((name.data.map (fun c => if c = ' ' then '-' else c)).map (unicodeToLower L)).map
        RecipeGroupService.slugRune |>.dropWhile (fun c => decide (c ∈ "-".data))
        |>.rdropWhile (fun c => decide (c ∈ "-".data))) = x :: rest) :
    RecipeGroupService.GenerateSlug L name newID = .ok (String.mk (x :: rest)) := by
  have hne : (String.mk (x :: rest)) ≠ "" := by
    intro h0
    have := congrArg String.data h0
    simp at this
  simp only [RecipeGroupService.GenerateSlug, Trim, Map, ToLower, replaceAll_space_data, h]
  simp [hne]

theorem generateSlug_fallback (L : Lib) (name : String) (newID : UUID)
    (h : (((name.data.map (fun c => if c = ' ' then '-' else c)).map (unicodeToLower L)).map
        RecipeGroupService.slugRune |>.dropWhile (fun c => decide (c ∈ "-".data))
        |>.rdropWhile (fun c => decide (c ∈ "-".data))) = [])
    (hlen : 8 ≤ (L.uuidString newID).data.length) :
    RecipeGroupService.GenerateSlug L name newID
      = .ok ("group-" ++ String.mk ((L.uuidString newID).data.take 8)) := by
  have hb := utf8ByteSize_ge_length (L.uuidString newID)
  have hnot : ¬ (L.uuidString newID).utf8ByteSize < 8 := by omega
  simp only [RecipeGroupService.GenerateSlug, Trim, Map, ToLower, replaceAll_space_data, h]
  simp [hnot]

theorem generateSlug_shape (L : Lib) (name : String) (newID : UUID)
    (hlen : 8 ≤ (L.uuidString newID).data.length)
    (hhex : ∀ c ∈ (L.uuidString newID).data.take 8, c ∈ hextable) :
    ∃ slug, RecipeGroupService.GenerateSlug L name newID = .ok slug
      ∧ slug ≠ ""
      ∧ (∀ c ∈ slug.data, isSlugChar c = true)
      ∧ slug.data.head? ≠ some '-'
      ∧ slug.data.getLast? ≠ some '-' := by
  cases ht : (((name.data.map (fun c => if c = ' ' then '-' else c)).map
      (unicodeToLower L)).map RecipeGroupService.slugRune
      |>.dropWhile (fun c => decide (c ∈ "-".data))
      |>.rdropWhile (fun c => decide (c ∈ "-".data))) with
  | nil =>
    refine ⟨_, generateSlug_fallback L name newID ht hlen, ?_, ?_, ?_, ?_⟩
    · intro h
      have := congrArg String.data h
      simp [String.data_append] at this
    · intro c hc
      simp only [String.data_append, List.mem_append] at hc
      rcases hc with hc | hc
      · revert c
        decide
      · exact (hextable_isSlugChar c (hhex c hc)).1
    · simp [String.data_append]
    · have hne : (L.uuidString newID).data.take 8 ≠ [] := by
        intro h0
        have := congrArg List.length h0
        rw [List.length_take] at this
        simp only [List.length_nil] at this
        omega
      simp only [String.data_append]
      rw [List.getLast?_append_of_ne_nil _ hne, List.getLast?_eq_getLast _ hne]
      intro h
      simp only [Option.some.injEq] at h
      have hm := List.getLast_mem hne
      rw [h] at hm
      exact (hextable_isSlugChar _ (hhex _ hm)).2 rfl
  | cons x rest =>
    refine ⟨_, generateSlug_trimmed L name newID x rest ht, ?_, ?_, ?_, ?_⟩
    · intro h
      have := congrArg String.data h
      simp at this
    · intro c hc
      have hc' : c ∈ x :: rest := hc
      rw [← ht] at hc'
      have hm := trimmed_mem _ _ c hc'
      simp only [List.mem_map] at hm
      obtain ⟨d, _, hd⟩ := hm
      rw [← hd]
      exact isSlugChar_slugRune d
    · intro h
      have h' : (x :: rest).head? = some '-' := h
      rw [← ht] at h'
      have := trimmed_head _ _ _ h'
      revert this
      decide
    · intro h
      have h' : (x :: rest).getLast? = some '-' := h
      rw [← ht] at h'
      have := trimmed_last _ _ _ h'
      revert this
      decide

theorem dash_cutset : (fun c : Char => decide (c ∈ "-".data)) = (fun c => decide (c = '-')) := by
  funext c
  simp

theorem slugRune_lowered (L : Lib) (c : Char) :
    RecipeGroupService.slugRune (unicodeToLower L (if c = ' ' then '-' else c))
      = if isSlugChar (unicodeToLower L c) then unicodeToLower L c else '-' := by
  by_cases h : c = ' '
  · subst h
    rw [if_pos rfl, unicodeToLower_dash, unicodeToLower_space, slugRune_eq]
    decide
  · rw [if_neg h, slugRune_eq]

theorem generateSlug_of_letterOrDigit (L : Lib) (name : String) (newID : UUID)
    (h : ∃ c ∈ name.data, isASCIILetterOrDigit c = true) :
    RecipeGroupService.GenerateSlug L name newID = .ok (groupSlugAsSpecified L name) := by
  obtain ⟨c, hc, hl⟩ := h
  obtain ⟨hsp, hslug, hdash⟩ := lowered_letterOrDigit L c hl
  have hM : ((name.data.map (fun c => if c = ' ' then '-' else c)).map (unicodeToLower L)).map
        RecipeGroupService.slugRune
      = (name.data.map (unicodeToLower L)).map (fun c => if isSlugChar c then c else '-') := by
    simp only [List.map_map]
    apply List.map_congr_left
    intro a _
    exact slugRune_lowered L a
  have hx : unicodeToLower L c
      ∈ (name.data.map (unicodeToLower L)).map (fun c => if isSlugChar c then c else '-') := by
    simp only [List.mem_map]
    exact ⟨unicodeToLower L c, ⟨c, hc, rfl⟩, by simp [hslug]⟩
  have hne := trimmed_ne_nil (fun c : Char => decide (c = '-')) _ _ hx (by simp [hdash])
  have hstrip : groupSlugAsSpecified L name
      = String.mk ((((name.data.map (unicodeToLower L)).map
          (fun c => if isSlugChar c then c else '-')).dropWhile
            (fun c => decide (c = '-'))).rdropWhile (fun c => decide (c = '-'))) := by
    simp only [groupSlugAsSpecified, stripDashes, List.rdropWhile]
  rw [hstrip]
  cases ht : ((((name.data.map (unicodeToLower L)).map
          (fun c => if isSlugChar c then c else '-')).dropWhile
            (fun c => decide (c = '-'))).rdropWhile (fun c => decide (c = '-'))) with
  | nil => exact absurd ht hne
  | cons x rest =>
    apply generateSlug_trimmed
    rw [hM, dash_cutset]
    exact ht


theorem example_lower_idempotent (c : Char) :
    unicodeToLower (Example.lib []) (unicodeToLower (Example.lib []) c)
      = unicodeToLower (Example.lib []) c := by
  by_cases h : c.toNat ≤ 127
  · have key : ∀ n < 128, unicodeToLower (Example.lib []) (unicodeToLower (Example.lib [])
        (Char.ofNat n)) = unicodeToLower (Example.lib []) (Char.ofNat n) := by
      decide
    have := key c.toNat (by omega)
    rw [Char.ofNat_toNat] at this
    exact this
  · have hc : unicodeToLower (Example.lib []) c = c := by
      simp [unicodeToLower, h, Example.lib]
    rw [hc, hc]

/-- C24. For every title, `generateCategorySlug` and `generateTagSlug` return what
`generateSlug` returns, which is the title lowercased with every space replaced by '-'
and every apostrophe and double quote removed; the result holds no space, apostrophe or
double quote; and, the lower-case mapping of `unicode.ToLower` leaving its own results
unchanged, `generateSlug` of the result is the result. -/
theorem generateSlug_lowercase_dashed_unquoted (L : Lib) (title : String) :
    generateCategorySlug L title = generateSlug L title
      ∧ generateTagSlug L title = generateSlug L title
      ∧ generateSlug L title = slugAsSpecified L title
      ∧ ' ' ∉ (generateSlug L title).data
      ∧ apostrophe ∉ (generateSlug L title).data
      ∧ doubleQuote ∉ (generateSlug L title).data
      ∧ ((∀ c, unicodeToLower L (unicodeToLower L c) = unicodeToLower L c) →
        generateSlug L (generateSlug L title) = generateSlug L title) := by
  have hspec := generateSlug_eq_slugAsSpecified L
  have hchars := slugAsSpecified_chars L title
  refine ⟨rfl, rfl, hspec title, ?_, ?_, ?_, ?_⟩
  · rw [hspec]
    exact fun h => (hchars _ h).1 rfl
  · rw [hspec]
    exact fun h => (hchars _ h).2.1 rfl
  · rw [hspec]
    exact fun h => (hchars _ h).2.2.1 rfl
  · intro hlower
    rw [hspec, hspec]
    exact slugAsSpecified_idempotent L title hlower

theorem generateSlug_lowercase_dashed_unquoted_witness :
    generateSlug (Example.lib []) (generateSlug (Example.lib []) "Chef's Special")
        = generateSlug (Example.lib []) "Chef's Special"
      ∧ generateSlug (Example.lib []) "Chef's Special" = "chefs-special"
      ∧ generateSlug (Example.lib []) "\"Best\" Recipe" = "best-recipe"
      ∧ generateSlug (Example.lib []) "Fluffy Pancakes" = "fluffy-pancakes" :=
  ⟨(generateSlug_lowercase_dashed_unquoted (Example.lib []) "Chef's Special").2.2.2.2.2.2
      example_lower_idempotent,
    by decide, by decide, by decide⟩

/-- C25. For every name: where the text of the new UUID starts with 8 hexadecimal digits
(as `UUID.String` gives it), `GenerateSlug` returns a non-empty text made only of the
characters a-z, 0-9 and '-' that neither begins nor ends with '-'; and when the name holds
an ASCII letter or digit, `GenerateSlug` returns the lowercased name with every character
that is not one of a-z, 0-9 and '-' (a space among them) replaced by '-' and the leading
and trailing '-' trimmed. -/
theorem recipeGroup_generateSlug_shape (L : Lib) (name : String) (newID : UUID) :
    ((8 ≤ (L.uuidString newID).data.length
          ∧ ∀ c ∈ (L.uuidString newID).data.take 8, c ∈ hextable) →
        ∃ slug, RecipeGroupService.GenerateSlug L name newID = .ok slug
          ∧ slug ≠ ""
          ∧ (∀ c ∈ slug.data, isSlugChar c = true)
          ∧ slug.data.head? ≠ some '-'
          ∧ slug.data.getLast? ≠ some '-')
      ∧ ((∃ c ∈ name.data, isASCIILetterOrDigit c = true) →
        RecipeGroupService.GenerateSlug L name newID = .ok (groupSlugAsSpecified L name)) :=
  ⟨fun h => generateSlug_shape L name newID h.1 h.2,
    generateSlug_of_letterOrDigit L name newID⟩

theorem recipeGroup_generateSlug_shape_witness :
    (∃ slug, RecipeGroupService.GenerateSlug Example.hexLib "!!!" ⟨10⟩ = .ok slug
        ∧ slug ≠ ""
        ∧ (∀ c ∈ slug.data, isSlugChar c = true)
        ∧ slug.data.head? ≠ some '-'
        ∧ slug.data.getLast? ≠ some '-')
      ∧ RecipeGroupService.GenerateSlug (Example.lib []) "Sunday's Best!" ⟨3⟩
        = .ok (groupSlugAsSpecified (Example.lib []) "Sunday's Best!")
      ∧ groupSlugAsSpecified (Example.lib []) "Sunday's Best!" = "sunday-s-best"
      ∧ RecipeGroupService.GenerateSlug (Example.lib []) "  Quick  Meals  " ⟨3⟩
        = .ok "quick--meals"
      ∧ RecipeGroupService.GenerateSlug Example.hexLib "!!!" ⟨10⟩ = .ok "group-00000000" :=
  ⟨(recipeGroup_generateSlug_shape Example.hexLib "!!!" ⟨10⟩).1 (by decide),
    (recipeGroup_generateSlug_shape (Example.lib []) "Sunday's Best!" ⟨3⟩).2 (by decide),
    by decide, by decide, by decide⟩

end HomeCooking
